import Mathlib

/-!
# DingoFS client block cache: disk cache and uploader

A shallow embedding of `src/client/blockcache/disk_cache.cpp` and
`src/client/blockcache/block_cache_uploader.cpp`.

Stateful C++ objects become explicit state records that are passed in and
returned.  Every call a method makes on a collaborator (local filesystem, LRU
manager, upload function, object store, in-flight counter) is appended to a
trace kept in the state, so that "is called once", "is not called" and "is
called after" are statements about that trace.

Collaborators whose sources are not part of the repository snapshot
(`LocalFileSystem`, `DiskCacheManager`, `DiskCacheLayout`, `Countdown`, the
queues, the error enum) are modelled from the specification; each such
definition says so in its doc comment.
-/

namespace DingoFS

/-! ## Data model -/

/-- Modelled from the spec: `client/blockcache/error.h` is missing.  The codes
are the error taxonomy of the specification (section 7) under the names the
sources use (`BCACHE_ERROR::OK`, `NOT_FOUND`, `CACHE_DOWN`, `CACHE_UNHEALTHY`,
`CACHE_FULL`, `NOT_SUPPORTED`); `IO_ERROR` is the catch-all `Io`. -/
inductive BCACHE_ERROR where
  | OK
  | NOT_FOUND
  | CACHE_DOWN
  | CACHE_UNHEALTHY
  | CACHE_FULL
  | NOT_SUPPORTED
  | IO_ERROR
deriving DecidableEq, Repr

/-- Modelled from the spec: `BlockKey` is declared in the missing
`cache_store.h`; fields as in the data model (`key.ino` is the name used by
the uploader). -/
structure BlockKey where
  fs_id : Nat
  ino : Nat
  id : Nat
  index : Nat
  version : Nat
deriving DecidableEq, Repr

/-- Modelled from the spec: the fixed filename `{fs}_{ino}_{chunk}_{index}_{ver}`
of a key (`BlockKey::Filename` is in the missing `cache_store.h`). -/
def BlockKey.Filename (k : BlockKey) : String :=
  toString k.fs_id ++ "_" ++ toString k.ino ++ "_" ++ toString k.id ++ "_" ++
    toString k.index ++ "_" ++ toString k.version

/-- Modelled from the spec: `BlockFrom` (missing `cache_store.h`), the three
origins of the data model; `CTO_FLUSH` is the name used by the sources. -/
inductive BlockFrom where
  | CTO_FLUSH
  | NOCTO_FLUSH
  | RELOAD
deriving DecidableEq, Repr

/-- Modelled from the spec: the scheduling hint `BlockContext` (missing
`cache_store.h`); its field `from` is written `from_`. -/
structure BlockContext where
  from_ : BlockFrom
deriving DecidableEq, Repr

/-- Modelled from the spec: an in-memory `Block` (missing `cache_store.h`): the
bytes at `data`; `size` is their number. -/
structure Block where
  data : List Nat
deriving DecidableEq, Repr

/-- The `size` member of a `Block`. -/
def Block.size (b : Block) : Nat := b.data.length

/-- Modelled from the spec: the LRU payload `CacheValue(size, atime)` (declared
in a missing header). -/
structure CacheValue where
  size : Nat
  atime : Nat
deriving DecidableEq, Repr

/-- Modelled from the spec: the health states of the disk state machine
(`DiskState`, missing); the sources only name `kDiskStateNormal`. -/
inductive DiskState where
  | kDiskStateNormal
  | kDiskStateUnstable
  | kDiskStateBad
deriving DecidableEq, Repr

/-! ## Local filesystem (collaborator) -/

/-- A call on the local filesystem, used to index injected faults. -/
inductive FsCall where
  | WriteFile (path : String)
  | HardLink (oldpath newpath : String)
  | RemoveFile (path : String)
  | ReadFile (path : String)
  | Open (path : String)
  | LSeek (fd : Nat)
  | Read (fd : Nat)
  | MkDirs (path : String)
  | Create (path : String)
  | Close (fd : Nat)
  | Unlink (path : String)
deriving DecidableEq, Repr

/-- Modelled from the spec: `LocalFileSystem` / `PosixFileSystem` are missing.
`files` maps a path to the bytes of the file of that name, `fds` maps an open
descriptor to the bytes it reads and its position.  `fault` is the
environment: a code other than `OK` makes the call fail with that code and
without effect; `OK` lets the call proceed (`LocalFs` of the specification:
every call returns a code of an error sum containing `Ok`, `NotFound`, `Io`).
`dirs` tells which directories exist. -/
structure LocalFileSystem where
  files : String → Option (List Nat)
  fds : Nat → Option (List Nat × Nat)
  next_fd : Nat
  fault : FsCall → BCACHE_ERROR
  dirs : String → Bool := fun _ => false

namespace LocalFileSystem

/-- Modelled from the spec: `LocalFileSystem::FileExists` (missing), whether a
file of that name exists (`exists`). -/
def FileExists (fs : LocalFileSystem) (path : String) : Bool :=
  (fs.files path).isSome

/-- Modelled from the spec: `LocalFileSystem::WriteFile` (missing) creates or
replaces the file `path` with `data` (`write_file`). -/
def WriteFile (fs : LocalFileSystem) (path : String) (data : List Nat) :
    BCACHE_ERROR × LocalFileSystem :=
  if fs.fault (.WriteFile path) ≠ .OK then (fs.fault (.WriteFile path), fs)
  else (.OK, { fs with files := fun p => if p = path then some data else fs.files p })

/-- Modelled from the spec: `LocalFileSystem::HardLink` (missing) makes
`newpath` a second name of the file `oldpath` (`hardlink`): it fails with
`NOT_FOUND` when `oldpath` is missing and with `IO_ERROR` when `newpath`
already exists. -/
def HardLink (fs : LocalFileSystem) (oldpath newpath : String) :
    BCACHE_ERROR × LocalFileSystem :=
  if fs.fault (.HardLink oldpath newpath) ≠ .OK then (fs.fault (.HardLink oldpath newpath), fs)
  else
    match fs.files oldpath with
    | none => (.NOT_FOUND, fs)
    | some data =>
      if (fs.files newpath).isSome then (.IO_ERROR, fs)
      else (.OK, { fs with files := fun p => if p = newpath then some data else fs.files p })

/-- Modelled from the spec: `LocalFileSystem::RemoveFile` (missing) removes the
name `path` (`unlink`): `NOT_FOUND` when there is no such file. -/
def RemoveFile (fs : LocalFileSystem) (path : String) : BCACHE_ERROR × LocalFileSystem :=
  if fs.fault (.RemoveFile path) ≠ .OK then (fs.fault (.RemoveFile path), fs)
  else
    match fs.files path with
    | none => (.NOT_FOUND, fs)
    | some _ => (.OK, { fs with files := fun p => if p = path then none else fs.files p })

/-- Modelled from the spec: `LocalFileSystem::ReadFile` (missing) reads the
whole file `path` (`read_file`): `NOT_FOUND` when there is no such file. -/
def ReadFile (fs : LocalFileSystem) (path : String) : BCACHE_ERROR × List Nat :=
  if fs.fault (.ReadFile path) ≠ .OK then (fs.fault (.ReadFile path), [])
  else
    match fs.files path with
    | none => (.NOT_FOUND, [])
    | some data => (.OK, data)

/-- Modelled from the spec: `posix->Open(path, O_RDONLY, &fd)` (missing) gives a
new descriptor on the bytes of the file, positioned at 0; `NOT_FOUND` when there is no such file. -/
def Open (fs : LocalFileSystem) (path : String) : BCACHE_ERROR × Nat × LocalFileSystem :=
  if fs.fault (.Open path) ≠ .OK then (fs.fault (.Open path), 0, fs)
  else
    match fs.files path with
    | none => (.NOT_FOUND, 0, fs)
    | some data =>
      (.OK, fs.next_fd,
        { fs with
          fds := fun d => if d = fs.next_fd then some (data, 0) else fs.fds d
          next_fd := fs.next_fd + 1 })

/-- Modelled from the spec: `posix->LSeek(fd, offset, SEEK_SET)` (missing) sets
the position of an open descriptor. -/
def LSeek (fs : LocalFileSystem) (fd : Nat) (offset : Nat) : BCACHE_ERROR × LocalFileSystem :=
  if fs.fault (.LSeek fd) ≠ .OK then (fs.fault (.LSeek fd), fs)
  else
    match fs.fds fd with
    | none => (.IO_ERROR, fs)
    | some (data, _) =>
      (.OK, { fs with fds := fun d => if d = fd then some (data, offset) else fs.fds d })

/-- Modelled from the spec: `posix->Read(fd, buffer, length)` (missing) reads
the `length` bytes at the position of the descriptor (fewer at the end of the file); the position advances. -/
def Read (fs : LocalFileSystem) (fd : Nat) (length : Nat) :
    BCACHE_ERROR × List Nat × LocalFileSystem :=
  if fs.fault (.Read fd) ≠ .OK then (fs.fault (.Read fd), [], fs)
  else
    match fs.fds fd with
    | none => (.IO_ERROR, [], fs)
    | some (data, pos) =>
      (.OK, (data.drop pos).take length,
        { fs with
          fds := fun d =>
            if d = fd then some (data, pos + ((data.drop pos).take length).length)
            else fs.fds d })

/-- Modelled from the spec: `LocalFileSystem::MkDirs` (missing), `mkdir_p`: the
directory exists afterwards; it fails with `IO_ERROR` when a file has that
name. -/
def MkDirs (fs : LocalFileSystem) (path : String) : BCACHE_ERROR × LocalFileSystem :=
  if fs.fault (.MkDirs path) ≠ .OK then (fs.fault (.MkDirs path), fs)
  else if (fs.files path).isSome then (.IO_ERROR, fs)
  else (.OK, { fs with dirs := fun p => if p = path then true else fs.dirs p })

/-- Modelled from the spec: `posix->Create(path, &fd, use_direct)` (missing)
creates an empty file and gives a descriptor on it; the environment decides
whether the filesystem supports the requested mode. -/
def Create (fs : LocalFileSystem) (path : String) : BCACHE_ERROR × Nat × LocalFileSystem :=
  if fs.fault (.Create path) ≠ .OK then (fs.fault (.Create path), 0, fs)
  else
    (.OK, fs.next_fd,
      { fs with
        files := fun p => if p = path then some [] else fs.files p
        fds := fun d => if d = fs.next_fd then some ([], 0) else fs.fds d
        next_fd := fs.next_fd + 1 })

/-- Modelled from the spec: `posix->Close(fd)` (missing) releases the
descriptor. -/
def Close (fs : LocalFileSystem) (fd : Nat) : BCACHE_ERROR × LocalFileSystem :=
  if fs.fault (.Close fd) ≠ .OK then (fs.fault (.Close fd), fs)
  else
    match fs.fds fd with
    | none => (.IO_ERROR, fs)
    | some _ => (.OK, { fs with fds := fun d => if d = fd then none else fs.fds d })

/-- Modelled from the spec: `posix->Unlink(path)` (missing) removes the name
`path`: `NOT_FOUND` when there is no such file. -/
def Unlink (fs : LocalFileSystem) (path : String) : BCACHE_ERROR × LocalFileSystem :=
  if fs.fault (.Unlink path) ≠ .OK then (fs.fault (.Unlink path), fs)
  else
    match fs.files path with
    | none => (.NOT_FOUND, fs)
    | some _ => (.OK, { fs with files := fun p => if p = path then none else fs.files p })

end LocalFileSystem

/-! ## Capacity manager (collaborator) -/

/-- Modelled from the spec: `DiskCacheManager` is missing.  `lru` is the
recency list (most recently used first); `stage_full` and `cache_full` are the
cached answers of the two capacity predicates consulted by admission. -/
structure DiskCacheManager where
  lru : List (BlockKey × CacheValue)
  stage_full : Bool
  cache_full : Bool
deriving DecidableEq, Repr

namespace DiskCacheManager

/-- Modelled from the spec: the entry of `key` in the recency list, if any. -/
def find (m : DiskCacheManager) (key : BlockKey) : Option CacheValue :=
  (m.lru.find? (fun e => e.1 = key)).map (fun e => e.2)

/-- Modelled from the spec: `DiskCacheManager::Add` (missing), `add(key, value)`:
idempotent on the key; the entry becomes the most recently used one. -/
def Add (m : DiskCacheManager) (key : BlockKey) (value : CacheValue) : DiskCacheManager :=
  { m with lru := (key, value) :: m.lru.filter (fun e => e.1 ≠ key) }

/-- Modelled from the spec: `DiskCacheManager::Get` (missing), `get(key)`:
touches the entry (it becomes the most recently used one, with access time
`now`); `NOT_FOUND` if absent. -/
def Get (m : DiskCacheManager) (key : BlockKey) (now : Nat) :
    BCACHE_ERROR × CacheValue × DiskCacheManager :=
  match m.find key with
  | none => (.NOT_FOUND, ⟨0, 0⟩, m)
  | some v => (.OK, v, { m with lru := (key, ⟨v.size, now⟩) :: m.lru.filter (fun e => e.1 ≠ key) })

/-- Modelled from the spec: `DiskCacheManager::Delete` (missing), `delete(key)`,
list part: the entry is removed. -/
def Delete (m : DiskCacheManager) (key : BlockKey) : DiskCacheManager :=
  { m with lru := m.lru.filter (fun e => e.1 ≠ key) }

end DiskCacheManager

/-! ## DiskCache -/

/-- The counters of `DiskCacheMetric` touched by the operations below. -/
structure DiskCacheMetric where
  stage_blocks : Int
  stage_skips : Nat
  cache_hits : Nat
  cache_misses : Nat
deriving DecidableEq, Repr

/-- The components `DiskCache::Init` starts with a call without arguments:
`disk_state_machine_`, `disk_state_health_checker_` and `manager_`. -/
inductive Component where
  | disk_state_machine
  | disk_state_health_checker
  | manager
deriving DecidableEq, Repr

/-- A call made by `DiskCache` on one of its collaborators, with its result. -/
inductive Event where
  | WriteFile (path : String) (data : List Nat) (direct : Bool) (rc : BCACHE_ERROR)
  | HardLink (oldpath newpath : String) (rc : BCACHE_ERROR)
  | RemoveFile (path : String) (rc : BCACHE_ERROR)
  | Open (path : String) (rc : BCACHE_ERROR)
  | FileExists (path : String) (found : Bool)
  | Add (key : BlockKey) (value : CacheValue)
  | Get (key : BlockKey) (rc : BCACHE_ERROR)
  | Delete (key : BlockKey)
  | Upload (key : BlockKey) (stage_path : String) (ctx : BlockContext)
  | MkDirs (path : String) (rc : BCACHE_ERROR)
  | ReadFile (path : String) (rc : BCACHE_ERROR)
  | Create (path : String) (direct : Bool) (rc : BCACHE_ERROR)
  | Close (fd : Nat)
  | Unlink (path : String) (rc : BCACHE_ERROR)
  | MetricInit
  | SetUseDirectWrite (use_direct_write : Bool)
  | Start (component : Component)
  | LoaderStart (uuid : List Nat) (uploader : Nat)
  | SetUuid (uuid : List Nat)
  | SetRunningStatus (up : Bool)
deriving DecidableEq, Repr

/-- The state of one `DiskCache` object together with the disk it manages.
`root_dir` stands for `layout_`, `disk_state` for `disk_state_machine_`,
`loading` for `loader_->IsLoading()`, `now` for the clock read by `TimeNow()`,
and `trace` records the collaborator calls made so far (oldest first).
`uuid` is `uuid_` (as bytes) and `uploader_` the stored upload function
(identified by a number, `none` before one is stored). -/
structure DiskCache where
  running : Bool
  use_direct_write : Bool
  root_dir : String
  disk_state : DiskState
  fs : LocalFileSystem
  manager : DiskCacheManager
  loading : Bool
  metric : DiskCacheMetric
  now : Nat
  trace : List Event
  uuid : List Nat := []
  uploader_ : Option Nat := none

/-- Modelled from the spec: the bytes `TrimSpace` (missing `base/string`)
strips at both ends: the blank and the ASCII control characters 9 to 13. -/
def isSpace (c : Nat) : Bool := c = 32 ∨ (9 ≤ c ∧ c ≤ 13)

/-- Modelled from the spec: `TrimSpace` (missing `base/string`), the text
without the white space at its ends. -/
def TrimSpace (text : List Nat) : List Nat :=
  ((text.dropWhile isSpace).reverse.dropWhile isSpace).reverse

/-- Modelled from the spec: the bit `WANT_EXEC` of the admission bitmask
(declared in the missing `disk_cache.h`). -/
def WANT_EXEC : Nat := 1

/-- Modelled from the spec: the bit `WANT_STAGE` of the admission bitmask. -/
def WANT_STAGE : Nat := 2

/-- Modelled from the spec: the bit `WANT_CACHE` of the admission bitmask. -/
def WANT_CACHE : Nat := 4

/-- The handle `BlockReaderImpl(fd, fs_)`; `fs_` is the filesystem of the disk
state the reader is used with. -/
structure BlockReaderImpl where
  fd : Nat
deriving DecidableEq, Repr

namespace DiskCache

/-- The events appended to the trace between state `s` and a later state `t`. -/
def newEvents (s t : DiskCache) : List Event := t.trace.drop s.trace.length

/-- Modelled from the spec: `layout_->GetStagePath(key)` is `stage/{filename}`
under the root. -/
def GetStagePath (s : DiskCache) (key : BlockKey) : String :=
  s.root_dir ++ "/stage/" ++ key.Filename

/-- Modelled from the spec: `layout_->GetCachePath(key)` is `cache/{filename}`
under the root. -/
def GetCachePath (s : DiskCache) (key : BlockKey) : String :=
  s.root_dir ++ "/cache/" ++ key.Filename

/-- Embedding of `DiskCache::IsHealthy`. -/
def IsHealthy (s : DiskCache) : Bool := s.disk_state = .kDiskStateNormal

/-- Embedding of `DiskCache::StageFull`. -/
def StageFull (s : DiskCache) : Bool := s.manager.stage_full

/-- Embedding of `DiskCache::CacheFull`. -/
def CacheFull (s : DiskCache) : Bool := s.manager.cache_full

/-- Embedding of `DiskCache::Check(uint8_t want)`. -/
def Check (s : DiskCache) (want : Nat) : BCACHE_ERROR :=
  if !s.running then .CACHE_DOWN
  else if (want &&& WANT_EXEC) ≠ 0 ∧ !s.IsHealthy then .CACHE_UNHEALTHY
  else if (want &&& WANT_STAGE) ≠ 0 ∧ s.StageFull then .CACHE_FULL
  else if (want &&& WANT_CACHE) ≠ 0 ∧ s.CacheFull then .CACHE_FULL
  else .OK

/-- The call `fs_->WriteFile(path, data, size, direct)`, recorded in the trace. -/
def fsWriteFile (s : DiskCache) (path : String) (data : List Nat) (direct : Bool) :
    BCACHE_ERROR × DiskCache :=
  ((s.fs.WriteFile path data).1,
    { s with fs := (s.fs.WriteFile path data).2,
             trace := s.trace ++ [.WriteFile path data direct (s.fs.WriteFile path data).1] })

/-- The call `fs_->HardLink(oldpath, newpath)`, recorded in the trace. -/
def fsHardLink (s : DiskCache) (oldpath newpath : String) : BCACHE_ERROR × DiskCache :=
  ((s.fs.HardLink oldpath newpath).1,
    { s with fs := (s.fs.HardLink oldpath newpath).2,
             trace := s.trace ++ [.HardLink oldpath newpath (s.fs.HardLink oldpath newpath).1] })

/-- The call `fs_->RemoveFile(path)`, recorded in the trace. -/
def fsRemoveFile (s : DiskCache) (path : String) : BCACHE_ERROR × DiskCache :=
  ((s.fs.RemoveFile path).1,
    { s with fs := (s.fs.RemoveFile path).2,
             trace := s.trace ++ [.RemoveFile path (s.fs.RemoveFile path).1] })

/-- The call `posix->Open(path, O_RDONLY, &fd)` inside `fs_->Do`, recorded in the trace. -/
def fsOpen (s : DiskCache) (path : String) : BCACHE_ERROR × Nat × DiskCache :=
  ((s.fs.Open path).1, (s.fs.Open path).2.1,
    { s with fs := (s.fs.Open path).2.2,
             trace := s.trace ++ [.Open path (s.fs.Open path).1] })

/-- The call `fs_->FileExists(path)`, recorded in the trace. -/
def fsFileExists (s : DiskCache) (path : String) : Bool × DiskCache :=
  (s.fs.FileExists path, { s with trace := s.trace ++ [.FileExists path (s.fs.FileExists path)] })

/-- The call `manager_->Add(key, value)`, recorded in the trace. -/
def managerAdd (s : DiskCache) (key : BlockKey) (value : CacheValue) : DiskCache :=
  { s with manager := s.manager.Add key value, trace := s.trace ++ [.Add key value] }

/-- The call `manager_->Get(key, &value)`, recorded in the trace. -/
def managerGet (s : DiskCache) (key : BlockKey) : BCACHE_ERROR × CacheValue × DiskCache :=
  ((s.manager.Get key s.now).1, (s.manager.Get key s.now).2.1,
    { s with manager := (s.manager.Get key s.now).2.2,
             trace := s.trace ++ [.Get key (s.manager.Get key s.now).1] })

/-- Modelled from the spec: `manager_->Delete(key)` removes the entry and
deletes the underlying cache file (when there is one); recorded in the trace. -/
def managerDelete (s : DiskCache) (key : BlockKey) : DiskCache :=
  { s with manager := s.manager.Delete key,
           fs := (s.fs.RemoveFile (s.GetCachePath key)).2,
           trace := s.trace ++ [.Delete key] }

/-- The call `uploader_(key, stage_path, ctx)` of the injected upload function:
a submission, recorded in the trace. -/
def uploader (s : DiskCache) (key : BlockKey) (stage_path : String) (ctx : BlockContext) :
    DiskCache :=
  { s with trace := s.trace ++ [.Upload key stage_path ctx] }

/-- The cleanup `metric_guard` of `Stage`, run with the final value of `rc`. -/
def stageMetricGuard (s : DiskCache) (rc : BCACHE_ERROR) : DiskCache :=
  if rc = .OK then { s with metric := { s.metric with stage_blocks := s.metric.stage_blocks + 1 } }
  else { s with metric := { s.metric with stage_skips := s.metric.stage_skips + 1 } }

/-- The cleanup `metric_guard` of `RemoveStage`, run with the final value of `rc`. -/
def removeStageMetricGuard (s : DiskCache) (rc : BCACHE_ERROR) : DiskCache :=
  if rc = .OK then { s with metric := { s.metric with stage_blocks := s.metric.stage_blocks + (-1) } }
  else s

/-- The cleanup `metric_guard` of `Load`, run with the final value of the
local variable `rc`. -/
def loadMetricGuard (s : DiskCache) (rc : BCACHE_ERROR) : DiskCache :=
  if rc = .OK then { s with metric := { s.metric with cache_hits := s.metric.cache_hits + 1 } }
  else { s with metric := { s.metric with cache_misses := s.metric.cache_misses + 1 } }

/-- Embedding of `DiskCache::Stage(key, block, ctx)`. -/
def Stage (s : DiskCache) (key : BlockKey) (block : Block) (ctx : BlockContext) :
    BCACHE_ERROR × DiskCache :=
  let rc := s.Check (WANT_EXEC ||| WANT_STAGE)
  if rc ≠ .OK then (rc, s.stageMetricGuard rc)
  else
    let stage_path := s.GetStagePath key
    let cache_path := s.GetCachePath key
    let w := s.fsWriteFile stage_path block.data s.use_direct_write
    if w.1 ≠ .OK then (w.1, w.2.stageMetricGuard w.1)
    else
      let l := w.2.fsHardLink stage_path cache_path
      let r :=
        if l.1 = .OK then (l.1, l.2.managerAdd key ⟨block.size, l.2.now⟩)
        else (BCACHE_ERROR.OK, l.2)  -- ignore link error
      let s3 := r.2.uploader key stage_path ctx
      (r.1, s3.stageMetricGuard r.1)

/-- Embedding of `DiskCache::RemoveStage(key, ctx)`. -/
def RemoveStage (s : DiskCache) (key : BlockKey) (_ctx : BlockContext) :
    BCACHE_ERROR × DiskCache :=
  let r := s.fsRemoveFile (s.GetStagePath key)
  (r.1, r.2.removeStageMetricGuard r.1)

/-- Embedding of `DiskCache::IsCached(key)`. -/
def IsCached (s : DiskCache) (key : BlockKey) : Bool × DiskCache :=
  let cache_path := s.GetCachePath key
  let g := s.managerGet key
  if g.1 = .OK then (true, g.2.2)
  else if g.2.2.loading then
    let e := g.2.2.fsFileExists cache_path
    if e.1 then (true, e.2) else (false, e.2)
  else (false, g.2.2)

/-- Embedding of `DiskCache::Load(key, reader)`: the code returned, the reader stored in
the output parameter (if any) and the new state. -/
def Load (s : DiskCache) (key : BlockKey) : BCACHE_ERROR × Option BlockReaderImpl × DiskCache :=
  let rc := s.Check WANT_EXEC
  if rc ≠ .OK then (rc, none, s.loadMetricGuard rc)
  else
    let c := s.IsCached key
    -- `return NOT_FOUND` leaves the local `rc` (OK) as the guard sees it
    if !c.1 then (.NOT_FOUND, none, c.2.loadMetricGuard rc)
    else
      let o := c.2.fsOpen (c.2.GetCachePath key)
      let reader := if o.1 = .OK then some (BlockReaderImpl.mk o.2.1) else none
      let s2 := if o.1 = .NOT_FOUND then o.2.2.managerDelete key else o.2.2
      (o.1, reader, s2.loadMetricGuard o.1)

/-- Embedding of `DiskCache::Cache(key, block)`.  The write leaves the fourth
argument of `WriteFile` to its default, recorded as buffered (`false`). -/
def Cache (s : DiskCache) (key : BlockKey) (block : Block) : BCACHE_ERROR × DiskCache :=
  let rc := s.Check (WANT_EXEC ||| WANT_CACHE)
  if rc ≠ .OK then (rc, s)
  else
    let w := s.fsWriteFile (s.GetCachePath key) block.data false
    if w.1 ≠ .OK then (w.1, w.2)
    else (w.1, w.2.managerAdd key ⟨block.size, w.2.now⟩)

/-- Modelled from the spec: `layout_->GetRootDir()`. -/
def GetRootDir (s : DiskCache) : String := s.root_dir

/-- Modelled from the spec: `layout_->GetStageDir()`, the directory `stage/`. -/
def GetStageDir (s : DiskCache) : String := s.root_dir ++ "/stage"

/-- Modelled from the spec: `layout_->GetCacheDir()`, the directory `cache/`. -/
def GetCacheDir (s : DiskCache) : String := s.root_dir ++ "/cache"

/-- Modelled from the spec: `layout_->GetProbeDir()`, the directory `probe/`. -/
def GetProbeDir (s : DiskCache) : String := s.root_dir ++ "/probe"

/-- Modelled from the spec: `layout_->GetLockPath()`, the file `lock`. -/
def GetLockPath (s : DiskCache) : String := s.root_dir ++ "/lock"

/-- Modelled from the spec: `layout_->GetDetectPath()`, the file `detect`. -/
def GetDetectPath (s : DiskCache) : String := s.root_dir ++ "/detect"

/-- The call `fs_->MkDirs(dir)`, recorded in the trace. -/
def fsMkDirs (s : DiskCache) (dir : String) : BCACHE_ERROR × DiskCache :=
  ((s.fs.MkDirs dir).1,
    { s with fs := (s.fs.MkDirs dir).2, trace := s.trace ++ [.MkDirs dir (s.fs.MkDirs dir).1] })

/-- The call `fs_->ReadFile(path, buffer, &length)`, recorded in the trace. -/
def fsReadFile (s : DiskCache) (path : String) : BCACHE_ERROR × List Nat × DiskCache :=
  ((s.fs.ReadFile path).1, (s.fs.ReadFile path).2,
    { s with trace := s.trace ++ [.ReadFile path (s.fs.ReadFile path).1] })

/-- The call `posix->Create(filepath, &fd, use_direct)`, recorded in the trace. -/
def fsCreate (s : DiskCache) (path : String) (direct : Bool) : BCACHE_ERROR × Nat × DiskCache :=
  ((s.fs.Create path).1, (s.fs.Create path).2.1,
    { s with fs := (s.fs.Create path).2.2,
             trace := s.trace ++ [.Create path direct (s.fs.Create path).1] })

/-- The call `posix->Close(fd)`, recorded in the trace. -/
def fsClose (s : DiskCache) (fd : Nat) : DiskCache :=
  { s with fs := (s.fs.Close fd).2, trace := s.trace ++ [.Close fd] }

/-- The call `posix->Unlink(filepath)`, recorded in the trace. -/
def fsUnlink (s : DiskCache) (path : String) : BCACHE_ERROR × DiskCache :=
  ((s.fs.Unlink path).1,
    { s with fs := (s.fs.Unlink path).2, trace := s.trace ++ [.Unlink path (s.fs.Unlink path).1] })

/-- The loop of `DiskCache::CreateDirs` over the directories still to make. -/
def makeDirs : DiskCache → List String → BCACHE_ERROR × DiskCache
  | s, [] => (.OK, s)
  | s, dir :: rest =>
    let r := s.fsMkDirs dir
    if r.1 ≠ .OK then (r.1, r.2) else makeDirs r.2 rest

/-- Embedding of `DiskCache::CreateDirs`. -/
def CreateDirs (s : DiskCache) : BCACHE_ERROR × DiskCache :=
  makeDirs s [s.GetRootDir, s.GetStageDir, s.GetCacheDir, s.GetProbeDir]

/-- Embedding of `DiskCache::LoadLockFile`; `gen_uuid` is what `GenUuid()`
returns when it is called, given by the environment.  The write leaves the
fourth argument of `WriteFile` to its default, recorded as buffered. -/
def LoadLockFile (s : DiskCache) (gen_uuid : List Nat) : BCACHE_ERROR × DiskCache :=
  let lock_path := s.GetLockPath
  let r := s.fsReadFile lock_path
  if r.1 = .OK then (r.1, { r.2.2 with uuid := TrimSpace r.2.1 })
  else if r.1 = .NOT_FOUND then
    let s1 := { r.2.2 with uuid := gen_uuid }
    s1.fsWriteFile lock_path gen_uuid false
  else (r.1, r.2.2)

/-- Embedding of `DiskCache::DetectDirectIO`. -/
def DetectDirectIO (s : DiskCache) : DiskCache :=
  let filepath := s.GetDetectPath
  let c := s.fsCreate filepath true
  let s1 := c.2.2.fsClose c.2.1
  let s2 := (s1.fsUnlink filepath).2
  let s3 := if c.1 = .OK then { s2 with use_direct_write := true }
            else { s2 with use_direct_write := false }
  { s3 with trace := s3.trace ++ [Event.SetUseDirectWrite s3.use_direct_write] }

/-- Embedding of `DiskCache::Init(uploader)`; `running_.exchange(true)` sets
the flag and tells whether it was set.  `loader_->Start` makes
`loader_->IsLoading()` true until the loader is done; `gen_uuid` is what
`GenUuid()` returns if it is called. -/
def Init (s : DiskCache) (uploader : Nat) (gen_uuid : List Nat) : BCACHE_ERROR × DiskCache :=
  if s.running then (.OK, s)  -- already running
  else
    let s0 := { s with running := true }
    let c := s0.CreateDirs
    let l := if c.1 = .OK then c.2.LoadLockFile gen_uuid else c
    if l.1 ≠ .OK then (l.1, l.2)
    else
      let s1 := { l.2 with uploader_ := some uploader }
      let s2 := { s1 with trace := s1.trace ++ [Event.MetricInit] }
      let s3 := DetectDirectIO s2
      let s4 := { s3 with trace := s3.trace ++
        [Event.Start .disk_state_machine, Event.Start .disk_state_health_checker,
          Event.Start .manager] }
      let s5 := { s4 with loading := true,
                          trace := s4.trace ++ [Event.LoaderStart s4.uuid uploader] }
      let s6 := { s5 with trace := s5.trace ++
        [Event.SetUuid s5.uuid, Event.SetRunningStatus true] }
      (.OK, s6)

end DiskCache

/-- Embedding of `BlockReaderImpl::ReadAt(offset, length, buffer)` on the filesystem of `s`:
the code, the bytes stored in `buffer` and the new state. -/
def BlockReaderImpl.ReadAt (r : BlockReaderImpl) (s : DiskCache) (offset length : Nat) :
    BCACHE_ERROR × List Nat × DiskCache :=
  let k := s.fs.LSeek r.fd offset
  if k.1 = .OK then
    let d := k.2.Read r.fd length
    (d.1, d.2.1, { s with fs := d.2.2 })
  else (k.1, [], { s with fs := k.2 })

/-! ## Uploader -/

/-- Modelled from the spec: a unit of work of the upload pipeline (`StageBlock`
is declared in a missing header), built as
`StageBlock(seq_num, key, stage_path, ctx)`. -/
structure StageBlock where
  seq_num : Nat
  key : BlockKey
  stage_path : String
  ctx : BlockContext
deriving DecidableEq, Repr

/-- Modelled from the spec: the per-inode in-flight counter `Countdown`
(`stage_count_`, missing): a count per inode and the failure flag bubbled up to
a waiting flush. -/
structure Countdown where
  count : Nat → Int
  failed : Nat → Bool

/-- Modelled from the spec: `Countdown::Add(key, n, has_error)` adds `n` to the
count of `key` and records a failure when `has_error` is set. -/
def Countdown.Add (c : Countdown) (key : Nat) (n : Int) (has_error : Bool) : Countdown :=
  { count := fun k => if k = key then c.count k + n else c.count k
    failed := fun k => if k = key then (c.failed k || has_error) else c.failed k }

/-- Modelled from the spec: the bounded `UploadingQueue` (missing): its items
and its capacity.  A `Push` on a full queue blocks in the program; here it is
only recorded. -/
structure UploadingQueue where
  items : List StageBlock
  capacity : Nat
deriving DecidableEq, Repr

/-- Modelled from the spec: `UploadingQueue::Size` (missing), the number of
items in the queue. -/
def UploadingQueue.Size (q : UploadingQueue) : Nat := q.items.length

/-- Modelled from the spec: `UploadingQueue::Capacity` (missing), the bound of
the queue. -/
def UploadingQueue.Capacity (q : UploadingQueue) : Nat := q.capacity

/-- A call made by the uploader on one of its collaborators. -/
inductive UploaderEvent where
  | CountAdd (ino : Nat) (n : Int) (has_error : Bool)
  | PendingPush (stage_block : StageBlock)
  | UploadingPush (stage_block : StageBlock)
  | ReadFile (path : String) (rc : BCACHE_ERROR)
  | AsyncPut (key : BlockKey) (buffer : List Nat)
  | PutCallback (key : BlockKey) (code : Int)
  | RemoveStage (key : BlockKey) (ctx : BlockContext) (rc : BCACHE_ERROR)
  | Sleep (ms : Nat)
deriving DecidableEq, Repr

/-- The state of a `BlockCacheUploader`: `g_seq_num` is the static sequence
counter of `AddStageBlock`, `store` the disk cache behind `store_`, `trace` the
collaborator calls made so far (oldest first). -/
structure BlockCacheUploader where
  running : Bool
  g_seq_num : Nat
  stage_count : Countdown
  pending_queue : List StageBlock
  uploading_queue : UploadingQueue
  store : DiskCache
  trace : List UploaderEvent

/-- Number of low bits that do not fit the 53-bit significand of a double. -/
def dropBits : Nat → Nat → Nat
  | 0, _ => 0
  | fuel + 1, n => if n < 2 ^ 53 then 0 else 1 + dropBits fuel (n / 2)

/-- The value of an unsigned 64-bit integer converted to `double` (round to
nearest, ties to even): exact below `2 ^ 53`. -/
def toDouble (n : Nat) : Nat :=
  if n < 2 ^ 53 then n
  else
    let e := dropBits 64 n
    let q := n / 2 ^ e
    let r := n % 2 ^ e
    if 2 * r < 2 ^ e then q * 2 ^ e
    else if 2 * r = 2 ^ e then (if q % 2 = 0 then q * 2 ^ e else (q + 1) * 2 ^ e)
    else (q + 1) * 2 ^ e

namespace BlockCacheUploader

/-- The events appended to the trace between state `u` and a later state `t`. -/
def newEvents (u t : BlockCacheUploader) : List UploaderEvent := t.trace.drop u.trace.length

/-- Embedding of `BlockCacheUploader::NeedCount`. -/
def NeedCount (stage_block : StageBlock) : Bool := stage_block.ctx.from_ = .CTO_FLUSH

/-- The call `stage_count_->Add(ino, n, has_error)`, recorded in the trace. -/
def stageCountAdd (u : BlockCacheUploader) (ino : Nat) (n : Int) (has_error : Bool) :
    BlockCacheUploader :=
  { u with stage_count := u.stage_count.Add ino n has_error,
           trace := u.trace ++ [.CountAdd ino n has_error] }

/-- Embedding of `BlockCacheUploader::Staging`. -/
def Staging (u : BlockCacheUploader) (stage_block : StageBlock) : BlockCacheUploader :=
  if NeedCount stage_block then u.stageCountAdd stage_block.key.ino 1 false else u

/-- Embedding of `BlockCacheUploader::Uploaded`. -/
def Uploaded (u : BlockCacheUploader) (stage_block : StageBlock) (success : Bool) :
    BlockCacheUploader :=
  if NeedCount stage_block then u.stageCountAdd stage_block.key.ino (-1) (!success) else u

/-- The call `pending_queue_->Push(stage_block)`, recorded in the trace. -/
def pendingPush (u : BlockCacheUploader) (stage_block : StageBlock) : BlockCacheUploader :=
  { u with pending_queue := u.pending_queue ++ [stage_block],
           trace := u.trace ++ [.PendingPush stage_block] }

/-- The call `uploading_queue_->Push(stage_block)`, recorded in the trace. -/
def uploadingPush (u : BlockCacheUploader) (stage_block : StageBlock) : BlockCacheUploader :=
  { u with uploading_queue := { u.uploading_queue with
                                items := u.uploading_queue.items ++ [stage_block] },
           trace := u.trace ++ [.UploadingPush stage_block] }

/-- Embedding of `BlockCacheUploader::AddStageBlock`; `g_seq_num.fetch_add(1)` on a 64-bit
counter. -/
def AddStageBlock (u : BlockCacheUploader) (key : BlockKey) (stage_path : String)
    (ctx : BlockContext) : BlockCacheUploader :=
  let seq_num := u.g_seq_num
  let u1 := { u with g_seq_num := (u.g_seq_num + 1) % 2 ^ 64 }
  let stage_block : StageBlock := ⟨seq_num, key, stage_path, ctx⟩
  let u2 := u1.Staging stage_block
  u2.pendingPush stage_block

/-- Embedding of `BlockCacheUploader::CanUpload`.  The comparison
`Size() < Capacity() * 0.5` is made in `double`: both integers are converted,
the product with `0.5` is exact, and `a < c / 2` is `2 * a < c`. -/
def CanUpload (u : BlockCacheUploader) (blocks : List StageBlock) : Bool :=
  match blocks with
  | [] => false
  | b :: _ =>
    b.ctx.from_ = .CTO_FLUSH ||
      decide (2 * toDouble u.uploading_queue.Size < toDouble u.uploading_queue.Capacity)

/-- One iteration of the loop of `BlockCacheUploader::ScaningWorker`.  Which
blocks form the next batch is decided by the missing `PendingQueue`; it is the
parameter `batch`, giving the next batch of a queue content and what remains
after it. -/
def ScaningWorkerStep (batch : List StageBlock → List StageBlock × List StageBlock)
    (u : BlockCacheUploader) : BlockCacheUploader :=
  let stage_blocks := (batch u.pending_queue).1  -- Pop(true): peek it
  if !u.CanUpload stage_blocks then { u with trace := u.trace ++ [.Sleep 10] }
  else
    let stage_blocks := (batch u.pending_queue).1  -- Pop()
    let u1 := { u with pending_queue := (batch u.pending_queue).2 }
    stage_blocks.foldl (fun v stage_block => v.uploadingPush stage_block) u1

/-- Embedding of `BlockCacheUploader::ReadBlock`: the temporary filesystem reads the stage
file from the disk of `store`. -/
def ReadBlock (u : BlockCacheUploader) (stage_block : StageBlock) :
    BCACHE_ERROR × List Nat × BlockCacheUploader :=
  let stage_path := stage_block.stage_path
  let r := u.store.fs.ReadFile stage_path
  (r.1, r.2, { u with trace := u.trace ++ [.ReadFile stage_path r.1] })

/-- Embedding of `BlockCacheUploader::RemoveBlock`. -/
def RemoveBlock (u : BlockCacheUploader) (stage_block : StageBlock) : BlockCacheUploader :=
  let r := u.store.RemoveStage stage_block.key stage_block.ctx
  { u with store := r.2,
           trace := u.trace ++ [.RemoveStage stage_block.key stage_block.ctx r.1] }

/-- The completion callback `retry_cb` built by `UploadBlock`: the answer
"retry?" and the new state. -/
def retry_cb (stage_block : StageBlock) (u : BlockCacheUploader) (code : Int) :
    Bool × BlockCacheUploader :=
  if code ≠ 0 then (true, u)  -- retry
  else
    let u1 := u.RemoveBlock stage_block
    let u2 := u1.Uploaded stage_block true
    (false, u2)

/-- Modelled from the spec: the object-store adapter behind `s3_->AsyncPut`
(missing) invokes the callback after each attempt and retries while it answers
true.  `codes` are the completion codes of the successive attempts, given by
the environment; when they run out no further attempt has completed. -/
def runAsyncPut (key : BlockKey) (cb : BlockCacheUploader → Int → Bool × BlockCacheUploader) :
    List Int → BlockCacheUploader → BlockCacheUploader
  | [], u => u
  | code :: rest, u =>
    let r := cb { u with trace := u.trace ++ [.PutCallback key code] } code
    if r.1 then runAsyncPut key cb rest r.2 else r.2

/-- Embedding of `BlockCacheUploader::UploadBlock`. -/
def UploadBlock (u : BlockCacheUploader) (stage_block : StageBlock) (buffer : List Nat)
    (codes : List Int) : BlockCacheUploader :=
  runAsyncPut stage_block.key (retry_cb stage_block) codes
    { u with trace := u.trace ++ [.AsyncPut stage_block.key buffer] }

/-- Embedding of `BlockCacheUploader::UploadStageBlock`, with the completion codes `codes`
of the object store's attempts. -/
def UploadStageBlock (u : BlockCacheUploader) (stage_block : StageBlock) (codes : List Int) :
    BlockCacheUploader :=
  let r := u.ReadBlock stage_block
  if r.1 = .OK then r.2.2.UploadBlock stage_block r.2.1 codes
  else if r.1 = .NOT_FOUND then r.2.2.Uploaded stage_block false  -- already deleted
  else r.2.2.Uploaded stage_block false  -- throw error

end BlockCacheUploader

/-! ## Memory-only cache -/

/-- The class `MemCache` has no members; the state threaded through its methods
is the record of the calls made on the upload function. -/
structure MemCache where
  uploads : List (BlockKey × String × BlockContext)
deriving DecidableEq, Repr

namespace MemCache

/-- Embedding of `MemCache::Init(UploadFunc)`. -/
def Init (m : MemCache) (_uploader : Nat) : BCACHE_ERROR × MemCache := (.OK, m)

/-- Embedding of `MemCache::Shutdown()`. -/
def Shutdown (m : MemCache) : BCACHE_ERROR × MemCache := (.OK, m)

/-- Embedding of `MemCache::Stage(key, block, ctx)`. -/
def Stage (m : MemCache) (_key : BlockKey) (_block : Block) (_ctx : BlockContext) :
    BCACHE_ERROR × MemCache := (.NOT_SUPPORTED, m)

/-- Embedding of `MemCache::RemoveStage(key, ctx)`. -/
def RemoveStage (m : MemCache) (_key : BlockKey) (_ctx : BlockContext) :
    BCACHE_ERROR × MemCache := (.NOT_SUPPORTED, m)

/-- Embedding of `MemCache::Cache(key, block)`. -/
def Cache (m : MemCache) (_key : BlockKey) (_block : Block) : BCACHE_ERROR × MemCache :=
  (.NOT_SUPPORTED, m)

/-- Embedding of `MemCache::Load(key, reader)`: the code, the reader stored in
the output parameter (if any) and the state. -/
def Load (m : MemCache) (_key : BlockKey) : BCACHE_ERROR × Option BlockReaderImpl × MemCache :=
  (.NOT_SUPPORTED, none, m)

/-- Embedding of `MemCache::IsCached(key)`. -/
def IsCached (m : MemCache) (_key : BlockKey) : Bool × MemCache := (false, m)

/-- Embedding of `MemCache::Id()`. -/
def Id (_m : MemCache) : String := "memory_cache"

end MemCache

/-! ## Lease executor -/

/-- Modelled from the spec: the two options of `common::LeaseOpt` (missing)
read by `LeaseExecutor::Start`, as integers of either signedness. -/
structure LeaseOpt where
  leaseTimeUs : Int
  refreshTimesPerLease : Int
deriving DecidableEq, Repr

/-- Modelled from the spec: the message `PartitionTxId` (generated from a
missing proto file), a partition and its transaction id. -/
structure PartitionTxId where
  partitionid : Nat
  txid : Nat
deriving DecidableEq, Repr

/-- Modelled from the spec: the status `pb::mds::FSStatusCode` (generated from a
missing proto file): `OK`, `UNKNOWN_ERROR` and the other codes by number. -/
inductive FSStatusCode where
  | OK
  | UNKNOWN_ERROR
  | other (code : Nat)
deriving DecidableEq, Repr

/-- A call made by the `LeaseExecutor`: by `Start`, the construction of the
`RefreshSessionTask` and its scheduling with `StartTaskAt`; by `RefreshLease`,
the calls on the meta cache and on the MDS client. -/
inductive LeaseEvent where
  | NewTask (interval : Nat)
  | StartTaskAt (interval : Nat)
  | GetAllTxIds
  | RefreshSession (txIds : List PartitionTxId)
  | SetTxId (partitionid txid : Nat)
deriving DecidableEq, Repr

/-- The state of a `LeaseExecutor`: its options, the interval of the task held
by `task_` (`none` for a null pointer) and the calls made so far. -/
structure LeaseExecutor where
  opt_ : LeaseOpt
  task_ : Option Nat
  trace : List LeaseEvent
deriving DecidableEq, Repr

/-- Integer division as the program performs it: undefined (`none`) for a zero
divisor. -/
def divide (a b : Int) : Option Int := if b = 0 then none else some (Int.tdiv a b)

/-- Embedding of `LeaseExecutor::Start`; `allocated` tells whether
`new (std::nothrow)` gave a task.  The result is `none` when the division is
undefined; the quotient is stored in a `uint32_t`. -/
def LeaseExecutor.Start (e : LeaseExecutor) (allocated : Bool) :
    Option (Bool × LeaseExecutor) :=
  if e.opt_.leaseTimeUs ≤ 0 ∨ e.opt_.refreshTimesPerLease ≤ 0 then some (false, e)
  else
    match divide e.opt_.leaseTimeUs e.opt_.refreshTimesPerLease with
    | none => none
    | some q =>
      let interval := (q % 2 ^ 32).toNat
      if !allocated then some (false, { e with task_ := none })
      else
        some (true, { e with task_ := some interval,
                             trace := e.trace ++ [.NewTask interval, .StartTaskAt interval] })

/-! ## Specification-side definitions -/

/-- Whether the bitmask `want` contains the single-bit flag `flag` (in the
words of the specification), by arithmetic on the bit's position. -/
def wantContains (want flag : Nat) : Bool := (want / flag) % 2 = 1

/-- The admission rules of the specification, in order: each rule is a
condition and the code it yields. -/
def admissionRules (s : DiskCache) (want : Nat) : List (Bool × BCACHE_ERROR) :=
  [ (!s.running, .CACHE_DOWN),
    (wantContains want WANT_EXEC && s.disk_state != .kDiskStateNormal, .CACHE_UNHEALTHY),
    (wantContains want WANT_STAGE && s.manager.stage_full, .CACHE_FULL),
    (wantContains want WANT_CACHE && s.manager.cache_full, .CACHE_FULL) ]

/-- The code of the first rule that applies, `OK` when none does. -/
def firstRule : List (Bool × BCACHE_ERROR) → BCACHE_ERROR
  | [] => .OK
  | (c, e) :: rest => if c then e else firstRule rest

/-- Embedding of `LeaseExecutor::RefreshLease`.  `txIds` is what
`metaCache_->GetAllTxIds` stores, `refresh` the status `mdsCli_->RefreshSession`
returns and the list it stores in `latestTxIdList`; both are given by the
environment. -/
def LeaseExecutor.RefreshLease (e : LeaseExecutor) (txIds : List PartitionTxId)
    (refresh : FSStatusCode × List PartitionTxId) : Bool × LeaseExecutor :=
  let e1 := { e with trace := e.trace ++ [LeaseEvent.GetAllTxIds] }
  let e2 := { e1 with trace := e1.trace ++ [LeaseEvent.RefreshSession txIds] }
  if refresh.1 ≠ .OK then (true, e2)
  else
    (true, refresh.2.foldl
      (fun v item => { v with trace := v.trace ++ [LeaseEvent.SetTxId item.partitionid item.txid] })
      e2)

/-! ## Schedule coordinator -/

/-- Modelled from the spec: the reserved id `mds::topology::UNINITIALIZE_ID`
(declared in a missing header). -/
def UNINITIALIZE_ID : Nat := 0

/-- Modelled from the spec: `ConfigChangeType` (generated from a missing proto
file); `ADD_PEER`, `TRANSFER_LEADER` and `CHANGE_PEER` are the names the sources
use, the remaining types are given by number. -/
inductive ConfigChangeType where
  | ADD_PEER
  | TRANSFER_LEADER
  | CHANGE_PEER
  | other (code : Nat)
deriving DecidableEq, Repr

/-- Modelled from the spec: a peer of a copyset in schedule form (`PeerInfo`,
missing): id, ip and port. -/
structure PeerInfo where
  id : Nat
  ip : String
  port : Nat
deriving DecidableEq, Repr

/-- Modelled from the spec: the schedule form `CopySetInfo` of a copyset
(missing `schedule_define.h`): its key `(pool, copyset)`, the epoch it reports,
its leader and the configuration change it reports. -/
structure CopySetInfo where
  id : Nat × Nat
  epoch : Nat
  leader : Nat
  configChangeInfo : Nat
deriving DecidableEq, Repr

/-- Modelled from the spec: the order `CopySetConf` an operator gives for a
copyset (missing `schedule_define.h`). -/
structure CopySetConf where
  id : Nat × Nat
  epoch : Nat
  peers : List PeerInfo
  type : ConfigChangeType
  configChangeItem : Nat
  oldOne : Nat
deriving DecidableEq, Repr

/-- Modelled from the spec: the members of `Operator` (missing `operator.h`)
the coordinator reads: the epoch of the copyset when the operator was created
and the copyset it works on. -/
structure Operator where
  startEpoch : Nat
  copysetID : Nat × Nat
deriving DecidableEq, Repr

/-- Modelled from the spec: the `OperatorController` (missing) holds the
operators, at most one being looked up per copyset. -/
structure OperatorController where
  operators : List Operator
deriving DecidableEq, Repr

/-- Modelled from the spec: `OperatorController::GetOperatorById` (missing), the
operator on the copyset, if any. -/
def OperatorController.GetOperatorById (c : OperatorController) (id : Nat × Nat) :
    Option Operator :=
  c.operators.find? (fun op => op.copysetID = id)

/-- Modelled from the spec: `OperatorController::RemoveOperator` (missing): no
operator is left on the copyset. -/
def OperatorController.RemoveOperator (c : OperatorController) (id : Nat × Nat) :
    OperatorController :=
  { operators := c.operators.filter (fun op => op.copysetID ≠ id) }

/-- Modelled from the spec: what the coordinator reads of `MetaServerInfo`
(missing): id, ip, port and whether the metaserver is offline. -/
structure MetaServerInfo where
  id : Nat
  ip : String
  port : Nat
  offline : Bool
deriving DecidableEq, Repr

/-- The collaborators of the coordinator whose sources are missing, as
functions: `CopySetFromTopoToSchedule` and `GetMetaServerInfo` of the topology
adapter (`none` for the result false) and `ApplyOperator` of the operator
controller (whether there is a new order, the order, the controller after the
call).  The topology form of a copyset is identified by a number. -/
structure CoordinatorEnv where
  CopySetFromTopoToSchedule : Nat → Option CopySetInfo
  GetMetaServerInfo : Nat → Option MetaServerInfo
  ApplyOperator : OperatorController → CopySetInfo → Bool × CopySetConf × OperatorController

/-- The message `pb::mds::heartbeat::CopySetConf` returned in the heartbeat, a
field being `none` until it is set. -/
structure HeartbeatCopySetConf where
  poolid : Option Nat
  copysetid : Option Nat
  epoch : Option Nat
  type : Option ConfigChangeType
  configchangeitem : Option PeerInfo
  oldpeer : Option PeerInfo
  peers : List PeerInfo
deriving DecidableEq, Repr

/-- Embedding of `Coordinator::BuildCopySetConf`: whether the build succeeded
and the message as it was left. -/
def BuildCopySetConf (env : CoordinatorEnv) (res : CopySetConf) (out : HeartbeatCopySetConf) :
    Bool × HeartbeatCopySetConf :=
  let out1 := { out with poolid := some res.id.1, copysetid := some res.id.2,
                         epoch := some res.epoch, type := some res.type }
  match env.GetMetaServerInfo res.configChangeItem with
  | none => (false, out1)
  | some meta_server =>
    let out2 := { out1 with
      configchangeitem := some ⟨res.configChangeItem, meta_server.ip, meta_server.port⟩ }
    if res.oldOne ≠ UNINITIALIZE_ID then
      match env.GetMetaServerInfo res.oldOne with
      | none => (false, out2)
      | some old_server =>
        (true, { out2 with oldpeer := some ⟨res.oldOne, old_server.ip, old_server.port⟩,
                           peers := out2.peers ++ res.peers })
    else (true, { out2 with peers := out2.peers ++ res.peers })

/-- Embedding of `Coordinator::CopySetHeartbeat`: the id returned, the message
`out` as it was left and the operator controller after the call. -/
def CopySetHeartbeat (env : CoordinatorEnv) (opController : OperatorController)
    (origin_info : Nat) (config_ch_info : Nat) (out : HeartbeatCopySetConf) :
    Nat × HeartbeatCopySetConf × OperatorController :=
  match env.CopySetFromTopoToSchedule origin_info with
  | none => (UNINITIALIZE_ID, out, opController)
  | some converted =>
    let info := { converted with configChangeInfo := config_ch_info }
    match opController.GetOperatorById info.id with
    | none => (UNINITIALIZE_ID, out, opController)
    | some op =>
      let applied := env.ApplyOperator opController info
      let res := applied.2.1
      if applied.1 then
        if info.epoch ≠ op.startEpoch then
          (UNINITIALIZE_ID, out, applied.2.2.RemoveOperator info.id)
        else
          match env.GetMetaServerInfo res.configChangeItem with
          | none => (UNINITIALIZE_ID, out, applied.2.2.RemoveOperator info.id)
          | some meta_server =>
            let need_check_type :=
              res.type = .ADD_PEER ∨ res.type = .TRANSFER_LEADER ∨ res.type = .CHANGE_PEER
            if need_check_type ∧ meta_server.offline then
              (UNINITIALIZE_ID, out, applied.2.2.RemoveOperator info.id)
            else
              let built := BuildCopySetConf env res out
              if !built.1 then
                (UNINITIALIZE_ID, built.2, applied.2.2.RemoveOperator info.id)
              else (res.configChangeItem, built.2, applied.2.2)
      else (UNINITIALIZE_ID, out, applied.2.2)

/-! ## Create-fs tool -/

/-- Embedding of `is_aligned<T>(value, alignment)` of `fast_align.h` at
`T = uint64_t`: `(value & (T(alignment) - 1)) == 0`, the subtraction wrapping
at `2 ^ 64`. -/
def is_aligned (value alignment : Nat) : Bool :=
  (value &&& ((alignment % 2 ^ 64 + (2 ^ 64 - 1)) % 2 ^ 64)) = 0

/-- The flags read by `SetVolumeRequest`, the three sizes being `uint64`
flags. -/
structure VolumeFlags where
  volumeBlockSize : Nat
  volumeBlockGroupSize : Nat
  volumeSliceSize : Nat
  volumeBitmapLocation : String
deriving DecidableEq, Repr

/-- The fields `SetVolumeRequest` sets in the volume of the request that depend
on the flags above. -/
structure Volume where
  blocksize : Nat
  blockgroupsize : Nat
  bitmaplocation : Nat
  slicesize : Nat
deriving DecidableEq, Repr

/-- Embedding of the closure `SetVolumeRequest` of `CreateFsTool::Init`: the
value returned and the volume set in the request (`none` when none is set).
`BitmapLocation_Parse` is generated code; it is a parameter giving the parsed
location, `none` when the text does not parse. -/
def SetVolumeRequest (BitmapLocation_Parse : String → Option Nat) (flags : VolumeFlags) :
    Int × Option Volume :=
  if !is_aligned flags.volumeBlockSize 4096 then (-1, none)
  else if !is_aligned flags.volumeBlockGroupSize flags.volumeBlockSize then (-1, none)
  else if !is_aligned flags.volumeBlockGroupSize (128 * 1024 * 1024) then (-1, none)
  else if !is_aligned flags.volumeSliceSize flags.volumeBlockGroupSize then (-1, none)
  else
    match BitmapLocation_Parse flags.volumeBitmapLocation with
    | none => (-1, none)
    | some location =>
      (0, some { blocksize := flags.volumeBlockSize,
                 blockgroupsize := flags.volumeBlockGroupSize,
                 bitmaplocation := location,
                 slicesize := flags.volumeSliceSize })

/-! ## Etcd id generator -/

/-- Modelled from the spec: the text stored under the key: the decimal text of
a number (what `std::to_string` writes and `StringToUll` reads back) or any
other text. -/
inductive StoredText where
  | number (n : Nat)
  | text (t : String)
deriving DecidableEq, Repr

/-- Modelled from the spec: `StringToUll` (missing `utils/string_util.h`) reads
the decimal text of a number below `2 ^ 64` and fails on any other text. -/
def StringToUll : StoredText → Option Nat
  | .number n => if n < 2 ^ 64 then some n else none
  | .text _ => none

/-- Modelled from the spec: the codes of `EtcdErrCode` (missing) the generator
tells apart; the other codes are given by number. -/
inductive EtcdErrCode where
  | EtcdOK
  | EtcdKeyNotExist
  | other (code : Nat)
deriving DecidableEq, Repr

/-- A call the generator makes on `client_`, with its result.  The text `prev`
is `none` for the empty string. -/
inductive KVEvent where
  | Get (rc : EtcdErrCode)
  | CompareAndSwap (prev : Option StoredText) (target : StoredText) (rc : EtcdErrCode)
deriving DecidableEq, Repr

/-- Modelled from the spec: the key-value store behind `client_` (missing):
the text stored under the generator's key, `none` while the key does not
exist, and the calls the generator made so far. -/
structure KVStorage where
  value : Option StoredText
  trace : List KVEvent
deriving DecidableEq, Repr

/-- Modelled from the spec: `client_->Get(storeKey_, &out)` returns the last
value written; `fault` is an error injected by the environment.  The text
`out` is left empty (`none`) when nothing is read. -/
def KVStorage.Get (kv : KVStorage) (fault : Option Nat) :
    EtcdErrCode × Option StoredText × KVStorage :=
  let r : EtcdErrCode × Option StoredText :=
    match fault with
    | some code => (.other code, none)
    | none =>
      match kv.value with
      | none => (.EtcdKeyNotExist, none)
      | some v => (.EtcdOK, some v)
  (r.1, r.2, { kv with trace := kv.trace ++ [.Get r.1] })

/-- Modelled from the spec: `client_->CompareAndSwap(storeKey_, prev, target)`
succeeds, storing `target`, when the stored value is `prev` (an empty `prev`
standing for a key that does not exist); `fault` is an error injected by the
environment. -/
def KVStorage.CompareAndSwap (kv : KVStorage) (prev : Option StoredText) (target : StoredText)
    (fault : Option Nat) : EtcdErrCode × KVStorage :=
  let rc : EtcdErrCode :=
    match fault with
    | some code => .other code
    | none => if kv.value = prev then .EtcdOK else .other 0
  (rc, { value := if rc = .EtcdOK then some target else kv.value,
         trace := kv.trace ++ [.CompareAndSwap prev target rc] })

/-- Modelled from the spec: the members of `EtcdIdGenerator` (the header is
missing), taken to be `uint64_t` like the id and the target of the source. -/
structure EtcdIdGenerator where
  initialize_ : Nat
  bundle_ : Nat
  nextId_ : Nat
  bundleEnd_ : Nat
deriving DecidableEq, Repr

/-- Modelled from the spec: the constructor of `EtcdIdGenerator` (the header is
missing): no id is handed out and none is reserved yet. -/
def EtcdIdGenerator.new (initial bundle : Nat) : EtcdIdGenerator :=
  { initialize_ := initial, bundle_ := bundle, nextId_ := initial, bundleEnd_ := initial }

/-- The conversion of a `uint64_t` to the `int` parameter `requiredNum` (32
bits, two's complement). -/
def toInt (n : Nat) : Int :=
  if n % 2 ^ 32 < 2 ^ 31 then ((n % 2 ^ 32 : Nat) : Int)
  else ((n % 2 ^ 32 : Nat) : Int) - 2 ^ 32

/-- Embedding of `EtcdIdGenerator::AllocateBundleIds(requiredNum)`: whether it
succeeded, the generator and the store after the call.  The sum
`alloc + requiredNum` is taken in `uint64_t`. -/
def EtcdIdGenerator.AllocateBundleIds (g : EtcdIdGenerator) (kv : KVStorage) (requiredNum : Int)
    (get_fault cas_fault : Option Nat) : Bool × EtcdIdGenerator × KVStorage :=
  let r := kv.Get get_fault
  let decoded : Option Nat :=
    if r.1 ≠ .EtcdOK ∧ r.1 ≠ .EtcdKeyNotExist then none
    else if r.1 = .EtcdKeyNotExist then some g.initialize_
    else match r.2.1 with
      | none => none
      | some text => StringToUll text
  match decoded with
  | none => (false, g, r.2.2)
  | some alloc =>
    let target := (((alloc : Int) + requiredNum) % 2 ^ 64).toNat
    let c := r.2.2.CompareAndSwap r.2.1 (.number target) cas_fault
    if c.1 ≠ .EtcdOK then (false, g, c.2)
    else (true, { g with bundleEnd_ := target, nextId_ := (alloc + 1) % 2 ^ 64 }, c.2)

/-- Embedding of `EtcdIdGenerator::GenID(id)`: whether it succeeded, the id
stored in `*id` (if any), the generator and the store after the call. -/
def EtcdIdGenerator.GenID (g : EtcdIdGenerator) (kv : KVStorage)
    (get_fault cas_fault : Option Nat) : Bool × Option Nat × EtcdIdGenerator × KVStorage :=
  if g.nextId_ > g.bundleEnd_ ∨ g.nextId_ = g.initialize_ then
    let a := g.AllocateBundleIds kv (toInt g.bundle_) get_fault cas_fault
    if !a.1 then (false, none, a.2.1, a.2.2)
    else (true, some a.2.1.nextId_,
      { a.2.1 with nextId_ := (a.2.1.nextId_ + 1) % 2 ^ 64 }, a.2.2)
  else (true, some g.nextId_, { g with nextId_ := (g.nextId_ + 1) % 2 ^ 64 }, kv)

/-! ## Warmup progress -/

/-- Modelled from the spec: `common::WarmupStorageType` (missing): the
enumerator `kWarmupStorageTypeUnknown` the sources name, the other storage types
given by number. -/
inductive WarmupStorageType where
  | kWarmupStorageTypeUnknown
  | other (tag : Nat)
deriving DecidableEq, Repr

/-- The members of `WarmupProgress` (the mutexes left out). -/
structure WarmupProgress where
  total_ : Nat
  finished_ : Nat
  error_ : Nat
  storageType_ : WarmupStorageType
deriving DecidableEq, Repr

namespace WarmupProgress

/-- Embedding of the constructor `WarmupProgress(type)`; without an argument
the type is `kWarmupStorageTypeUnknown`. -/
def new (type : WarmupStorageType) : WarmupProgress := ⟨0, 0, 0, type⟩

/-- Embedding of `WarmupProgress::AddTotal`, in `uint64_t`. -/
def AddTotal (p : WarmupProgress) (add : Nat) : WarmupProgress :=
  { p with total_ := (p.total_ + add) % 2 ^ 64 }

/-- Embedding of `WarmupProgress::FinishedPlusOne`, in `uint64_t`. -/
def FinishedPlusOne (p : WarmupProgress) : WarmupProgress :=
  { p with finished_ := (p.finished_ + 1) % 2 ^ 64 }

/-- Embedding of the copy constructor `WarmupProgress(const WarmupProgress& wp)`. -/
def copy (wp : WarmupProgress) : WarmupProgress :=
  { total_ := wp.total_, finished_ := wp.finished_, error_ := wp.error_,
    storageType_ := wp.storageType_ }

/-- Embedding of `WarmupProgress::operator=`: the target after the assignment. -/
def assign (target wp : WarmupProgress) : WarmupProgress :=
  { target with total_ := wp.total_, finished_ := wp.finished_, error_ := wp.error_ }

/-- Embedding of `WarmupProgress::GetTotal`. -/
def GetTotal (p : WarmupProgress) : Nat := p.total_

/-- Embedding of `WarmupProgress::GetFinished`. -/
def GetFinished (p : WarmupProgress) : Nat := p.finished_

/-- Embedding of `WarmupProgress::GetErrors`. -/
def GetErrors (p : WarmupProgress) : Nat := p.error_

/-- Embedding of `WarmupProgress::GetStorageType`. -/
def GetStorageType (p : WarmupProgress) : WarmupStorageType := p.storageType_

end WarmupProgress

/-- The map `inode2Progress_` of a `WarmupManager`. -/
structure WarmupManager where
  inode2Progress_ : List (Nat × WarmupProgress)
deriving DecidableEq, Repr

/-- Embedding of `WarmupManager::FindWarmupProgressByKeyLocked`: the entry of
the key, `none` for the end iterator. -/
def WarmupManager.FindWarmupProgressByKeyLocked (m : WarmupManager) (key : Nat) :
    Option (Nat × WarmupProgress) :=
  m.inode2Progress_.find? (fun e => e.1 = key)

/-- Embedding of `WarmupManager::AddWarmupProcess`: `emplace` adds the entry
unless the key has one. -/
def WarmupManager.AddWarmupProcess (m : WarmupManager) (key : Nat) (type : WarmupStorageType) :
    Bool × WarmupManager :=
  match m.FindWarmupProgressByKeyLocked key with
  | some _ => (false, m)
  | none => (true, { inode2Progress_ := m.inode2Progress_ ++ [(key, WarmupProgress.new type)] })

/-- Embedding of `WarmupManager::QueryWarmupProgress(key, progress)`: the value
returned and `*progress` after the call. -/
def WarmupManager.QueryWarmupProgress (m : WarmupManager) (key : Nat)
    (progress : WarmupProgress) : Bool × WarmupProgress :=
  match m.FindWarmupProgressByKeyLocked key with
  | some iter => (true, progress.assign iter.2)
  | none => (false, progress)

/-! ## Definitions used to state the properties -/

/-- Whether an event is a hard link. -/
def Event.isHardLink : Event → Bool
  | .HardLink _ _ _ => true
  | _ => false

/-- Whether an event is a call of the upload function. -/
def Event.isUpload : Event → Bool
  | .Upload _ _ _ => true
  | _ => false

/-- Whether an uploader event is an update of the in-flight counter. -/
def UploaderEvent.isCountAdd : UploaderEvent → Bool
  | .CountAdd _ _ _ => true
  | _ => false

/-- The state `Stage` leaves when admission and the write both succeed. -/
def DiskCache.stageDone (s : DiskCache) (key : BlockKey) (block : Block) (ctx : BlockContext) :
    DiskCache :=
  let l := (s.fsWriteFile (s.GetStagePath key) block.data s.use_direct_write).2.fsHardLink
    (s.GetStagePath key) (s.GetCachePath key)
  ((if l.1 = .OK then l.2.managerAdd key ⟨block.size, l.2.now⟩ else l.2).uploader key
    (s.GetStagePath key) ctx).stageMetricGuard .OK

/-- What a stage block contributes to the in-flight counter of inode `ino`. -/
def counted (ino : Nat) (stage_block : StageBlock) : Int :=
  if stage_block.ctx.from_ = .CTO_FLUSH ∧ stage_block.key.ino = ino then 1 else 0

/-- A sequence of `AddStageBlock` calls. -/
def BlockCacheUploader.AddStageBlocks (u : BlockCacheUploader) :
    List (BlockKey × String × BlockContext) → BlockCacheUploader
  | [] => u
  | (key, stage_path, ctx) :: rest => (u.AddStageBlock key stage_path ctx).AddStageBlocks rest

/-- A sequence of `UploadStageBlock` runs, each with the completion codes its
PUT attempts receive. -/
def BlockCacheUploader.UploadStageBlocks (u : BlockCacheUploader) :
    List (StageBlock × List Int) → BlockCacheUploader
  | [] => u
  | (stage_block, codes) :: rest =>
    (u.UploadStageBlock stage_block codes).UploadStageBlocks rest

/-- The callbacks made until the first code `0`, that one included. -/
def callbacksUntilSuccess (key : BlockKey) : List Int → List UploaderEvent
  | [] => []
  | code :: rest =>
    if code = 0 then [.PutCallback key code]
    else .PutCallback key code :: callbacksUntilSuccess key rest

/-! ## Example states -/

/-- An empty filesystem on which no call fails. -/
def exampleFs : LocalFileSystem :=
  { files := fun _ => none, fds := fun _ => none, next_fd := 3, fault := fun _ => .OK }

/-- A running, healthy and empty disk cache rooted at `/d`. -/
def exampleDisk : DiskCache :=
  { running := true, use_direct_write := false, root_dir := "/d",
    disk_state := .kDiskStateNormal, fs := exampleFs,
    manager := { lru := [], stage_full := false, cache_full := false },
    loading := false, metric := ⟨0, 0, 0, 0⟩, now := 100, trace := [] }

/-- A key of inode 7. -/
def exampleKey : BlockKey := ⟨1, 7, 3, 0, 0⟩

/-- A block of three bytes. -/
def exampleBlock : Block := ⟨[65, 66, 67]⟩

/-- The example disk on a filesystem whose hard links fail. -/
def exampleDiskLinkFails : DiskCache :=
  { exampleDisk with
    fs := { exampleFs with
            fault := fun c => match c with
              | .HardLink _ _ => .IO_ERROR
              | _ => .OK } }

/-- The example disk, not running. -/
def exampleDiskDown : DiskCache := { exampleDisk with running := false }

/-- The example disk after the example block was staged. -/
def exampleDiskStaged : DiskCache := (exampleDisk.Stage exampleKey exampleBlock ⟨.CTO_FLUSH⟩).2

/-- The in-flight count the stage blocks `blocks` account for on inode `ino`. -/
def inFlight (ino : Nat) (blocks : List StageBlock) : Int := (blocks.map (counted ino)).sum

/-- The staged example disk on a filesystem whose removals fail. -/
def exampleDiskRemoveFails : DiskCache :=
  { exampleDiskStaged with
    fs := { exampleDiskStaged.fs with
            fault := fun c => match c with
              | .RemoveFile _ => .IO_ERROR
              | _ => .OK } }

/-- An idle uploader over the disk cache `store`, with an uploading queue of
capacity 10. -/
def exampleUploader (store : DiskCache) : BlockCacheUploader :=
  { running := true, g_seq_num := 0,
    stage_count := { count := fun _ => 0, failed := fun _ => false },
    pending_queue := [], uploading_queue := { items := [], capacity := 10 },
    store := store, trace := [] }

/-- The stage block of the example key, from a synchronous flush. -/
def exampleStageBlock : StageBlock :=
  ⟨0, exampleKey, exampleDisk.GetStagePath exampleKey, ⟨.CTO_FLUSH⟩⟩

/-- A stage block of the example key from background traffic. -/
def exampleBackgroundBlock : StageBlock :=
  ⟨1, exampleKey, exampleDisk.GetStagePath exampleKey, ⟨.NOCTO_FLUSH⟩⟩

/-- The example uploader with five blocks in its uploading queue of capacity 10. -/
def exampleBusyUploader : BlockCacheUploader :=
  { exampleUploader exampleDiskStaged with
    uploading_queue := { items := List.replicate 5 exampleBackgroundBlock, capacity := 10 } }

/-- A batching policy: the whole queue content is the next batch. -/
def exampleBatch (queue : List StageBlock) : List StageBlock × List StageBlock := (queue, [])

/-- Whether an event is the opening of a file. -/
def Event.isOpen : Event → Bool
  | .Open _ _ => true
  | _ => false

/-- Whether an event is a write of a file. -/
def Event.isWriteFile : Event → Bool
  | .WriteFile _ _ _ _ => true
  | _ => false

/-- The example disk before its first `Init`: not running, nothing on disk. -/
def exampleDiskFresh : DiskCache :=
  { exampleDisk with running := false }

/-- The example disk after a block was written to its cache with `Cache`. -/
def exampleDiskCached : DiskCache := (exampleDisk.Cache exampleKey exampleBlock).2

/-- The example disk after `Cache`, the cache file then deleted behind its back. -/
def exampleDiskDeleted : DiskCache :=
  { exampleDiskCached with
    fs := { exampleDiskCached.fs with files := fun _ => none } }

/-- The staged example disk on a filesystem whose reads fail with an I/O error. -/
def exampleDiskReadFails : DiskCache :=
  { exampleDiskStaged with
    fs := { exampleDiskStaged.fs with
            fault := fun c => match c with
              | .ReadFile _ => .IO_ERROR
              | _ => .OK } }

/-- A lease executor with the options of the unit test that starts: a lease of
100 ms refreshed 5 times. -/
def exampleLease : LeaseExecutor :=
  { opt_ := { leaseTimeUs := 100000, refreshTimesPerLease := 5 }, task_ := none, trace := [] }

/-- A lease executor with a zero lease time, as in the first case of the unit
test. -/
def exampleLeaseNoTime : LeaseExecutor :=
  { opt_ := { leaseTimeUs := 0, refreshTimesPerLease := 5 }, task_ := none, trace := [] }

/-- A lease executor with zero refreshes per lease, as in the second case of
the unit test. -/
def exampleLeaseNoRefresh : LeaseExecutor :=
  { opt_ := { leaseTimeUs := 20, refreshTimesPerLease := 0 }, task_ := none, trace := [] }

/-- The first steps of `Init` on a disk that was not running: the flag is set,
the directories are made and the lock file is loaded. -/
def DiskCache.initLock (s : DiskCache) (gen_uuid : List Nat) : BCACHE_ERROR × DiskCache :=
  let c := DiskCache.CreateDirs { s with running := true }
  if c.1 = .OK then c.2.LoadLockFile gen_uuid else c

/-- The steps of `Init` after the lock file was loaded, from the state `t` the
loading left. -/
def DiskCache.initStart (t : DiskCache) (uploader : Nat) : DiskCache :=
  let s1 := { t with uploader_ := some uploader }
  let s2 := { s1 with trace := s1.trace ++ [Event.MetricInit] }
  let s3 := DiskCache.DetectDirectIO s2
  let s4 := { s3 with trace := s3.trace ++
    [Event.Start .disk_state_machine, Event.Start .disk_state_health_checker,
      Event.Start .manager] }
  let s5 := { s4 with loading := true,
                      trace := s4.trace ++ [Event.LoaderStart s4.uuid uploader] }
  { s5 with trace := s5.trace ++ [Event.SetUuid s5.uuid, Event.SetRunningStatus true] }

/-- Whether an event is an admission to the LRU manager. -/
def Event.isAdd : Event → Bool
  | .Add _ _ => true
  | _ => false

/-- The example disk, not running, on a filesystem whose directory creation
fails. -/
def exampleDiskMkDirsFails : DiskCache :=
  { exampleDisk with
    running := false
    fs := { exampleFs with
            fault := fun c => match c with
              | .MkDirs _ => .IO_ERROR
              | _ => .OK } }

/-- A heartbeat message with no field set. -/
def exampleConf : HeartbeatCopySetConf :=
  { poolid := none, copysetid := none, epoch := none, type := none,
    configchangeitem := none, oldpeer := none, peers := [] }

/-- A topology in which copyset `n` of pool 1 reports epoch 5 and every
metaserver is known and online, with a controller whose operators always order
a transfer of the leader to metaserver 2. -/
def exampleCoordinatorEnv : CoordinatorEnv :=
  { CopySetFromTopoToSchedule := fun n => some ⟨(1, n), 5, 1, 0⟩,
    GetMetaServerInfo := fun id => some ⟨id, "10.0.0.1", 9000, false⟩,
    ApplyOperator := fun c info =>
      (true, ⟨info.id, info.epoch, [], .TRANSFER_LEADER, 2, UNINITIALIZE_ID⟩, c) }

/-- A controller holding, for copyset 7 of pool 1, an operator created at
epoch `startEpoch`. -/
def exampleController (startEpoch : Nat) : OperatorController :=
  { operators := [⟨startEpoch, (1, 7)⟩] }

/-- A bitmap location parser that knows `AtStart` and `AtEnd`. -/
def exampleBitmapLocationParse (text : String) : Option Nat :=
  if text = "AtStart" then some 1 else if text = "AtEnd" then some 2 else none

/-- The successful swap a call of `CompareAndSwap` made, if it succeeded. -/
def KVEvent.swapped : KVEvent → Option (Option StoredText × StoredText)
  | .CompareAndSwap prev target .EtcdOK => some (prev, target)
  | _ => none

/-- The latest successful `CompareAndSwap` of the generator: the previous text
and the text stored. -/
def KVStorage.lastSwap (kv : KVStorage) : Option (Option StoredText × StoredText) :=
  (kv.trace.reverse.filterMap KVEvent.swapped).head?

/-- A step of the life of one generator: a call of `GenID` under the faults the
environment injects, or another client of the same key storing the number `n`
(in a system of id generators the stored number never goes down: a smaller
number is not stored). -/
inductive IdStep where
  | GenID (get_fault cas_fault : Option Nat)
  | OtherClient (n : Nat)
deriving DecidableEq, Repr

/-- Another client stores the number `n`. -/
def KVStorage.OtherClient (kv : KVStorage) (n : Nat) : KVStorage :=
  match kv.value with
  | some (.number m) => if m ≤ n then { kv with value := some (.number n) } else kv
  | _ => { kv with value := some (.number n) }

/-- The ids a generator hands out over a sequence of steps, each with the latest
successful `CompareAndSwap` of the generator at the time the id is returned. -/
def GenIDs : EtcdIdGenerator → KVStorage → List IdStep →
    List (Nat × Option (Option StoredText × StoredText))
  | _, _, [] => []
  | g, kv, .OtherClient n :: rest => GenIDs g (kv.OtherClient n) rest
  | g, kv, .GenID get_fault cas_fault :: rest =>
    (match (g.GenID kv get_fault cas_fault).2.1 with
      | some id => [(id, (g.GenID kv get_fault cas_fault).2.2.2.lastSwap)]
      | none => []) ++
    GenIDs (g.GenID kv get_fault cas_fault).2.2.1 (g.GenID kv get_fault cas_fault).2.2.2 rest

/-- Whether the id lies in the range `(alloc, alloc + bundle]` the swap reserved,
`alloc` being the number stored before the swap, or `initial` when the key did
not exist. -/
def inReserved (initial bundle id : Nat) : Option (Option StoredText × StoredText) → Bool
  | some (some (.number alloc), .number target) =>
    decide (target = alloc + bundle ∧ alloc < id ∧ id ≤ alloc + bundle)
  | some (none, .number target) =>
    decide (target = initial + bundle ∧ initial < id ∧ id ≤ initial + bundle)
  | _ => false

/-- A generator that made no successful swap yet and is to allocate at its
next call. -/
def EtcdIdGenerator.Fresh (g : EtcdIdGenerator) (kv : KVStorage) : Prop :=
  g.nextId_ = g.initialize_ ∧ kv.lastSwap = none

/-- A generator after a successful swap from `alloc`: the store holds a number
that is at least the end of the range, and the next id is past `alloc` and at
most one past the end. -/
def EtcdIdGenerator.Reserved (g : EtcdIdGenerator) (kv : KVStorage) : Prop :=
  ∃ prev alloc, kv.lastSwap = some (prev, .number (alloc + g.bundle_)) ∧
    (prev = some (.number alloc) ∨ (prev = none ∧ alloc = g.initialize_)) ∧
    g.bundleEnd_ = alloc + g.bundle_ ∧ alloc < g.nextId_ ∧ g.nextId_ ≤ alloc + g.bundle_ + 1 ∧
    ∃ n, kv.value = some (.number n) ∧ alloc + g.bundle_ ≤ n

/-- Seven steps of a generator: three calls, a call whose `Get` fails, another
client storing 100, and two more calls. -/
def exampleIdSteps : List IdStep :=
  [.GenID none none, .GenID none none, .GenID none none, .GenID (some 1) none,
    .OtherClient 100, .GenID none none, .GenID none none]

/-- A warmup manager with one task, for inode 7, of storage type 1. -/
def exampleWarmupManager : WarmupManager :=
  ((WarmupManager.mk []).AddWarmupProcess 7 (.other 1)).2

/-- The example disk on a filesystem whose opens fail with an I/O error. -/
def exampleDiskOpenFails : DiskCache :=
  { exampleDisk with
    fs := { exampleFs with
            fault := fun c => match c with
              | .Open _ => .IO_ERROR
              | _ => .OK } }

/-- Three calls of `GenID` without faults. -/
def exampleThreeCalls : List IdStep := [.GenID none none, .GenID none none, .GenID none none]

/-! ## Auxiliary lemmas -/

theorem newEvents_append (s t : DiskCache) (l : List Event) (h : t.trace = s.trace ++ l) :
    s.newEvents t = l := by
  simp [DiskCache.newEvents, h]

theorem and_two_pow_ne_zero (want i : Nat) : (want &&& 2 ^ i ≠ 0) ↔ (want / 2 ^ i) % 2 = 1 := by
  have t : (want / 2 ^ i) % 2 = 1 ↔ want.testBit i = true := by
    rw [Nat.testBit_to_div_mod]; exact (decide_eq_true_iff).symm
  rw [t, Nat.and_two_pow]
  cases want.testBit i
  · simp
  · simp [Nat.pos_pow_of_pos]

theorem and_WANT_EXEC (want : Nat) :
    (want &&& WANT_EXEC ≠ 0) ↔ wantContains want WANT_EXEC = true := by
  have h := and_two_pow_ne_zero want 0
  simp only [pow_zero] at h
  simp only [WANT_EXEC, wantContains, decide_eq_true_eq]
  exact h

theorem and_WANT_STAGE (want : Nat) :
    (want &&& WANT_STAGE ≠ 0) ↔ wantContains want WANT_STAGE = true := by
  have h := and_two_pow_ne_zero want 1
  simpa [WANT_STAGE, wantContains] using h

theorem and_WANT_CACHE (want : Nat) :
    (want &&& WANT_CACHE ≠ 0) ↔ wantContains want WANT_CACHE = true := by
  have h := and_two_pow_ne_zero want 2
  simp only [WANT_CACHE, wantContains]
  simpa using h

theorem Stage_of_admission_failure (s : DiskCache) (key : BlockKey) (block : Block)
    (ctx : BlockContext) (hc : s.Check (WANT_EXEC ||| WANT_STAGE) ≠ .OK) :
    s.Stage key block ctx =
      (s.Check (WANT_EXEC ||| WANT_STAGE),
        s.stageMetricGuard (s.Check (WANT_EXEC ||| WANT_STAGE))) := by
  simp [DiskCache.Stage, hc]

theorem Stage_of_write_failure (s : DiskCache) (key : BlockKey) (block : Block)
    (ctx : BlockContext) (hc : s.Check (WANT_EXEC ||| WANT_STAGE) = .OK)
    (hw : (s.fs.WriteFile (s.GetStagePath key) block.data).1 ≠ .OK) :
    s.Stage key block ctx =
      ((s.fs.WriteFile (s.GetStagePath key) block.data).1,
        (s.fsWriteFile (s.GetStagePath key) block.data s.use_direct_write).2.stageMetricGuard
          (s.fs.WriteFile (s.GetStagePath key) block.data).1) := by
  simp [DiskCache.Stage, hc, hw, DiskCache.fsWriteFile]

theorem Stage_of_write_ok (s : DiskCache) (key : BlockKey) (block : Block)
    (ctx : BlockContext) (hc : s.Check (WANT_EXEC ||| WANT_STAGE) = .OK)
    (hw : (s.fs.WriteFile (s.GetStagePath key) block.data).1 = .OK) :
    s.Stage key block ctx = (.OK, s.stageDone key block ctx) := by
  have hw2 : (s.fsWriteFile (s.GetStagePath key) block.data s.use_direct_write).1 = .OK := hw
  simp only [DiskCache.Stage, hc, hw2, DiskCache.stageDone]
  simp only [ne_eq, not_true_eq_false, if_false]
  split <;> simp_all

theorem stageDone_trace (s : DiskCache) (key : BlockKey) (block : Block) (ctx : BlockContext) :
    (s.stageDone key block ctx).trace = s.trace ++
      ([.WriteFile (s.GetStagePath key) block.data s.use_direct_write
          (s.fs.WriteFile (s.GetStagePath key) block.data).1,
        .HardLink (s.GetStagePath key) (s.GetCachePath key)
          ((s.fs.WriteFile (s.GetStagePath key) block.data).2.HardLink
            (s.GetStagePath key) (s.GetCachePath key)).1] ++
      (if ((s.fs.WriteFile (s.GetStagePath key) block.data).2.HardLink
            (s.GetStagePath key) (s.GetCachePath key)).1 = .OK
        then [.Add key ⟨block.size, s.now⟩] else []) ++
      [.Upload key (s.GetStagePath key) ctx]) := by
  simp only [DiskCache.stageDone, DiskCache.fsWriteFile, DiskCache.fsHardLink]
  by_cases hl : ((s.fs.WriteFile (s.GetStagePath key) block.data).2.HardLink
      (s.GetStagePath key) (s.GetCachePath key)).1 = .OK
  · simp [hl, DiskCache.stageMetricGuard, DiskCache.uploader, DiskCache.managerAdd]
  · simp [hl, DiskCache.stageMetricGuard, DiskCache.uploader, DiskCache.managerAdd]

theorem Check_ok_running (s : DiskCache) (want : Nat) (h : s.Check want = .OK) :
    s.running = true := by
  unfold DiskCache.Check at h
  cases hr : s.running
  · simp [hr] at h
  · rfl

theorem Check_ok_healthy (s : DiskCache) (want : Nat) (h : s.Check want = .OK)
    (hw : want &&& WANT_EXEC ≠ 0) : s.disk_state = .kDiskStateNormal := by
  have hr := Check_ok_running s want h
  unfold DiskCache.Check at h
  by_contra hd
  simp [hr, hw, DiskCache.IsHealthy, hd] at h

theorem Check_WANT_EXEC_ok (s : DiskCache) (hr : s.running = true)
    (hd : s.disk_state = .kDiskStateNormal) : s.Check WANT_EXEC = .OK := by
  have h1 : WANT_EXEC &&& WANT_STAGE = 0 := by decide
  have h2 : WANT_EXEC &&& WANT_CACHE = 0 := by decide
  simp [DiskCache.Check, hr, hd, DiskCache.IsHealthy, h1, h2]

theorem find_Add (m : DiskCacheManager) (key : BlockKey) (v : CacheValue) :
    (m.Add key v).find key = some v := by
  simp [DiskCacheManager.Add, DiskCacheManager.find]

theorem WriteFile_ok (fs : LocalFileSystem) (path : String) (data : List Nat)
    (h : (fs.WriteFile path data).1 = .OK) :
    (fs.WriteFile path data).2 =
      { fs with files := fun p => if p = path then some data else fs.files p } := by
  unfold LocalFileSystem.WriteFile at h ⊢
  by_cases hf : fs.fault (.WriteFile path) = .OK
  · simp [hf]
  · simp [hf] at h

theorem HardLink_ok (fs : LocalFileSystem) (oldpath newpath : String)
    (h : (fs.HardLink oldpath newpath).1 = .OK) :
    ∃ data, fs.files oldpath = some data ∧
      (fs.HardLink oldpath newpath).2 =
        { fs with files := fun p => if p = newpath then some data else fs.files p } := by
  unfold LocalFileSystem.HardLink at h ⊢
  by_cases hf : fs.fault (.HardLink oldpath newpath) = .OK
  · cases ho : fs.files oldpath with
    | none => simp [hf, ho] at h
    | some data =>
      cases hn : fs.files newpath with
      | none => exact ⟨data, rfl, by simp [hf, hn]⟩
      | some d => simp [hf, ho, hn] at h
  · simp [hf] at h

theorem Load_of_cached (t : DiskCache) (key : BlockKey) (data : List Nat)
    (hrun : t.running = true) (hnorm : t.disk_state = .kDiskStateNormal)
    (hfind : (t.manager.find key).isSome = true)
    (hfile : t.fs.files (t.GetCachePath key) = some data)
    (ho : t.fs.fault (.Open (t.GetCachePath key)) = .OK) :
    (t.Load key).1 = .OK ∧ (t.Load key).2.1 = some ⟨t.fs.next_fd⟩ ∧
    (t.Load key).2.2.fs =
      { t.fs with
        fds := fun d => if d = t.fs.next_fd then some (data, 0) else t.fs.fds d
        next_fd := t.fs.next_fd + 1 } := by
  have hc := Check_WANT_EXEC_ok t hrun hnorm
  obtain ⟨v, hv⟩ := Option.isSome_iff_exists.mp hfind
  have hopen : t.fs.Open (t.GetCachePath key) = (.OK, t.fs.next_fd,
      { t.fs with
        fds := fun d => if d = t.fs.next_fd then some (data, 0) else t.fs.fds d
        next_fd := t.fs.next_fd + 1 }) := by
    simp [LocalFileSystem.Open, ho, hfile]
  have hcached : t.IsCached key = (true, (t.managerGet key).2.2) := by
    simp [DiskCache.IsCached, DiskCache.managerGet, DiskCacheManager.Get, hv]
  have hfs : (t.managerGet key).2.2.fs = t.fs := rfl
  have hpath : (t.managerGet key).2.2.GetCachePath key = t.GetCachePath key := rfl
  simp only [DiskCache.Load, hc, hcached, DiskCache.fsOpen, hfs, hpath, hopen]
  simp [DiskCache.loadMetricGuard]

theorem ReadAt_of_open (r : BlockReaderImpl) (s : DiskCache) (data : List Nat) (pos : Nat)
    (offset length : Nat)
    (hfd : s.fs.fds r.fd = some (data, pos))
    (hk : s.fs.fault (.LSeek r.fd) = .OK) (hr : s.fs.fault (.Read r.fd) = .OK) :
    (r.ReadAt s offset length).1 = .OK ∧
    (r.ReadAt s offset length).2.1 = (data.drop offset).take length := by
  simp [BlockReaderImpl.ReadAt, LocalFileSystem.LSeek, LocalFileSystem.Read, hfd, hk, hr]


theorem unewEvents_append (u t : BlockCacheUploader) (l : List UploaderEvent)
    (h : t.trace = u.trace ++ l) : u.newEvents t = l := by
  simp [BlockCacheUploader.newEvents, h]

theorem Staging_count (u : BlockCacheUploader) (sb : StageBlock) (ino : Nat) :
    (u.Staging sb).stage_count.count ino = u.stage_count.count ino + counted ino sb := by
  unfold BlockCacheUploader.Staging BlockCacheUploader.NeedCount counted
  by_cases hf : sb.ctx.from_ = .CTO_FLUSH
  · by_cases hi : sb.key.ino = ino
    · simp [hf, hi, BlockCacheUploader.stageCountAdd, Countdown.Add]
    · have hi2 : ¬ ino = sb.key.ino := fun h => hi h.symm
      simp [hf, hi, hi2, BlockCacheUploader.stageCountAdd, Countdown.Add]
  · simp [hf]

theorem Uploaded_count (u : BlockCacheUploader) (sb : StageBlock) (success : Bool) (ino : Nat) :
    (u.Uploaded sb success).stage_count.count ino = u.stage_count.count ino - counted ino sb := by
  unfold BlockCacheUploader.Uploaded BlockCacheUploader.NeedCount counted
  by_cases hf : sb.ctx.from_ = .CTO_FLUSH
  · by_cases hi : sb.key.ino = ino
    · simp [hf, hi, BlockCacheUploader.stageCountAdd, Countdown.Add]
      ring
    · have hi2 : ¬ ino = sb.key.ino := fun h => hi h.symm
      simp [hf, hi, hi2, BlockCacheUploader.stageCountAdd, Countdown.Add]
  · simp [hf]

theorem Uploaded_trace (u : BlockCacheUploader) (sb : StageBlock) (success : Bool) :
    (u.Uploaded sb success).trace = u.trace ++
      (if sb.ctx.from_ = .CTO_FLUSH then [.CountAdd sb.key.ino (-1) (!success)] else []) := by
  unfold BlockCacheUploader.Uploaded BlockCacheUploader.NeedCount
  by_cases hf : sb.ctx.from_ = .CTO_FLUSH
  · simp [hf, BlockCacheUploader.stageCountAdd]
  · simp [hf]

theorem runAsyncPut_success (sb : StageBlock) (codes : List Int) (h : (0 : Int) ∈ codes) :
    ∀ u : BlockCacheUploader,
    BlockCacheUploader.runAsyncPut sb.key (BlockCacheUploader.retry_cb sb) codes u =
      (BlockCacheUploader.RemoveBlock
        { u with trace := u.trace ++ callbacksUntilSuccess sb.key codes } sb).Uploaded sb true := by
  induction codes with
  | nil => simp at h
  | cons code rest ih =>
    intro u
    by_cases hc : code = 0
    · subst hc
      simp [BlockCacheUploader.runAsyncPut, BlockCacheUploader.retry_cb, callbacksUntilSuccess]
    · have hr : (0 : Int) ∈ rest := by
        rcases List.mem_cons.mp h with h0 | h0
        · exact absurd h0.symm hc
        · exact h0
      simp [BlockCacheUploader.runAsyncPut, BlockCacheUploader.retry_cb, callbacksUntilSuccess,
        hc, ih hr]

theorem runAsyncPut_no_success (sb : StageBlock) (codes : List Int) (h : (0 : Int) ∉ codes) :
    ∀ u : BlockCacheUploader,
    BlockCacheUploader.runAsyncPut sb.key (BlockCacheUploader.retry_cb sb) codes u =
      { u with trace := u.trace ++ callbacksUntilSuccess sb.key codes } := by
  induction codes with
  | nil => intro u; simp [BlockCacheUploader.runAsyncPut, callbacksUntilSuccess]
  | cons code rest ih =>
    intro u
    have hc : code ≠ 0 := fun h0 => h (by simp [h0])
    have hr : (0 : Int) ∉ rest := fun h0 => h (List.mem_cons_of_mem _ h0)
    simp [BlockCacheUploader.runAsyncPut, BlockCacheUploader.retry_cb, callbacksUntilSuccess,
      hc, ih hr]

theorem callbacksUntilSuccess_success (key : BlockKey) (codes : List Int)
    (h : (0 : Int) ∈ codes) :
    callbacksUntilSuccess key codes =
      (codes.takeWhile (fun c => c ≠ 0)).map (UploaderEvent.PutCallback key) ++
        [.PutCallback key 0] := by
  induction codes with
  | nil => simp at h
  | cons code rest ih =>
    by_cases hc : code = 0
    · subst hc
      simp [callbacksUntilSuccess]
    · have hr : (0 : Int) ∈ rest := by
        rcases List.mem_cons.mp h with h0 | h0
        · exact absurd h0.symm hc
        · exact h0
      simp [callbacksUntilSuccess, hc, ih hr, List.takeWhile_cons]

theorem callbacksUntilSuccess_no_CountAdd (key : BlockKey) (codes : List Int) :
    ∀ e ∈ callbacksUntilSuccess key codes, e.isCountAdd = false := by
  induction codes with
  | nil => simp [callbacksUntilSuccess]
  | cons code rest ih =>
    by_cases hc : code = 0
    · simp [callbacksUntilSuccess, hc, UploaderEvent.isCountAdd]
    · simp only [callbacksUntilSuccess, hc, if_false, List.mem_cons]
      rintro e (rfl | he)
      · rfl
      · exact ih e he

theorem UploadStageBlock_read_failure (u : BlockCacheUploader) (sb : StageBlock)
    (codes : List Int) (h : (u.store.fs.ReadFile sb.stage_path).1 ≠ .OK) :
    u.UploadStageBlock sb codes =
      BlockCacheUploader.Uploaded
        { u with trace := u.trace ++
            [.ReadFile sb.stage_path (u.store.fs.ReadFile sb.stage_path).1] } sb false := by
  simp only [BlockCacheUploader.UploadStageBlock, BlockCacheUploader.ReadBlock, h, if_false]
  split <;> rfl

theorem UploadStageBlock_success (u : BlockCacheUploader) (sb : StageBlock)
    (codes : List Int) (h : (u.store.fs.ReadFile sb.stage_path).1 = .OK)
    (h0 : (0 : Int) ∈ codes) :
    u.UploadStageBlock sb codes =
      (BlockCacheUploader.RemoveBlock
        { u with trace := u.trace ++
            ([.ReadFile sb.stage_path .OK,
              .AsyncPut sb.key (u.store.fs.ReadFile sb.stage_path).2] ++
              callbacksUntilSuccess sb.key codes) } sb).Uploaded sb true := by
  simp only [BlockCacheUploader.UploadStageBlock, BlockCacheUploader.ReadBlock, h, if_true,
    BlockCacheUploader.UploadBlock]
  rw [runAsyncPut_success sb codes h0]
  simp

theorem UploadStageBlock_pending (u : BlockCacheUploader) (sb : StageBlock)
    (codes : List Int) (h : (u.store.fs.ReadFile sb.stage_path).1 = .OK)
    (h0 : (0 : Int) ∉ codes) :
    u.UploadStageBlock sb codes =
      { u with trace := u.trace ++
          ([.ReadFile sb.stage_path .OK,
            .AsyncPut sb.key (u.store.fs.ReadFile sb.stage_path).2] ++
            callbacksUntilSuccess sb.key codes) } := by
  simp only [BlockCacheUploader.UploadStageBlock, BlockCacheUploader.ReadBlock, h, if_true,
    BlockCacheUploader.UploadBlock]
  rw [runAsyncPut_no_success sb codes h0]
  simp

theorem RemoveBlock_stage_count (u : BlockCacheUploader) (sb : StageBlock) :
    (u.RemoveBlock sb).stage_count = u.stage_count := rfl

theorem RemoveBlock_trace (u : BlockCacheUploader) (sb : StageBlock) :
    (u.RemoveBlock sb).trace =
      u.trace ++ [.RemoveStage sb.key sb.ctx (u.store.RemoveStage sb.key sb.ctx).1] := rfl

theorem UploadStageBlock_count (u : BlockCacheUploader) (sb : StageBlock) (codes : List Int)
    (h0 : (0 : Int) ∈ codes) (ino : Nat) :
    (u.UploadStageBlock sb codes).stage_count.count ino =
      u.stage_count.count ino - counted ino sb := by
  by_cases h : (u.store.fs.ReadFile sb.stage_path).1 = .OK
  · rw [UploadStageBlock_success u sb codes h h0, Uploaded_count, RemoveBlock_stage_count]
  · rw [UploadStageBlock_read_failure u sb codes h, Uploaded_count]

theorem UploadStageBlock_events (u : BlockCacheUploader) (sb : StageBlock) (codes : List Int) :
    u.newEvents (u.UploadStageBlock sb codes) =
      if (u.store.fs.ReadFile sb.stage_path).1 = .OK then
        [.ReadFile sb.stage_path .OK, .AsyncPut sb.key (u.store.fs.ReadFile sb.stage_path).2] ++
          callbacksUntilSuccess sb.key codes ++
          (if (0 : Int) ∈ codes then
            [.RemoveStage sb.key sb.ctx (u.store.RemoveStage sb.key sb.ctx).1] ++
              (if sb.ctx.from_ = .CTO_FLUSH then [.CountAdd sb.key.ino (-1) false] else [])
           else [])
      else
        [.ReadFile sb.stage_path (u.store.fs.ReadFile sb.stage_path).1] ++
          (if sb.ctx.from_ = .CTO_FLUSH then [.CountAdd sb.key.ino (-1) true] else []) := by
  apply unewEvents_append
  by_cases h : (u.store.fs.ReadFile sb.stage_path).1 = .OK
  · by_cases h0 : (0 : Int) ∈ codes
    · rw [UploadStageBlock_success u sb codes h h0, Uploaded_trace, RemoveBlock_trace]
      simp [h, h0]
    · rw [UploadStageBlock_pending u sb codes h h0]
      simp [h, h0]
  · rw [UploadStageBlock_read_failure u sb codes h, Uploaded_trace]
    simp [h]

theorem UploadStageBlock_store (u : BlockCacheUploader) (sb : StageBlock) (codes : List Int)
    (h : (u.store.fs.ReadFile sb.stage_path).1 = .OK) (h0 : (0 : Int) ∈ codes) :
    (u.UploadStageBlock sb codes).store = (u.store.RemoveStage sb.key sb.ctx).2 := by
  rw [UploadStageBlock_success u sb codes h h0]
  unfold BlockCacheUploader.Uploaded
  split <;> rfl

theorem RemoveFile_ok_files (fs : LocalFileSystem) (path : String)
    (h : (fs.RemoveFile path).1 = .OK) : (fs.RemoveFile path).2.files path = none := by
  unfold LocalFileSystem.RemoveFile at h ⊢
  by_cases hf : fs.fault (.RemoveFile path) = .OK
  · cases hp : fs.files path with
    | none => simp [hf, hp] at h
    | some d => simp [hf, hp]
  · simp [hf] at h

theorem RemoveStage_fs (s : DiskCache) (key : BlockKey) (ctx : BlockContext) :
    (s.RemoveStage key ctx).2.fs = (s.fs.RemoveFile (s.GetStagePath key)).2 := by
  simp only [DiskCache.RemoveStage, DiskCache.fsRemoveFile, DiskCache.removeStageMetricGuard]
  split <;> rfl

theorem RemoveFile_missing (fs : LocalFileSystem) (path : String)
    (h : (fs.RemoveFile path).1 = .OK) :
    ((fs.RemoveFile path).2.RemoveFile path) = (.NOT_FOUND, (fs.RemoveFile path).2) := by
  unfold LocalFileSystem.RemoveFile at h ⊢
  by_cases hf : fs.fault (.RemoveFile path) = .OK
  · cases hp : fs.files path with
    | none => simp [hf, hp] at h
    | some d => simp [hf, hp]
  · simp [hf] at h

theorem RemoveStage_of_missing (t : DiskCache) (key : BlockKey) (ctx : BlockContext)
    (h : t.fs.RemoveFile (t.GetStagePath key) = (.NOT_FOUND, t.fs)) :
    t.RemoveStage key ctx =
      (.NOT_FOUND, { t with trace := t.trace ++ [.RemoveFile (t.GetStagePath key) .NOT_FOUND] }) := by
  simp [DiskCache.RemoveStage, DiskCache.fsRemoveFile, DiskCache.removeStageMetricGuard, h]

theorem AddStageBlock_count (u : BlockCacheUploader) (key : BlockKey) (stage_path : String)
    (ctx : BlockContext) (ino : Nat) :
    (u.AddStageBlock key stage_path ctx).stage_count.count ino =
      u.stage_count.count ino + counted ino ⟨u.g_seq_num, key, stage_path, ctx⟩ := by
  simp only [BlockCacheUploader.AddStageBlock, BlockCacheUploader.pendingPush]
  rw [Staging_count]

theorem Staging_pending (u : BlockCacheUploader) (sb : StageBlock) :
    (u.Staging sb).pending_queue = u.pending_queue := by
  unfold BlockCacheUploader.Staging
  split <;> rfl

theorem Staging_trace (u : BlockCacheUploader) (sb : StageBlock) :
    (u.Staging sb).trace = u.trace ++
      (if sb.ctx.from_ = .CTO_FLUSH then [.CountAdd sb.key.ino 1 false] else []) := by
  unfold BlockCacheUploader.Staging BlockCacheUploader.NeedCount
  by_cases hf : sb.ctx.from_ = .CTO_FLUSH
  · simp [hf, BlockCacheUploader.stageCountAdd]
  · simp [hf]

theorem AddStageBlock_pending (u : BlockCacheUploader) (key : BlockKey) (stage_path : String)
    (ctx : BlockContext) :
    (u.AddStageBlock key stage_path ctx).pending_queue =
      u.pending_queue ++ [⟨u.g_seq_num, key, stage_path, ctx⟩] := by
  simp only [BlockCacheUploader.AddStageBlock, BlockCacheUploader.pendingPush]
  rw [Staging_pending]

theorem AddStageBlocks_count (reqs : List (BlockKey × String × BlockContext)) :
    ∀ u : BlockCacheUploader, ∃ blocks,
      (u.AddStageBlocks reqs).pending_queue = u.pending_queue ++ blocks ∧
      ∀ ino, (u.AddStageBlocks reqs).stage_count.count ino =
        u.stage_count.count ino + inFlight ino blocks := by
  induction reqs with
  | nil => intro u; exact ⟨[], by simp [BlockCacheUploader.AddStageBlocks], by
      simp [BlockCacheUploader.AddStageBlocks, inFlight]⟩
  | cons r rest ih =>
    intro u
    obtain ⟨key, stage_path, ctx⟩ := r
    obtain ⟨blocks, hp, hcount⟩ := ih (u.AddStageBlock key stage_path ctx)
    refine ⟨⟨u.g_seq_num, key, stage_path, ctx⟩ :: blocks, ?_, ?_⟩
    · simp only [BlockCacheUploader.AddStageBlocks]
      rw [hp, AddStageBlock_pending]
      simp
    · intro ino
      simp only [BlockCacheUploader.AddStageBlocks]
      rw [hcount, AddStageBlock_count]
      simp only [inFlight, List.map_cons, List.sum_cons]
      ring

theorem UploadStageBlocks_count (jobs : List (StageBlock × List Int))
    (h : ∀ j ∈ jobs, (0 : Int) ∈ j.2) :
    ∀ (u : BlockCacheUploader) (ino : Nat),
      (u.UploadStageBlocks jobs).stage_count.count ino =
        u.stage_count.count ino - inFlight ino (jobs.map Prod.fst) := by
  induction jobs with
  | nil => intro u ino; simp [BlockCacheUploader.UploadStageBlocks, inFlight]
  | cons j rest ih =>
    intro u ino
    obtain ⟨sb, codes⟩ := j
    have h0 : (0 : Int) ∈ codes := h (sb, codes) (List.mem_cons_self _ _)
    simp only [BlockCacheUploader.UploadStageBlocks]
    rw [ih (fun j hj => h j (List.mem_cons_of_mem _ hj)), UploadStageBlock_count u sb codes h0]
    simp only [inFlight, List.map_cons, List.sum_cons]
    ring

theorem inFlight_perm (ino : Nat) (l1 l2 : List StageBlock) (h : l1.Perm l2) :
    inFlight ino l1 = inFlight ino l2 := by
  unfold inFlight
  exact (h.map _).sum_eq

theorem UploadStageBlocks_append (a b : List (StageBlock × List Int)) :
    ∀ u : BlockCacheUploader,
      u.UploadStageBlocks (a ++ b) = (u.UploadStageBlocks a).UploadStageBlocks b := by
  induction a with
  | nil => intro u; rfl
  | cons j rest ih => intro u; exact ih _

theorem foldl_uploadingPush (blocks : List StageBlock) :
    ∀ u : BlockCacheUploader,
      (blocks.foldl (fun v stage_block => v.uploadingPush stage_block) u).trace =
        u.trace ++ blocks.map UploaderEvent.UploadingPush ∧
      (blocks.foldl (fun v stage_block => v.uploadingPush stage_block) u).uploading_queue.items =
        u.uploading_queue.items ++ blocks ∧
      (blocks.foldl (fun v stage_block => v.uploadingPush stage_block) u).pending_queue =
        u.pending_queue := by
  induction blocks with
  | nil => intro u; simp
  | cons b rest ih =>
    intro u
    obtain ⟨h1, h2, h3⟩ := ih (u.uploadingPush b)
    simp only [List.foldl_cons]
    rw [h1, h2, h3]
    simp [BlockCacheUploader.uploadingPush]

theorem callbacksUntilSuccess_failures (key : BlockKey) (codes : List Int)
    (h : ∀ c ∈ codes, c ≠ (0 : Int)) :
    callbacksUntilSuccess key codes = codes.map (UploaderEvent.PutCallback key) := by
  induction codes with
  | nil => rfl
  | cons code rest ih =>
    have hc : code ≠ 0 := h code (List.mem_cons_self _ _)
    simp [callbacksUntilSuccess, hc, ih (fun c hcm => h c (List.mem_cons_of_mem _ hcm))]

theorem Get_fst (m : DiskCacheManager) (key : BlockKey) (now : Nat) :
    (m.Get key now).1 = if (m.find key).isSome then .OK else .NOT_FOUND := by
  unfold DiskCacheManager.Get
  cases m.find key <;> rfl

theorem Get_find (m : DiskCacheManager) (key : BlockKey) (now : Nat) :
    ((m.Get key now).2.2.find key).isSome = (m.find key).isSome := by
  unfold DiskCacheManager.Get
  cases h : m.find key with
  | none => simp [h]
  | some v => simp [DiskCacheManager.find]

theorem find_Delete (m : DiskCacheManager) (key : BlockKey) :
    (m.Delete key).find key = none := by
  simp [DiskCacheManager.Delete, DiskCacheManager.find, List.find?_eq_none]

theorem IsCached_fst (s : DiskCache) (key : BlockKey) :
    (s.IsCached key).1 =
      ((s.manager.find key).isSome ||
        (s.loading && s.fs.FileExists (s.GetCachePath key))) := by
  unfold DiskCache.IsCached
  simp only [DiskCache.managerGet, Get_fst, DiskCache.fsFileExists]
  cases hf : (s.manager.find key).isSome <;> cases hl : s.loading <;>
    cases he : s.fs.FileExists (s.GetCachePath key) <;> simp [hf, hl, he]

theorem IsCached_state (s : DiskCache) (key : BlockKey) :
    (s.IsCached key).2 =
      { s with
        manager := (s.manager.Get key s.now).2.2
        trace := s.trace ++
          (Event.Get key (s.manager.Get key s.now).1 ::
            (if (s.manager.find key).isSome = false ∧ s.loading = true then
              [Event.FileExists (s.GetCachePath key) (s.fs.FileExists (s.GetCachePath key))]
             else [])) } := by
  unfold DiskCache.IsCached
  simp only [DiskCache.managerGet, Get_fst, DiskCache.fsFileExists]
  cases hf : (s.manager.find key).isSome <;> cases hl : s.loading <;>
    cases he : s.fs.FileExists (s.GetCachePath key) <;> simp [hf, hl, he]

theorem Load_of_IsCached (s : DiskCache) (key : BlockKey)
    (hrun : s.running = true) (hnorm : s.disk_state = .kDiskStateNormal)
    (hc : (s.IsCached key).1 = true) :
    s.Load key =
      ((s.fs.Open (s.GetCachePath key)).1,
        (if (s.fs.Open (s.GetCachePath key)).1 = .OK
          then some (BlockReaderImpl.mk (s.fs.Open (s.GetCachePath key)).2.1) else none),
        (if (s.fs.Open (s.GetCachePath key)).1 = .NOT_FOUND
          then (((s.IsCached key).2.fsOpen (s.GetCachePath key)).2.2.managerDelete key)
          else ((s.IsCached key).2.fsOpen (s.GetCachePath key)).2.2).loadMetricGuard
            (s.fs.Open (s.GetCachePath key)).1) := by
  have hck := Check_WANT_EXEC_ok s hrun hnorm
  have hfs : (s.IsCached key).2.fs = s.fs := by rw [IsCached_state]
  have hpath : (s.IsCached key).2.GetCachePath key = s.GetCachePath key := by
    rw [IsCached_state]; rfl
  simp only [DiskCache.Load, hck, hc, hpath]
  simp [DiskCache.fsOpen, hfs]

theorem cache_path_ne_stage_path (s : DiskCache) (key key2 : BlockKey) :
    s.GetCachePath key ≠ s.GetStagePath key2 := by
  intro h
  have h2 := congrArg String.data h
  simp only [DiskCache.GetCachePath, DiskCache.GetStagePath, String.data_append,
    List.append_assoc] at h2
  have h3 := List.append_cancel_left h2
  simp at h3

theorem Cache_of_admission_failure (s : DiskCache) (key : BlockKey) (block : Block)
    (hc : s.Check (WANT_EXEC ||| WANT_CACHE) ≠ .OK) :
    s.Cache key block = (s.Check (WANT_EXEC ||| WANT_CACHE), s) := by
  simp [DiskCache.Cache, hc]

theorem Cache_of_write_failure (s : DiskCache) (key : BlockKey) (block : Block)
    (hc : s.Check (WANT_EXEC ||| WANT_CACHE) = .OK)
    (hw : (s.fs.WriteFile (s.GetCachePath key) block.data).1 ≠ .OK) :
    s.Cache key block =
      ((s.fs.WriteFile (s.GetCachePath key) block.data).1,
        (s.fsWriteFile (s.GetCachePath key) block.data false).2) := by
  simp [DiskCache.Cache, hc, hw, DiskCache.fsWriteFile]

theorem Cache_of_write_ok (s : DiskCache) (key : BlockKey) (block : Block)
    (hc : s.Check (WANT_EXEC ||| WANT_CACHE) = .OK)
    (hw : (s.fs.WriteFile (s.GetCachePath key) block.data).1 = .OK) :
    s.Cache key block =
      (.OK, (s.fsWriteFile (s.GetCachePath key) block.data false).2.managerAdd key
        ⟨block.size, s.now⟩) := by
  simp [DiskCache.Cache, hc, hw, DiskCache.fsWriteFile]

theorem makeDirs_running (dirs : List String) :
    ∀ s : DiskCache, (DiskCache.makeDirs s dirs).2.running = s.running := by
  induction dirs with
  | nil => intro s; rfl
  | cons dir rest ih =>
    intro s
    simp only [DiskCache.makeDirs]
    split
    · rfl
    · rw [ih]; rfl

theorem LoadLockFile_running (s : DiskCache) (gen_uuid : List Nat) :
    (s.LoadLockFile gen_uuid).2.running = s.running := by
  simp only [DiskCache.LoadLockFile]
  split
  · rfl
  · split <;> rfl

theorem Init_eq (s : DiskCache) (uploader : Nat) (gen_uuid : List Nat) :
    s.Init uploader gen_uuid =
      if s.running = true then (.OK, s)
      else if (s.initLock gen_uuid).1 ≠ .OK then ((s.initLock gen_uuid).1, (s.initLock gen_uuid).2)
      else (.OK, (s.initLock gen_uuid).2.initStart uploader) := rfl

theorem DetectDirectIO_frame (s : DiskCache) :
    (DiskCache.DetectDirectIO s).running = s.running ∧
    (DiskCache.DetectDirectIO s).uploader_ = s.uploader_ ∧
    (DiskCache.DetectDirectIO s).uuid = s.uuid := by
  by_cases hc : (s.fsCreate s.GetDetectPath true).1 = .OK
  · simp only [DiskCache.DetectDirectIO, hc, if_true]
    exact ⟨rfl, rfl, rfl⟩
  · simp only [DiskCache.DetectDirectIO, hc, if_false]
    exact ⟨rfl, rfl, rfl⟩

theorem initStart_frame (t : DiskCache) (uploader : Nat) :
    (t.initStart uploader).running = t.running ∧
    (t.initStart uploader).uploader_ = some uploader ∧
    (t.initStart uploader).uuid = t.uuid := by
  have h := DetectDirectIO_frame
    { t with uploader_ := some uploader, trace := t.trace ++ [Event.MetricInit] }
  exact ⟨h.1, h.2.1, h.2.2⟩

theorem initLock_running (s : DiskCache) (gen_uuid : List Nat) :
    (s.initLock gen_uuid).2.running = true := by
  unfold DiskCache.initLock
  simp only
  split
  · rw [LoadLockFile_running]
    simp only [DiskCache.CreateDirs]
    rw [makeDirs_running]
  · simp only [DiskCache.CreateDirs]
    rw [makeDirs_running]

theorem Init_running (s : DiskCache) (uploader : Nat) (gen_uuid : List Nat) :
    (s.Init uploader gen_uuid).2.running = true := by
  rw [Init_eq]
  split
  · assumption
  · split
    · exact initLock_running s gen_uuid
    · rw [(initStart_frame _ uploader).1]
      exact initLock_running s gen_uuid

theorem Init_of_running (s : DiskCache) (uploader : Nat) (gen_uuid : List Nat)
    (h : s.running = true) : s.Init uploader gen_uuid = (.OK, s) := by
  rw [Init_eq, if_pos h]

theorem AddStageBlock_g_seq_num (u : BlockCacheUploader) (key : BlockKey) (stage_path : String)
    (ctx : BlockContext) :
    (u.AddStageBlock key stage_path ctx).g_seq_num = (u.g_seq_num + 1) % 2 ^ 64 := by
  simp only [BlockCacheUploader.AddStageBlock, BlockCacheUploader.pendingPush,
    BlockCacheUploader.Staging]
  split <;> rfl

theorem AddStageBlocks_seq (reqs : List (BlockKey × String × BlockContext)) :
    ∀ u : BlockCacheUploader, u.g_seq_num < 2 ^ 64 →
      (((u.AddStageBlocks reqs).pending_queue.drop u.pending_queue.length).map
        (fun b => b.seq_num)) =
        (List.range reqs.length).map (fun i => (u.g_seq_num + i) % 2 ^ 64) := by
  induction reqs with
  | nil =>
    intro u _
    simp [BlockCacheUploader.AddStageBlocks]
  | cons r rest ih =>
    intro u hu
    obtain ⟨key, stage_path, ctx⟩ := r
    have hg := AddStageBlock_g_seq_num u key stage_path ctx
    have hlt : (u.AddStageBlock key stage_path ctx).g_seq_num < 2 ^ 64 := by
      rw [hg]; exact Nat.mod_lt _ (by positivity)
    have h1 := ih (u.AddStageBlock key stage_path ctx) hlt
    obtain ⟨blocks, hp, _⟩ := AddStageBlocks_count rest (u.AddStageBlock key stage_path ctx)
    have hpu := AddStageBlock_pending u key stage_path ctx
    simp only [BlockCacheUploader.AddStageBlocks]
    rw [hp, hpu] at h1 ⊢
    have hd : List.drop (u.pending_queue ++
        [(⟨u.g_seq_num, key, stage_path, ctx⟩ : StageBlock)]).length
        (u.pending_queue ++ [⟨u.g_seq_num, key, stage_path, ctx⟩] ++ blocks) = blocks :=
      List.drop_left _ _
    rw [hd] at h1
    rw [List.append_assoc, List.drop_left]
    have h2 : (blocks.map fun b => b.seq_num) =
        (List.range rest.length).map (fun i => ((u.g_seq_num + 1) % 2 ^ 64 + i) % 2 ^ 64) := by
      rw [← hg]
      exact h1
    simp only [List.singleton_append, List.map_cons, List.length_cons, List.range_succ_eq_map,
      List.map_map, Nat.add_zero, Nat.mod_eq_of_lt hu, h2]
    congr 1
    apply List.map_congr_left
    intro i _
    simp only [Function.comp]
    rw [Nat.mod_add_mod]
    congr 1
    omega

theorem stageDone_manager (s : DiskCache) (key : BlockKey) (block : Block) (ctx : BlockContext) :
    (s.stageDone key block ctx).manager =
      if ((s.fs.WriteFile (s.GetStagePath key) block.data).2.HardLink
            (s.GetStagePath key) (s.GetCachePath key)).1 = .OK
        then s.manager.Add key ⟨block.size, s.now⟩ else s.manager := by
  simp only [DiskCache.stageDone, DiskCache.fsWriteFile, DiskCache.fsHardLink]
  by_cases hl : ((s.fs.WriteFile (s.GetStagePath key) block.data).2.HardLink
      (s.GetStagePath key) (s.GetCachePath key)).1 = .OK
  · simp [hl, DiskCache.stageMetricGuard, DiskCache.uploader, DiskCache.managerAdd]
  · simp [hl, DiskCache.stageMetricGuard, DiskCache.uploader, DiskCache.managerAdd]

theorem Uploaded_store (u : BlockCacheUploader) (sb : StageBlock) (success : Bool) :
    (u.Uploaded sb success).store = u.store := by
  unfold BlockCacheUploader.Uploaded
  split <;> rfl

theorem foldl_SetTxId_trace (items : List PartitionTxId) :
    ∀ e : LeaseExecutor,
      (items.foldl
        (fun v item =>
          { v with trace := v.trace ++ [LeaseEvent.SetTxId item.partitionid item.txid] }) e).trace =
        e.trace ++ items.map (fun item => LeaseEvent.SetTxId item.partitionid item.txid) := by
  induction items with
  | nil => intro e; simp
  | cons item rest ih =>
    intro e
    rw [List.foldl_cons, ih]
    simp

theorem GetOperatorById_RemoveOperator (c : OperatorController) (id : Nat × Nat) :
    (c.RemoveOperator id).GetOperatorById id = none := by
  simp only [OperatorController.GetOperatorById, OperatorController.RemoveOperator]
  rw [List.find?_eq_none]
  intro op hop
  have h := (List.mem_filter.mp hop).2
  simpa using h

theorem lastSwap_append (v w : Option StoredText) (t l : List KVEvent) :
    (KVStorage.mk v (t ++ l)).lastSwap =
      ((l.reverse.filterMap KVEvent.swapped).head?).or (KVStorage.mk w t).lastSwap := by
  simp [KVStorage.lastSwap, List.reverse_append, List.filterMap_append, List.head?_append]

theorem toInt_of_lt (b : Nat) (h : b < 2 ^ 31) : toInt b = (b : Int) := by
  unfold toInt
  split <;> omega

theorem target_eq (a b : Nat) : (((a : Int) + (b : Int)) % 2 ^ 64).toNat = (a + b) % 2 ^ 64 := by
  omega


theorem GenID_no_alloc (g : EtcdIdGenerator) (kv : KVStorage) (gf cf : Option Nat)
    (h : ¬ (g.nextId_ > g.bundleEnd_ ∨ g.nextId_ = g.initialize_)) :
    g.GenID kv gf cf =
      (true, some g.nextId_, { g with nextId_ := (g.nextId_ + 1) % 2 ^ 64 }, kv) := by
  simp only [EtcdIdGenerator.GenID, if_neg h]

theorem GenID_alloc_cases (g : EtcdIdGenerator) (kv : KVStorage) (gf cf : Option Nat)
    (h : g.nextId_ > g.bundleEnd_ ∨ g.nextId_ = g.initialize_) (hb : g.bundle_ < 2 ^ 31) :
    ((g.GenID kv gf cf).1 = false ∧ (g.GenID kv gf cf).2.1 = none ∧
      (g.GenID kv gf cf).2.2.1 = g ∧ (g.GenID kv gf cf).2.2.2.value = kv.value ∧
      (g.GenID kv gf cf).2.2.2.lastSwap = kv.lastSwap) ∨
    (∃ alloc, (kv.value = some (.number alloc) ∨ (kv.value = none ∧ alloc = g.initialize_)) ∧
      (g.GenID kv gf cf).1 = true ∧ (g.GenID kv gf cf).2.1 = some ((alloc + 1) % 2 ^ 64) ∧
      (g.GenID kv gf cf).2.2.1 =
        { g with bundleEnd_ := (alloc + g.bundle_) % 2 ^ 64,
                 nextId_ := ((alloc + 1) % 2 ^ 64 + 1) % 2 ^ 64 } ∧
      (g.GenID kv gf cf).2.2.2.value = some (.number ((alloc + g.bundle_) % 2 ^ 64)) ∧
      (g.GenID kv gf cf).2.2.2.lastSwap =
        some (kv.value, .number ((alloc + g.bundle_) % 2 ^ 64))) := by
  obtain ⟨value, trace⟩ := kv
  simp only [EtcdIdGenerator.GenID, if_pos h, EtcdIdGenerator.AllocateBundleIds,
    toInt_of_lt _ hb, target_eq]
  cases gf with
  | some c =>
    left
    simp [KVStorage.Get, lastSwap_append value value trace, KVEvent.swapped]
  | none =>
    cases value with
    | none =>
      cases cf with
      | some c =>
        left
        simp [KVStorage.Get, KVStorage.CompareAndSwap, lastSwap_append none none trace,
          KVEvent.swapped]
      | none =>
        right
        refine ⟨g.initialize_, Or.inr ⟨rfl, rfl⟩, ?_⟩
        simp [KVStorage.Get, KVStorage.CompareAndSwap, lastSwap_append _ none trace,
          KVEvent.swapped]
    | some v =>
      cases v with
      | text t =>
        left
        simp [KVStorage.Get, StringToUll, lastSwap_append _ (some (.text t)) trace,
          KVEvent.swapped]
      | number n =>
        by_cases hn : n < 18446744073709551616
        · cases cf with
          | some c =>
            left
            simp [KVStorage.Get, KVStorage.CompareAndSwap, StringToUll, hn,
              lastSwap_append _ (some (.number n)) trace, KVEvent.swapped]
          | none =>
            right
            refine ⟨n, Or.inl rfl, ?_⟩
            simp [KVStorage.Get, KVStorage.CompareAndSwap, StringToUll, hn,
              lastSwap_append _ none trace, KVEvent.swapped]
        · left
          simp [KVStorage.Get, StringToUll, hn, lastSwap_append _ (some (.number n)) trace,
            KVEvent.swapped]

theorem GenID_step (g : EtcdIdGenerator) (kv : KVStorage) (gf cf : Option Nat) (B : Nat)
    (hb1 : 1 ≤ g.bundle_) (hb2 : g.bundle_ < 2 ^ 31) (hinit : g.initialize_ ≤ B)
    (hval : ∀ n, kv.value = some (.number n) → n ≤ B) (hB : B + g.bundle_ + 1 < 2 ^ 64)
    (hS : g.Fresh kv ∨ g.Reserved kv) :
    (g.GenID kv gf cf).2.2.1.initialize_ = g.initialize_ ∧
    (g.GenID kv gf cf).2.2.1.bundle_ = g.bundle_ ∧
    (∀ n, (g.GenID kv gf cf).2.2.2.value = some (.number n) → n ≤ B + g.bundle_) ∧
    ((g.GenID kv gf cf).2.1 = none →
      (g.GenID kv gf cf).2.2.1 = g ∧
      (g.Fresh kv → g.Fresh (g.GenID kv gf cf).2.2.2) ∧
      (g.Reserved kv → g.Reserved (g.GenID kv gf cf).2.2.2)) ∧
    (∀ id, (g.GenID kv gf cf).2.1 = some id →
      (g.GenID kv gf cf).2.2.1.Reserved (g.GenID kv gf cf).2.2.2 ∧
      inReserved g.initialize_ g.bundle_ id (g.GenID kv gf cf).2.2.2.lastSwap = true ∧
      (g.GenID kv gf cf).2.2.1.nextId_ = id + 1 ∧
      (g.Reserved kv → g.nextId_ ≤ id)) := by
  by_cases hcond : g.nextId_ > g.bundleEnd_ ∨ g.nextId_ = g.initialize_
  · rcases GenID_alloc_cases g kv gf cf hcond hb2 with
      ⟨_, h2, h3, h4, h5⟩ | ⟨alloc, hsrc, _, h2, h3, h4, h5⟩
    · rw [h2, h3, h4]
      refine ⟨rfl, rfl, ?_, ?_, ?_⟩
      · intro n hn
        have := hval n hn
        omega
      · intro _
        refine ⟨rfl, ?_, ?_⟩
        · intro hF
          exact ⟨hF.1, by rw [h5]; exact hF.2⟩
        · rintro ⟨prev, a, ha1, ha2, ha3, ha4, ha5, ha6⟩
          exact ⟨prev, a, by rw [h5]; exact ha1, ha2, ha3, ha4, ha5, by rw [h4]; exact ha6⟩
      · intro id hid
        cases hid
    · have halloc : alloc ≤ B := by
        rcases hsrc with hv | ⟨_, ha⟩
        · exact hval alloc hv
        · rw [ha]; exact hinit
      have e1 : (alloc + g.bundle_) % 2 ^ 64 = alloc + g.bundle_ :=
        Nat.mod_eq_of_lt (by omega)
      have e2 : (alloc + 1) % 2 ^ 64 = alloc + 1 := Nat.mod_eq_of_lt (by omega)
      have e3 : (alloc + 1 + 1) % 2 ^ 64 = alloc + 1 + 1 := Nat.mod_eq_of_lt (by omega)
      rw [e2, e3, e1] at h3
      rw [e2] at h2
      rw [e1] at h4 h5
      rw [h2, h3, h4, h5]
      refine ⟨rfl, rfl, ?_, ?_, ?_⟩
      · intro n hn
        simp only [Option.some.injEq, StoredText.number.injEq] at hn
        omega
      · intro hnone
        cases hnone
      · intro id hid
        simp only [Option.some.injEq] at hid
        subst hid
        refine ⟨?_, ?_, rfl, ?_⟩
        · refine ⟨kv.value, alloc, h5, ?_, rfl, ?_, ?_, alloc + g.bundle_, h4, le_refl _⟩
          · rcases hsrc with hv | ⟨hv, ha⟩
            · exact Or.inl hv
            · exact Or.inr ⟨hv, ha⟩
          · show alloc < alloc + 1 + 1
            omega
          · show alloc + 1 + 1 ≤ alloc + g.bundle_ + 1
            omega
        · rcases hsrc with hv | ⟨hv, ha⟩
          · rw [hv]
            simp only [inReserved, decide_eq_true_eq]
            refine ⟨?_, ?_, ?_⟩ <;> first | trivial | omega
          · rw [hv, ha]
            simp only [inReserved, decide_eq_true_eq]
            refine ⟨?_, ?_, ?_⟩ <;> first | trivial | omega
        · rintro ⟨prev, a, _, _, _, _, ha5, n, hn1, hn2⟩
          rcases hsrc with hv | ⟨hv, _⟩
          · rw [hv] at hn1
            simp only [Option.some.injEq, StoredText.number.injEq] at hn1
            omega
          · rw [hv] at hn1
            cases hn1
  · rw [GenID_no_alloc g kv gf cf hcond]
    have hle : g.nextId_ ≤ g.bundleEnd_ := by
      by_contra hgt
      exact hcond (Or.inl (by omega))
    have hne : g.nextId_ ≠ g.initialize_ := fun he => hcond (Or.inr he)
    have hR : g.Reserved kv := by
      rcases hS with hF | hR
      · exact absurd hF.1 hne
      · exact hR
    obtain ⟨prev, a, ha1, ha2, ha3, ha4, ha5, n, hn1, hn2⟩ := hR
    have hnB := hval n hn1
    have e1 : (g.nextId_ + 1) % 2 ^ 64 = g.nextId_ + 1 := Nat.mod_eq_of_lt (by omega)
    rw [e1]
    refine ⟨rfl, rfl, ?_, ?_, ?_⟩
    · intro m hm
      have := hval m hm
      omega
    · intro hnone
      cases hnone
    · intro id hid
      simp only [Option.some.injEq] at hid
      subst hid
      refine ⟨?_, ?_, rfl, fun _ => le_refl _⟩
      · refine ⟨prev, a, ha1, ha2, ha3, ?_, ?_, n, hn1, hn2⟩
        · show a < g.nextId_ + 1
          omega
        · show g.nextId_ + 1 ≤ a + g.bundle_ + 1
          omega
      · show inReserved g.initialize_ g.bundle_ g.nextId_ kv.lastSwap = true
        rw [ha1]
        rcases ha2 with hp | ⟨hp, ha⟩
        · rw [hp]
          simp only [inReserved, decide_eq_true_eq]
          refine ⟨?_, ?_, ?_⟩ <;> first | trivial | omega
        · rw [hp]
          simp only [inReserved, decide_eq_true_eq]
          refine ⟨?_, ?_, ?_⟩ <;> first | trivial | omega

theorem OtherClient_lastSwap (kv : KVStorage) (n : Nat) :
    (kv.OtherClient n).lastSwap = kv.lastSwap := by
  unfold KVStorage.OtherClient
  split
  · split <;> rfl
  · rfl

theorem OtherClient_value (kv : KVStorage) (n : Nat) :
    ∃ m, (kv.OtherClient n).value = some (.number m) ∧ n ≤ m ∧
      (m = n ∨ kv.value = some (.number m)) ∧
      (∀ k, kv.value = some (.number k) → k ≤ m) := by
  unfold KVStorage.OtherClient
  split
  · rename_i m hm
    split
    · refine ⟨n, rfl, le_refl _, Or.inl rfl, ?_⟩
      intro k hk
      rw [hm] at hk
      simp only [Option.some.injEq, StoredText.number.injEq] at hk
      omega
    · refine ⟨m, hm, by omega, Or.inr hm, ?_⟩
      intro k hk
      rw [hm] at hk
      simp only [Option.some.injEq, StoredText.number.injEq] at hk
      omega
  · rename_i hne
    refine ⟨n, rfl, le_refl _, Or.inl rfl, ?_⟩
    intro k hk
    exact absurd hk (hne k)

theorem OtherClient_inv (g : EtcdIdGenerator) (kv : KVStorage) (n B : Nat) (hn : n ≤ B)
    (hval : ∀ m, kv.value = some (.number m) → m ≤ B) :
    (∀ m, (kv.OtherClient n).value = some (.number m) → m ≤ B) ∧
    (g.Fresh kv → g.Fresh (kv.OtherClient n)) ∧
    (g.Reserved kv → g.Reserved (kv.OtherClient n)) := by
  obtain ⟨m, hm1, _, hm3, hm4⟩ := OtherClient_value kv n
  refine ⟨?_, ?_, ?_⟩
  · intro k hk
    rw [hm1] at hk
    simp only [Option.some.injEq, StoredText.number.injEq] at hk
    rcases hm3 with h | h
    · omega
    · have := hval m h
      omega
  · intro hF
    exact ⟨hF.1, by rw [OtherClient_lastSwap]; exact hF.2⟩
  · rintro ⟨prev, a, ha1, ha2, ha3, ha4, ha5, k, hk1, hk2⟩
    refine ⟨prev, a, by rw [OtherClient_lastSwap]; exact ha1, ha2, ha3, ha4, ha5, m, hm1, ?_⟩
    have := hm4 k hk1
    omega

theorem GenIDs_inv (initial bundle M : Nat) (hb1 : 1 ≤ bundle) (hb2 : bundle < 2 ^ 31) :
    ∀ (steps : List IdStep) (g : EtcdIdGenerator) (kv : KVStorage) (B L : Nat),
      g.initialize_ = initial → g.bundle_ = bundle → initial ≤ B → M ≤ B →
      (∀ n, kv.value = some (.number n) → n ≤ B) →
      (∀ n, IdStep.OtherClient n ∈ steps → n ≤ M) →
      B + steps.length * bundle + 1 < 2 ^ 64 →
      (g.Fresh kv ∧ L = 0 ∨ g.Reserved kv ∧ L ≤ g.nextId_) →
      (∀ p ∈ GenIDs g kv steps, inReserved initial bundle p.1 p.2 = true ∧ L ≤ p.1) ∧
      ((GenIDs g kv steps).map Prod.fst).Pairwise (fun a b => a < b) := by
  intro steps
  induction steps with
  | nil =>
    intro g kv B L _ _ _ _ _ _ _ _
    simp [GenIDs]
  | cons step rest ih =>
    intro g kv B L hi hbd hinit hM hval hsteps hB hS
    have hlen : (step :: rest).length = rest.length + 1 := rfl
    rw [hlen, Nat.add_mul, Nat.one_mul] at hB
    have hrest : ∀ n, IdStep.OtherClient n ∈ rest → n ≤ M :=
      fun n hn => hsteps n (List.mem_cons_of_mem _ hn)
    cases step with
    | OtherClient n =>
      have hn : n ≤ B := le_trans (hsteps n (List.mem_cons_self _ _)) hM
      obtain ⟨h1, h2, h3⟩ := OtherClient_inv g kv n B hn hval
      have hS2 : g.Fresh (kv.OtherClient n) ∧ L = 0 ∨
          g.Reserved (kv.OtherClient n) ∧ L ≤ g.nextId_ := by
        rcases hS with ⟨hF, hL⟩ | ⟨hR, hL⟩
        · exact Or.inl ⟨h2 hF, hL⟩
        · exact Or.inr ⟨h3 hR, hL⟩
      have := ih g (kv.OtherClient n) B L hi hbd hinit hM h1 hrest (by omega) hS2
      simpa [GenIDs] using this
    | GenID gf cf =>
      have hS1 : g.Fresh kv ∨ g.Reserved kv := by
        rcases hS with ⟨hF, _⟩ | ⟨hR, _⟩
        · exact Or.inl hF
        · exact Or.inr hR
      obtain ⟨s1, s2, s3, s4, s5⟩ := GenID_step g kv gf cf B (by omega) (by omega) (by omega)
        hval (by rw [hbd]; omega) hS1
      rw [hi, hbd] at s5
      rw [hbd] at s3
      cases hid : (g.GenID kv gf cf).2.1 with
      | none =>
        obtain ⟨t1, t2, t3⟩ := s4 hid
        have hS2 : (g.GenID kv gf cf).2.2.1.Fresh (g.GenID kv gf cf).2.2.2 ∧ L = 0 ∨
            (g.GenID kv gf cf).2.2.1.Reserved (g.GenID kv gf cf).2.2.2 ∧
              L ≤ (g.GenID kv gf cf).2.2.1.nextId_ := by
          rw [t1]
          rcases hS with ⟨hF, hL⟩ | ⟨hR, hL⟩
          · exact Or.inl ⟨t2 hF, hL⟩
          · exact Or.inr ⟨t3 hR, hL⟩
        have := ih (g.GenID kv gf cf).2.2.1 (g.GenID kv gf cf).2.2.2 (B + bundle) L
          (by rw [s1, hi]) (by rw [s2, hbd]) (by omega) (by omega) s3 hrest (by omega) hS2
        simpa [GenIDs, hid] using this
      | some id =>
        obtain ⟨t1, t2, t3, t4⟩ := s5 id hid
        have hL : L ≤ id := by
          rcases hS with ⟨_, hL⟩ | ⟨hR, hL⟩
          · omega
          · exact le_trans hL (t4 hR)
        have := ih (g.GenID kv gf cf).2.2.1 (g.GenID kv gf cf).2.2.2 (B + bundle) (id + 1)
          (by rw [s1, hi]) (by rw [s2, hbd]) (by omega) (by omega) s3 hrest (by omega)
          (Or.inr ⟨t1, by rw [t3]⟩)
        obtain ⟨r1, r2⟩ := this
        simp only [GenIDs, hid, List.singleton_append, List.mem_cons, List.map_cons,
          List.pairwise_cons]
        refine ⟨?_, ?_, r2⟩
        · intro p hp
          rcases hp with hp | hp
          · rw [hp]
            exact ⟨t2, hL⟩
          · have := r1 p hp
            exact ⟨this.1, by omega⟩
        · intro b hb
          obtain ⟨p, hp, hpb⟩ := List.mem_map.mp hb
          have := (r1 p hp).2
          omega

theorem AllocateBundleIds_failure (g : EtcdIdGenerator) (kv : KVStorage) (requiredNum : Int)
    (gf cf : Option Nat) (h : (g.AllocateBundleIds kv requiredNum gf cf).1 = false) :
    (g.AllocateBundleIds kv requiredNum gf cf).2.1 = g := by
  unfold EtcdIdGenerator.AllocateBundleIds at h ⊢
  simp only at h ⊢
  split
  · rfl
  · rename_i alloc hd
    rw [hd] at h
    simp only at h
    split
    · rfl
    · rename_i hc
      rw [if_neg hc] at h
      cases h

theorem UploadStageBlock_trace (u : BlockCacheUploader) (sb : StageBlock) (codes : List Int) :
    (u.UploadStageBlock sb codes).trace =
      u.trace ++ u.newEvents (u.UploadStageBlock sb codes) := by
  have h : ∃ l, (u.UploadStageBlock sb codes).trace = u.trace ++ l := by
    by_cases hr : (u.store.fs.ReadFile sb.stage_path).1 = .OK
    · by_cases h0 : (0 : Int) ∈ codes
      · rw [UploadStageBlock_success u sb codes hr h0, Uploaded_trace, RemoveBlock_trace]
        simp only [List.append_assoc]
        exact ⟨_, rfl⟩
      · rw [UploadStageBlock_pending u sb codes hr h0]
        exact ⟨_, rfl⟩
    · rw [UploadStageBlock_read_failure u sb codes hr, Uploaded_trace]
      simp only [List.append_assoc]
      exact ⟨_, rfl⟩
  obtain ⟨l, hl⟩ := h
  rw [unewEvents_append u _ l hl, hl]

theorem UploadStageBlocks_trace (jobs : List (StageBlock × List Int)) :
    ∀ u : BlockCacheUploader,
      (u.UploadStageBlocks jobs).trace = u.trace ++ u.newEvents (u.UploadStageBlocks jobs) := by
  induction jobs with
  | nil =>
    intro u
    simp [BlockCacheUploader.UploadStageBlocks, BlockCacheUploader.newEvents]
  | cons j rest ih =>
    intro u
    obtain ⟨sb, codes⟩ := j
    have h : (u.UploadStageBlocks ((sb, codes) :: rest)).trace =
        u.trace ++ (u.newEvents (u.UploadStageBlock sb codes) ++
          (u.UploadStageBlock sb codes).newEvents
            ((u.UploadStageBlock sb codes).UploadStageBlocks rest)) := by
      simp only [BlockCacheUploader.UploadStageBlocks]
      rw [ih (u.UploadStageBlock sb codes)]
      rw [UploadStageBlock_trace u sb codes]
      simp only [List.append_assoc]
    rw [unewEvents_append u _ _ h, h]

theorem UploadStageBlocks_cons_events (u : BlockCacheUploader) (sb : StageBlock)
    (codes : List Int) (rest : List (StageBlock × List Int)) :
    u.newEvents (u.UploadStageBlocks ((sb, codes) :: rest)) =
      u.newEvents (u.UploadStageBlock sb codes) ++
        (u.UploadStageBlock sb codes).newEvents
          ((u.UploadStageBlock sb codes).UploadStageBlocks rest) := by
  apply unewEvents_append
  simp only [BlockCacheUploader.UploadStageBlocks]
  rw [UploadStageBlocks_trace rest (u.UploadStageBlock sb codes)]
  conv_lhs => rw [UploadStageBlock_trace u sb codes]
  simp only [List.append_assoc]

theorem UploadStageBlock_count_ge (u : BlockCacheUploader) (sb : StageBlock) (codes : List Int)
    (ino : Nat) :
    u.stage_count.count ino - counted ino sb ≤
      (u.UploadStageBlock sb codes).stage_count.count ino := by
  by_cases hr : (u.store.fs.ReadFile sb.stage_path).1 = .OK
  · by_cases h0 : (0 : Int) ∈ codes
    · rw [UploadStageBlock_count u sb codes h0]
    · rw [UploadStageBlock_pending u sb codes hr h0]
      show u.stage_count.count ino - counted ino sb ≤ u.stage_count.count ino
      unfold counted
      split <;> omega
  · rw [UploadStageBlock_read_failure u sb codes hr, Uploaded_count]

theorem UploadStageBlocks_count_ge (jobs : List (StageBlock × List Int)) (ino : Nat) :
    ∀ u : BlockCacheUploader,
      u.stage_count.count ino - inFlight ino (jobs.map Prod.fst) ≤
        (u.UploadStageBlocks jobs).stage_count.count ino := by
  induction jobs with
  | nil => intro u; simp [BlockCacheUploader.UploadStageBlocks, inFlight]
  | cons j rest ih =>
    intro u
    obtain ⟨sb, codes⟩ := j
    have h1 := ih (u.UploadStageBlock sb codes)
    have h2 := UploadStageBlock_count_ge u sb codes ino
    simp only [BlockCacheUploader.UploadStageBlocks, inFlight, List.map_cons, List.sum_cons]
    simp only [inFlight] at h1
    omega

theorem UploadStageBlock_uploaded (u : BlockCacheUploader) (sb : StageBlock) (codes : List Int)
    (hf : sb.ctx.from_ = .CTO_FLUSH)
    (hcount : (u.UploadStageBlock sb codes).stage_count.count sb.key.ino =
      u.stage_count.count sb.key.ino - 1)
    (hnofail : UploaderEvent.CountAdd sb.key.ino (-1) true ∉
      u.newEvents (u.UploadStageBlock sb codes)) :
    (u.store.fs.ReadFile sb.stage_path).1 = .OK ∧ (0 : Int) ∈ codes := by
  by_cases hr : (u.store.fs.ReadFile sb.stage_path).1 = .OK
  · refine ⟨hr, ?_⟩
    by_contra h0
    rw [UploadStageBlock_pending u sb codes hr h0] at hcount
    have : u.stage_count.count sb.key.ino = u.stage_count.count sb.key.ino - 1 := hcount
    omega
  · exfalso
    apply hnofail
    rw [UploadStageBlock_events, if_neg hr]
    simp [hf]

theorem UploadStageBlocks_all_uploaded (ino : Nat) (pre : List (StageBlock × List Int)) :
    ∀ (v : BlockCacheUploader) (j : StageBlock × List Int) (post : List (StageBlock × List Int)),
      (v.UploadStageBlocks (pre ++ j :: post)).stage_count.count ino =
        v.stage_count.count ino - inFlight ino ((pre ++ j :: post).map Prod.fst) →
      UploaderEvent.CountAdd ino (-1) true ∉
        v.newEvents (v.UploadStageBlocks (pre ++ j :: post)) →
      j.1.ctx.from_ = .CTO_FLUSH → j.1.key.ino = ino →
      ((v.UploadStageBlocks pre).store.fs.ReadFile j.1.stage_path).1 = .OK ∧
        (0 : Int) ∈ j.2 := by
  induction pre with
  | nil =>
    intro v j post hzero hnofail hf hino
    obtain ⟨sb, codes⟩ := j
    simp only [List.nil_append] at hzero hnofail
    rw [UploadStageBlocks_cons_events] at hnofail
    simp only [List.mem_append, not_or] at hnofail
    have h1 := UploadStageBlocks_count_ge post ino (v.UploadStageBlock sb codes)
    have h2 := UploadStageBlock_count_ge v sb codes ino
    have hc : counted ino sb = 1 := by
      simp only at hf hino
      simp [counted, hf, hino]
    simp only [BlockCacheUploader.UploadStageBlocks, inFlight, List.map_cons,
      List.sum_cons] at hzero
    simp only [inFlight] at h1
    simp only at hino
    subst hino
    exact UploadStageBlock_uploaded v sb codes hf (by omega) hnofail.1
  | cons p rest ih =>
    intro v j post hzero hnofail hf hino
    obtain ⟨sb, codes⟩ := p
    simp only [List.cons_append] at hzero hnofail
    rw [UploadStageBlocks_cons_events] at hnofail
    simp only [List.mem_append, not_or] at hnofail
    have h1 := UploadStageBlocks_count_ge (rest ++ j :: post) ino (v.UploadStageBlock sb codes)
    have h2 := UploadStageBlock_count_ge v sb codes ino
    simp only [BlockCacheUploader.UploadStageBlocks, inFlight, List.map_cons,
      List.sum_cons] at hzero
    simp only [inFlight] at h1
    have := ih (v.UploadStageBlock sb codes) j post
      (by simp only [inFlight]; omega) hnofail.2 hf hino
    simpa [BlockCacheUploader.UploadStageBlocks] using this

theorem UploadStageBlock_success_events (u : BlockCacheUploader) (sb : StageBlock)
    (codes : List Int) (hf : sb.ctx.from_ = .CTO_FLUSH)
    (hr : (u.store.fs.ReadFile sb.stage_path).1 = .OK) (h0 : (0 : Int) ∈ codes) :
    ∃ before, u.newEvents (u.UploadStageBlock sb codes) =
      before ++ [.PutCallback sb.key 0,
        .RemoveStage sb.key sb.ctx (u.store.RemoveStage sb.key sb.ctx).1,
        .CountAdd sb.key.ino (-1) false] := by
  refine ⟨[.ReadFile sb.stage_path .OK,
    .AsyncPut sb.key (u.store.fs.ReadFile sb.stage_path).2] ++
    (codes.takeWhile (fun c => c ≠ 0)).map (UploaderEvent.PutCallback sb.key), ?_⟩
  rw [UploadStageBlock_events, callbacksUntilSuccess_success sb.key codes h0]
  simp [hr, h0, hf]

/-! ## Properties of `DiskCache` -/

/-- C1 (as stated, refuted): on a running disk whose health is Normal, `Stage`
returns OK while the hard link into the cache tree fails; the following `Load`
of the same key returns NOT_FOUND instead of a reader on the block. -/
theorem Stage_Load_round_trip_fails_without_link :
    exampleDiskLinkFails.running = true ∧
    exampleDiskLinkFails.disk_state = .kDiskStateNormal ∧
    (exampleDiskLinkFails.Stage exampleKey exampleBlock ⟨.NOCTO_FLUSH⟩).1 = .OK ∧
    ((exampleDiskLinkFails.Stage exampleKey exampleBlock ⟨.NOCTO_FLUSH⟩).2.Load exampleKey).1 =
      .NOT_FOUND ∧
    ((exampleDiskLinkFails.Stage exampleKey exampleBlock ⟨.NOCTO_FLUSH⟩).2.Load exampleKey).2.1 =
      none := by
  decide

/-- C1 (amended): if `Stage(k, b, ctx)` returns OK and its hard link of the
stage file to the cache path succeeded, and the open, seek and read calls of
the load do not fail, then `Load(k)` on the resulting state returns OK with a
reader whose `ReadAt(0, b.size)` returns OK and yields exactly the bytes of `b`. -/
theorem Stage_Load_round_trip (s : DiskCache) (key : BlockKey) (block : Block)
    (ctx : BlockContext)
    (hs : (s.Stage key block ctx).1 = .OK)
    (hl : Event.HardLink (s.GetStagePath key) (s.GetCachePath key) .OK ∈
      s.newEvents (s.Stage key block ctx).2)
    (ho : s.fs.fault (.Open (s.GetCachePath key)) = .OK)
    (hk : ∀ fd, s.fs.fault (.LSeek fd) = .OK)
    (hr : ∀ fd, s.fs.fault (.Read fd) = .OK) :
    ((s.Stage key block ctx).2.Load key).1 = .OK ∧
    ∃ reader, ((s.Stage key block ctx).2.Load key).2.1 = some reader ∧
      (reader.ReadAt ((s.Stage key block ctx).2.Load key).2.2 0 block.size).1 = .OK ∧
      (reader.ReadAt ((s.Stage key block ctx).2.Load key).2.2 0 block.size).2.1 = block.data := by
  by_cases hc : s.Check (WANT_EXEC ||| WANT_STAGE) = .OK
  swap
  · rw [Stage_of_admission_failure s key block ctx hc] at hs
    exact absurd hs hc
  by_cases hw : (s.fs.WriteFile (s.GetStagePath key) block.data).1 = .OK
  swap
  · rw [Stage_of_write_failure s key block ctx hc hw] at hs
    exact absurd hs hw
  have hrun := Check_ok_running s _ hc
  have hnorm := Check_ok_healthy s _ hc (by decide)
  rw [Stage_of_write_ok s key block ctx hc hw] at hl ⊢
  simp only
  rw [newEvents_append s _ _ (stageDone_trace s key block ctx)] at hl
  have hlink : ((s.fs.WriteFile (s.GetStagePath key) block.data).2.HardLink
      (s.GetStagePath key) (s.GetCachePath key)).1 = .OK := by
    by_contra hne
    simp [hne] at hl
    exact hne hl.symm
  obtain ⟨d, hd, hfs2⟩ := HardLink_ok _ _ _ hlink
  have hfs1 := WriteFile_ok s.fs _ _ hw
  have hdd : d = block.data := by
    rw [hfs1] at hd
    simpa using hd.symm
  subst hdd
  have hdone_fs : (s.stageDone key block ctx).fs =
      ((s.fs.WriteFile (s.GetStagePath key) block.data).2.HardLink
        (s.GetStagePath key) (s.GetCachePath key)).2 := by
    simp [DiskCache.stageDone, DiskCache.fsWriteFile, DiskCache.fsHardLink, hlink,
      DiskCache.stageMetricGuard, DiskCache.uploader, DiskCache.managerAdd]
  have hdone_mgr : (s.stageDone key block ctx).manager =
      s.manager.Add key ⟨block.size, s.now⟩ := by
    simp [DiskCache.stageDone, DiskCache.fsWriteFile, DiskCache.fsHardLink, hlink,
      DiskCache.stageMetricGuard, DiskCache.uploader, DiskCache.managerAdd]
  have hdone_run : (s.stageDone key block ctx).running = s.running := by
    simp only [DiskCache.stageDone, DiskCache.fsWriteFile, DiskCache.fsHardLink,
      DiskCache.stageMetricGuard, DiskCache.uploader, DiskCache.managerAdd]
    split <;> simp
  have hdone_state : (s.stageDone key block ctx).disk_state = s.disk_state := by
    simp only [DiskCache.stageDone, DiskCache.fsWriteFile, DiskCache.fsHardLink,
      DiskCache.stageMetricGuard, DiskCache.uploader, DiskCache.managerAdd]
    split <;> simp
  have hdone_root : (s.stageDone key block ctx).root_dir = s.root_dir := by
    simp only [DiskCache.stageDone, DiskCache.fsWriteFile, DiskCache.fsHardLink,
      DiskCache.stageMetricGuard, DiskCache.uploader, DiskCache.managerAdd]
    split <;> simp
  have hdone_path : (s.stageDone key block ctx).GetCachePath key = s.GetCachePath key := by
    simp only [DiskCache.GetCachePath, hdone_root]
  have hfault : (s.stageDone key block ctx).fs.fault = s.fs.fault := by
    rw [hdone_fs, hfs2, hfs1]
  have hL := Load_of_cached (s.stageDone key block ctx) key block.data
    (by rw [hdone_run]; exact hrun) (by rw [hdone_state]; exact hnorm)
    (by rw [hdone_mgr, find_Add]; rfl)
    (by rw [hdone_path, hdone_fs, hfs2]; simp)
    (by rw [hfault, hdone_path]; exact ho)
  refine ⟨hL.1, ⟨(s.stageDone key block ctx).fs.next_fd⟩, hL.2.1, ?_⟩
  have hR := ReadAt_of_open ⟨(s.stageDone key block ctx).fs.next_fd⟩
    ((s.stageDone key block ctx).Load key).2.2 block.data 0 0 block.size
    (by rw [hL.2.2]; simp)
    (by rw [hL.2.2]; simp only; rw [hfault]; exact hk _)
    (by rw [hL.2.2]; simp only; rw [hfault]; exact hr _)
  simpa [Block.size] using hR

/-- C1 (amended), instance: staging the example block on the example disk and
loading it back reads its three bytes. -/
theorem Stage_Load_round_trip_witness :
    (exampleDisk.Stage exampleKey exampleBlock ⟨.CTO_FLUSH⟩).1 = .OK ∧
    (((exampleDisk.Stage exampleKey exampleBlock ⟨.CTO_FLUSH⟩).2.Load exampleKey).1 = .OK ∧
      ∃ reader,
        ((exampleDisk.Stage exampleKey exampleBlock ⟨.CTO_FLUSH⟩).2.Load exampleKey).2.1 =
          some reader ∧
        (reader.ReadAt
          ((exampleDisk.Stage exampleKey exampleBlock ⟨.CTO_FLUSH⟩).2.Load exampleKey).2.2
          0 exampleBlock.size).1 = .OK ∧
        (reader.ReadAt
          ((exampleDisk.Stage exampleKey exampleBlock ⟨.CTO_FLUSH⟩).2.Load exampleKey).2.2
          0 exampleBlock.size).2.1 = exampleBlock.data) :=
  ⟨by decide,
    Stage_Load_round_trip exampleDisk exampleKey exampleBlock ⟨.CTO_FLUSH⟩ (by decide)
      (by decide) (by decide) (fun _ => rfl) (fun _ => rfl)⟩

/-- C2: `Stage` returns a code other than OK exactly when the admission check
`Check(WANT_EXEC | WANT_STAGE)` fails or, admission passed, the write of the
stage file fails.  When admission fails it returns the admission code, calls no
collaborator and leaves the files as they were; when the write fails it returns
the write error and its only collaborator call is that write.  In both cases
no hard link is made, the upload function is not called and the LRU manager is
unchanged. -/
theorem Stage_failure (s : DiskCache) (key : BlockKey) (block : Block) (ctx : BlockContext) :
    ((s.Stage key block ctx).1 ≠ .OK ↔
      (s.Check (WANT_EXEC ||| WANT_STAGE) ≠ .OK ∨
        (s.Check (WANT_EXEC ||| WANT_STAGE) = .OK ∧
          (s.fs.WriteFile (s.GetStagePath key) block.data).1 ≠ .OK))) ∧
    (s.Check (WANT_EXEC ||| WANT_STAGE) ≠ .OK →
      (s.Stage key block ctx).1 = s.Check (WANT_EXEC ||| WANT_STAGE) ∧
      s.newEvents (s.Stage key block ctx).2 = [] ∧
      (s.Stage key block ctx).2.fs.files = s.fs.files) ∧
    (s.Check (WANT_EXEC ||| WANT_STAGE) = .OK →
      (s.fs.WriteFile (s.GetStagePath key) block.data).1 ≠ .OK →
      (s.Stage key block ctx).1 = (s.fs.WriteFile (s.GetStagePath key) block.data).1 ∧
      s.newEvents (s.Stage key block ctx).2 =
        [.WriteFile (s.GetStagePath key) block.data s.use_direct_write
          (s.fs.WriteFile (s.GetStagePath key) block.data).1]) ∧
    ((s.Stage key block ctx).1 ≠ .OK →
      (s.newEvents (s.Stage key block ctx).2).all (fun e => !e.isHardLink && !e.isUpload) = true ∧
      (s.Stage key block ctx).2.manager = s.manager) := by
  by_cases hc : s.Check (WANT_EXEC ||| WANT_STAGE) = .OK
  · by_cases hw : (s.fs.WriteFile (s.GetStagePath key) block.data).1 = .OK
    · rw [Stage_of_write_ok s key block ctx hc hw]
      simp [hc, hw]
    · rw [Stage_of_write_failure s key block ctx hc hw]
      simp [hc, hw, DiskCache.fsWriteFile, DiskCache.stageMetricGuard,
        DiskCache.newEvents, Event.isHardLink, Event.isUpload]
  · rw [Stage_of_admission_failure s key block ctx hc]
    simp [hc, DiskCache.stageMetricGuard, DiskCache.newEvents]

/-- C2, instance: on the stopped example disk `Stage` returns the admission
code and calls no collaborator. -/
theorem Stage_failure_witness :
    exampleDiskDown.Check (WANT_EXEC ||| WANT_STAGE) ≠ .OK ∧
    ((exampleDiskDown.Stage exampleKey exampleBlock ⟨.CTO_FLUSH⟩).1 =
        exampleDiskDown.Check (WANT_EXEC ||| WANT_STAGE) ∧
      exampleDiskDown.newEvents
        (exampleDiskDown.Stage exampleKey exampleBlock ⟨.CTO_FLUSH⟩).2 = [] ∧
      (exampleDiskDown.Stage exampleKey exampleBlock ⟨.CTO_FLUSH⟩).2.fs.files =
        exampleDiskDown.fs.files) :=
  ⟨by decide,
    (Stage_failure exampleDiskDown exampleKey exampleBlock ⟨.CTO_FLUSH⟩).2.1 (by decide)⟩

/-- C3: when the admission check and the write of the stage file succeed,
`Stage` returns OK and its collaborator calls are, in this order: the write of
the stage file, the hard link to the cache path, the LRU admission if and only
if that link succeeded, and one call of the upload function with
`(key, stage path of key, ctx)`; so the upload function is called exactly once,
after the write, whether the link succeeded or failed. -/
theorem Stage_link_failure_not_surfaced (s : DiskCache) (key : BlockKey) (block : Block)
    (ctx : BlockContext)
    (hc : s.Check (WANT_EXEC ||| WANT_STAGE) = .OK)
    (hw : (s.fs.WriteFile (s.GetStagePath key) block.data).1 = .OK) :
    (s.Stage key block ctx).1 = .OK ∧
    s.newEvents (s.Stage key block ctx).2 =
      [.WriteFile (s.GetStagePath key) block.data s.use_direct_write .OK,
       .HardLink (s.GetStagePath key) (s.GetCachePath key)
         ((s.fs.WriteFile (s.GetStagePath key) block.data).2.HardLink
           (s.GetStagePath key) (s.GetCachePath key)).1] ++
      (if ((s.fs.WriteFile (s.GetStagePath key) block.data).2.HardLink
            (s.GetStagePath key) (s.GetCachePath key)).1 = .OK
        then [.Add key ⟨block.size, s.now⟩] else []) ++
      [.Upload key (s.GetStagePath key) ctx] ∧
    (s.newEvents (s.Stage key block ctx).2).countP Event.isUpload = 1 := by
  have e := newEvents_append s _ _ (stageDone_trace s key block ctx)
  rw [hw] at e
  rw [Stage_of_write_ok s key block ctx hc hw]
  refine ⟨rfl, e, ?_⟩
  simp only
  rw [e]
  split <;> simp [Event.isUpload, List.countP_cons]

/-- C3, instance: on the example disk whose hard links fail, `Stage` returns OK
and calls the upload function once. -/
theorem Stage_link_failure_not_surfaced_witness :
    exampleDiskLinkFails.Check (WANT_EXEC ||| WANT_STAGE) = .OK ∧
    ((exampleDiskLinkFails.fs.WriteFile
        (exampleDiskLinkFails.GetStagePath exampleKey) exampleBlock.data).2.HardLink
      (exampleDiskLinkFails.GetStagePath exampleKey)
      (exampleDiskLinkFails.GetCachePath exampleKey)).1 = .IO_ERROR ∧
    (exampleDiskLinkFails.Stage exampleKey exampleBlock ⟨.CTO_FLUSH⟩).1 = .OK ∧
    (exampleDiskLinkFails.newEvents
      (exampleDiskLinkFails.Stage exampleKey exampleBlock ⟨.CTO_FLUSH⟩).2).countP
        Event.isUpload = 1 :=
  ⟨by decide, by decide,
    (Stage_link_failure_not_surfaced exampleDiskLinkFails exampleKey exampleBlock ⟨.CTO_FLUSH⟩
      (by decide) (by decide)).1,
    (Stage_link_failure_not_surfaced exampleDiskLinkFails exampleKey exampleBlock ⟨.CTO_FLUSH⟩
      (by decide) (by decide)).2.2⟩

/-- C4: `Check(want)` returns the code of the first admission rule that
applies, in the order of the specification: not running gives CACHE_DOWN; then
`want` contains WANT_EXEC and the health state is not Normal gives
CACHE_UNHEALTHY; then `want` contains WANT_STAGE and the stage is full gives
CACHE_FULL; then `want` contains WANT_CACHE and the cache is full gives
CACHE_FULL; otherwise OK. -/
theorem Check_follows_admission_rules (s : DiskCache) (want : Nat) :
    s.Check want = firstRule (admissionRules s want) := by
  simp only [DiskCache.Check, admissionRules, firstRule, and_WANT_EXEC, and_WANT_STAGE,
    and_WANT_CACHE, DiskCache.IsHealthy, DiskCache.StageFull, DiskCache.CacheFull]
  cases s.running <;> cases wantContains want WANT_EXEC <;>
    cases wantContains want WANT_STAGE <;> cases wantContains want WANT_CACHE <;>
    cases s.manager.stage_full <;> cases s.manager.cache_full <;>
    cases s.disk_state <;> simp

/-- C5: `RemoveStage` makes exactly one collaborator call, the removal of the
key's stage path, and returns the result of that removal, leaving the
filesystem as the removal left it; its result does not depend on the running
flag, the health state or the fullness of stage and cache. -/
theorem RemoveStage_bypasses_admission (s : DiskCache) (key : BlockKey) (ctx : BlockContext) :
    (s.RemoveStage key ctx).1 = (s.fs.RemoveFile (s.GetStagePath key)).1 ∧
    s.newEvents (s.RemoveStage key ctx).2 =
      [.RemoveFile (s.GetStagePath key) (s.fs.RemoveFile (s.GetStagePath key)).1] ∧
    (s.RemoveStage key ctx).2.fs = (s.fs.RemoveFile (s.GetStagePath key)).2 ∧
    ∀ (running : Bool) (disk_state : DiskState) (stage_full cache_full : Bool),
      (DiskCache.RemoveStage
        { s with running := running, disk_state := disk_state,
                 manager := { s.manager with stage_full := stage_full,
                                             cache_full := cache_full } }
        key ctx).1 = (s.RemoveStage key ctx).1 := by
  refine ⟨rfl, ?_, RemoveStage_fs s key ctx, ?_⟩
  · apply newEvents_append
    simp only [DiskCache.RemoveStage, DiskCache.fsRemoveFile, DiskCache.removeStageMetricGuard]
    split <;> rfl
  · intro _ _ _ _
    rfl

/-- C6 (as stated, refuted): on the example disk holding the staged block, the
first `RemoveStage` returns OK and the second one, which finds the stage file
missing, returns NOT_FOUND, not OK. -/
theorem RemoveStage_second_call_not_OK :
    (exampleDiskStaged.RemoveStage exampleKey ⟨.CTO_FLUSH⟩).1 = .OK ∧
    ((exampleDiskStaged.RemoveStage exampleKey ⟨.CTO_FLUSH⟩).2.RemoveStage
      exampleKey ⟨.CTO_FLUSH⟩).1 = .NOT_FOUND ∧
    ((exampleDiskStaged.RemoveStage exampleKey ⟨.CTO_FLUSH⟩).2.RemoveStage
      exampleKey ⟨.CTO_FLUSH⟩).1 ≠ .OK := by
  decide

/-- C6 (amended): after a `RemoveStage` that returned OK, a second
`RemoveStage` on the same key returns NOT_FOUND (the result of removing the
missing file) and leaves the state exactly as it was after the first call, the
staged-block count included; only the record of the attempted removal is added
to the trace. -/
theorem RemoveStage_second_call (s : DiskCache) (key : BlockKey) (ctx ctx2 : BlockContext)
    (h : (s.RemoveStage key ctx).1 = .OK) :
    ((s.RemoveStage key ctx).2.RemoveStage key ctx2).1 = .NOT_FOUND ∧
    ((s.RemoveStage key ctx).2.RemoveStage key ctx2).2 =
      { (s.RemoveStage key ctx).2 with
        trace := (s.RemoveStage key ctx).2.trace ++
          [.RemoveFile (s.GetStagePath key) .NOT_FOUND] } := by
  have h1 : (s.fs.RemoveFile (s.GetStagePath key)).1 = .OK := h
  have h2 := RemoveFile_missing s.fs (s.GetStagePath key) h1
  have hp : (s.RemoveStage key ctx).2.GetStagePath key = s.GetStagePath key := by
    simp only [DiskCache.RemoveStage, DiskCache.fsRemoveFile, DiskCache.removeStageMetricGuard]
    split <;> rfl
  have h3 := RemoveStage_of_missing (s.RemoveStage key ctx).2 key ctx2
    (by rw [hp, RemoveStage_fs]; exact h2)
  rw [h3, hp]
  exact ⟨rfl, rfl⟩

/-- C6 (amended), instance: the two removals on the example disk holding the
staged block. -/
theorem RemoveStage_second_call_witness :
    (exampleDiskStaged.RemoveStage exampleKey ⟨.CTO_FLUSH⟩).1 = .OK ∧
    ((exampleDiskStaged.RemoveStage exampleKey ⟨.CTO_FLUSH⟩).2.RemoveStage
      exampleKey ⟨.RELOAD⟩).1 = .NOT_FOUND :=
  ⟨by decide,
    (RemoveStage_second_call exampleDiskStaged exampleKey ⟨.CTO_FLUSH⟩ ⟨.RELOAD⟩
      (by decide)).1⟩

/-! ## Properties of the uploader -/

/-- C7 (as stated, refuted): a CtoFlush block is enqueued and uploaded on a disk
whose removals fail; the PUT succeeds at once, the counter of its inode is
decremented without the failure flag and is back at zero with no failure
recorded, and the stage file of the block is still there. -/
theorem flush_wait_without_removal :
    ((exampleUploader exampleDiskRemoveFails).AddStageBlock exampleKey
        (exampleDisk.GetStagePath exampleKey) ⟨.CTO_FLUSH⟩).stage_count.count 7 = 1 ∧
    UploaderEvent.CountAdd 7 (-1) false ∈
      (((exampleUploader exampleDiskRemoveFails).AddStageBlock exampleKey
        (exampleDisk.GetStagePath exampleKey) ⟨.CTO_FLUSH⟩).UploadStageBlock
          exampleStageBlock [0]).trace ∧
    ((((exampleUploader exampleDiskRemoveFails).AddStageBlock exampleKey
        (exampleDisk.GetStagePath exampleKey) ⟨.CTO_FLUSH⟩).UploadStageBlock
          exampleStageBlock [0]).stage_count.count 7 = 0) ∧
    ((((exampleUploader exampleDiskRemoveFails).AddStageBlock exampleKey
        (exampleDisk.GetStagePath exampleKey) ⟨.CTO_FLUSH⟩).UploadStageBlock
          exampleStageBlock [0]).stage_count.failed 7 = false) ∧
    ((((exampleUploader exampleDiskRemoveFails).AddStageBlock exampleKey
        (exampleDisk.GetStagePath exampleKey) ⟨.CTO_FLUSH⟩).UploadStageBlock
          exampleStageBlock [0]).store.fs.files
            (exampleDiskRemoveFails.GetStagePath exampleKey)) = some exampleBlock.data := by
  decide

/-- C7 (amended): for a CtoFlush stage block, the in-flight counter of its
inode is decremented without the failure flag only at the end of a run in
which the PUT callback was invoked with code 0 and `RemoveStage` was then
called for the block's key, in this order; the stage file is gone when that
`RemoveStage` returned OK (the removal is best effort).  So, over any sequence
of uploads, when the counter of an inode went down by the number of CtoFlush
blocks counted for it (it is back at the value it had before they were staged)
and no update of that counter carried the failure flag, every one of these
blocks saw its PUT succeed and the removal of its stage file attempted. -/
theorem flush_wait_soundness (u : BlockCacheUploader) (sb : StageBlock) (codes : List Int)
    (hf : sb.ctx.from_ = .CTO_FLUSH) :
    (UploaderEvent.CountAdd sb.key.ino (-1) false ∈ u.newEvents (u.UploadStageBlock sb codes) →
      (∃ before, u.newEvents (u.UploadStageBlock sb codes) =
        before ++ [.PutCallback sb.key 0,
          .RemoveStage sb.key sb.ctx (u.store.RemoveStage sb.key sb.ctx).1,
          .CountAdd sb.key.ino (-1) false]) ∧
      ((u.store.RemoveStage sb.key sb.ctx).1 = .OK →
        (u.UploadStageBlock sb codes).store.fs.files (u.store.GetStagePath sb.key) = none)) ∧
    (∀ (jobs : List (StageBlock × List Int)) (ino : Nat),
      (u.UploadStageBlocks jobs).stage_count.count ino =
        u.stage_count.count ino - inFlight ino (jobs.map Prod.fst) →
      UploaderEvent.CountAdd ino (-1) true ∉ u.newEvents (u.UploadStageBlocks jobs) →
      ∀ (pre : List (StageBlock × List Int)) (j : StageBlock × List Int)
        (post : List (StageBlock × List Int)),
        jobs = pre ++ j :: post → j.1.ctx.from_ = .CTO_FLUSH → j.1.key.ino = ino →
        ∃ before,
          (u.UploadStageBlocks pre).newEvents
              ((u.UploadStageBlocks pre).UploadStageBlock j.1 j.2) =
            before ++ [.PutCallback j.1.key 0,
              .RemoveStage j.1.key j.1.ctx
                ((u.UploadStageBlocks pre).store.RemoveStage j.1.key j.1.ctx).1,
              .CountAdd ino (-1) false]) := by
  constructor
  · intro hmem
    by_cases hr : (u.store.fs.ReadFile sb.stage_path).1 = .OK
    · by_cases h0 : (0 : Int) ∈ codes
      · constructor
        · exact UploadStageBlock_success_events u sb codes hf hr h0
        · intro hrm
          rw [UploadStageBlock_store u sb codes hr h0, RemoveStage_fs]
          exact RemoveFile_ok_files _ _ hrm
      · exfalso
        rw [UploadStageBlock_events] at hmem
        simp only [hr, h0, if_true, if_false, List.append_nil, List.mem_append, List.mem_cons,
          List.mem_singleton, List.not_mem_nil, or_false] at hmem
        rcases hmem with (h1 | h1) | h1
        · cases h1
        · cases h1
        · have := callbacksUntilSuccess_no_CountAdd sb.key codes _ h1
          simp [UploaderEvent.isCountAdd] at this
    · exfalso
      rw [UploadStageBlock_events] at hmem
      simp [hr, hf] at hmem
  · intro jobs ino hzero hnofail pre j post hjobs hcto hino
    subst hjobs
    obtain ⟨hr, h0⟩ := UploadStageBlocks_all_uploaded ino pre u j post hzero hnofail hcto hino
    have h := UploadStageBlock_success_events (u.UploadStageBlocks pre) j.1 j.2 hcto hr h0
    rw [hino] at h
    exact h

/-- C7 (amended), instance: on the staged example disk the PUT of the example
block fails once and then succeeds; the counter is decremented without the
failure flag and the stage file is gone.  And as the counter of inode 7 went
down by one with no failure flag, the run of the block ends with the successful
callback, the removal and the decrement. -/
theorem flush_wait_soundness_witness :
    exampleStageBlock.ctx.from_ = .CTO_FLUSH ∧
    UploaderEvent.CountAdd exampleStageBlock.key.ino (-1) false ∈
      (exampleUploader exampleDiskStaged).newEvents
        ((exampleUploader exampleDiskStaged).UploadStageBlock exampleStageBlock [5, 0]) ∧
    ((exampleUploader exampleDiskStaged).store.RemoveStage exampleStageBlock.key
      exampleStageBlock.ctx).1 = .OK ∧
    ((exampleUploader exampleDiskStaged).UploadStageBlock exampleStageBlock [5, 0]).store.fs.files
      ((exampleUploader exampleDiskStaged).store.GetStagePath exampleStageBlock.key) = none ∧
    ∃ before,
      (exampleUploader exampleDiskStaged).newEvents
          ((exampleUploader exampleDiskStaged).UploadStageBlock exampleStageBlock [5, 0]) =
        before ++ [.PutCallback exampleKey 0, .RemoveStage exampleKey ⟨.CTO_FLUSH⟩ .OK,
          .CountAdd 7 (-1) false] :=
  ⟨by decide, by decide, by decide,
    ((flush_wait_soundness (exampleUploader exampleDiskStaged) exampleStageBlock [5, 0]
      (by decide)).1 (by decide)).2 (by decide),
    (flush_wait_soundness (exampleUploader exampleDiskStaged) exampleStageBlock [5, 0]
      (by decide)).2 [(exampleStageBlock, [5, 0])] 7 (by decide) (by decide)
      [] (exampleStageBlock, [5, 0]) [] rfl (by decide) rfl⟩

/-- C8: `AddStageBlock` adds +1 to the counter of inode `key.ino` with one
counter update if the context is CTO_FLUSH and makes no counter update
otherwise; a completed `UploadStageBlock` (the PUT attempts reach a code 0, if
the stage file could be read at all) adds -1 to the counter of the same inode
with one counter update if the block is a CTO_FLUSH block and makes no counter
update otherwise; hence, once all enqueued blocks have completed, in whatever
order, every inode's counter equals its initial value. -/
theorem in_flight_counter_balance (u : BlockCacheUploader) :
    (∀ (key : BlockKey) (stage_path : String) (ctx : BlockContext),
      (u.newEvents (u.AddStageBlock key stage_path ctx)).filter UploaderEvent.isCountAdd =
        (if ctx.from_ = .CTO_FLUSH then [.CountAdd key.ino 1 false] else []) ∧
      ∀ ino, (u.AddStageBlock key stage_path ctx).stage_count.count ino =
        u.stage_count.count ino +
          (if ctx.from_ = .CTO_FLUSH ∧ key.ino = ino then 1 else 0)) ∧
    (∀ (sb : StageBlock) (codes : List Int), (0 : Int) ∈ codes →
      (u.newEvents (u.UploadStageBlock sb codes)).filter UploaderEvent.isCountAdd =
        (if sb.ctx.from_ = .CTO_FLUSH then
          [.CountAdd sb.key.ino (-1) (decide ((u.store.fs.ReadFile sb.stage_path).1 ≠ .OK))]
         else []) ∧
      ∀ ino, (u.UploadStageBlock sb codes).stage_count.count ino =
        u.stage_count.count ino -
          (if sb.ctx.from_ = .CTO_FLUSH ∧ sb.key.ino = ino then 1 else 0)) ∧
    (∀ (reqs : List (BlockKey × String × BlockContext)) (jobs : List (StageBlock × List Int)),
      (∀ j ∈ jobs, (0 : Int) ∈ j.2) →
      (jobs.map Prod.fst).Perm ((u.AddStageBlocks reqs).pending_queue.drop u.pending_queue.length) →
      ∀ ino, ((u.AddStageBlocks reqs).UploadStageBlocks jobs).stage_count.count ino =
        u.stage_count.count ino) := by
  refine ⟨?_, ?_, ?_⟩
  · intro key stage_path ctx
    constructor
    · have ht : (u.AddStageBlock key stage_path ctx).trace = u.trace ++
          ((if ctx.from_ = .CTO_FLUSH then [UploaderEvent.CountAdd key.ino 1 false] else []) ++
            [.PendingPush ⟨u.g_seq_num, key, stage_path, ctx⟩]) := by
        simp only [BlockCacheUploader.AddStageBlock, BlockCacheUploader.pendingPush]
        rw [Staging_trace]
        simp
      rw [unewEvents_append u _ _ ht]
      split <;> simp [UploaderEvent.isCountAdd, List.filter_cons]
    · intro ino
      rw [AddStageBlock_count]
      rfl
  · intro sb codes h0
    constructor
    · rw [UploadStageBlock_events]
      have hcb : (callbacksUntilSuccess sb.key codes).filter UploaderEvent.isCountAdd = [] := by
        rw [List.filter_eq_nil_iff]
        intro e he
        simp [callbacksUntilSuccess_no_CountAdd sb.key codes e he]
      by_cases hr : (u.store.fs.ReadFile sb.stage_path).1 = .OK
      · by_cases hf : sb.ctx.from_ = .CTO_FLUSH
        · simp [hr, h0, hf, hcb, List.filter_cons, UploaderEvent.isCountAdd]
        · simp [hr, h0, hf, hcb, List.filter_cons, UploaderEvent.isCountAdd]
      · by_cases hf : sb.ctx.from_ = .CTO_FLUSH
        · simp [hr, hf, List.filter_cons, UploaderEvent.isCountAdd]
        · simp [hr, hf, List.filter_cons, UploaderEvent.isCountAdd]
    · intro ino
      rw [UploadStageBlock_count u sb codes h0]
      rfl
  · intro reqs jobs hjobs hperm ino
    obtain ⟨blocks, hp, hcount⟩ := AddStageBlocks_count reqs u
    rw [hp] at hperm
    simp only [List.drop_left] at hperm
    rw [UploadStageBlocks_count jobs hjobs, hcount, inFlight_perm ino _ _ hperm]
    ring

/-- C8, instance: the example block is enqueued and uploaded after one failed
PUT attempt; the counter of inode 7 is back at its initial value. -/
theorem in_flight_counter_balance_witness :
    (∀ j ∈ [(exampleStageBlock, [(5 : Int), 0])], (0 : Int) ∈ j.2) ∧
    (([(exampleStageBlock, [(5 : Int), 0])].map Prod.fst).Perm
      (((exampleUploader exampleDiskStaged).AddStageBlocks
        [(exampleKey, exampleDisk.GetStagePath exampleKey, ⟨.CTO_FLUSH⟩)]).pending_queue.drop
          (exampleUploader exampleDiskStaged).pending_queue.length)) ∧
    (((exampleUploader exampleDiskStaged).AddStageBlocks
        [(exampleKey, exampleDisk.GetStagePath exampleKey, ⟨.CTO_FLUSH⟩)]).UploadStageBlocks
          [(exampleStageBlock, [5, 0])]).stage_count.count 7 =
      (exampleUploader exampleDiskStaged).stage_count.count 7 :=
  ⟨by decide, by decide,
    (in_flight_counter_balance (exampleUploader exampleDiskStaged)).2.2
      [(exampleKey, exampleDisk.GetStagePath exampleKey, ⟨.CTO_FLUSH⟩)]
      [(exampleStageBlock, [5, 0])] (by decide) (by decide) 7⟩

/-- C10: a non-empty batch all of whose blocks have `ctx.from = CTO_FLUSH` is
admitted by `CanUpload` whatever the size and capacity of the uploading queue;
when it is the next batch of the pending queue, an iteration of the scan worker
does not sleep: its only calls are the pushes of the batch's blocks, in order,
to the uploading queue, and the batch leaves the pending queue. -/
theorem CtoFlush_batch_admitted (u : BlockCacheUploader) (blocks : List StageBlock)
    (hne : blocks ≠ []) (hall : ∀ b ∈ blocks, b.ctx.from_ = .CTO_FLUSH) :
    u.CanUpload blocks = true ∧
    ∀ batch : List StageBlock → List StageBlock × List StageBlock,
      (batch u.pending_queue).1 = blocks →
      u.newEvents (BlockCacheUploader.ScaningWorkerStep batch u) =
        blocks.map UploaderEvent.UploadingPush ∧
      UploaderEvent.Sleep 10 ∉ u.newEvents (BlockCacheUploader.ScaningWorkerStep batch u) ∧
      (BlockCacheUploader.ScaningWorkerStep batch u).uploading_queue.items =
        u.uploading_queue.items ++ blocks ∧
      (BlockCacheUploader.ScaningWorkerStep batch u).pending_queue =
        (batch u.pending_queue).2 := by
  have hcan : u.CanUpload blocks = true := by
    cases blocks with
    | nil => exact absurd rfl hne
    | cons b rest =>
      simp [BlockCacheUploader.CanUpload, hall b (List.mem_cons_self _ _)]
  refine ⟨hcan, ?_⟩
  intro batch hb
  obtain ⟨h1, h2, h3⟩ := foldl_uploadingPush blocks
    { u with pending_queue := (batch u.pending_queue).2 }
  have he : u.newEvents (BlockCacheUploader.ScaningWorkerStep batch u) =
      blocks.map UploaderEvent.UploadingPush := by
    apply unewEvents_append
    simp only [BlockCacheUploader.ScaningWorkerStep, hb, hcan]
    exact h1
  refine ⟨he, ?_, ?_, ?_⟩
  · rw [he]
    simp
  · simp only [BlockCacheUploader.ScaningWorkerStep, hb, hcan]
    exact h2
  · simp only [BlockCacheUploader.ScaningWorkerStep, hb, hcan]
    exact h3

/-- C10, instance: a CTO_FLUSH block is admitted although the uploading queue
already holds half its capacity. -/
theorem CtoFlush_batch_admitted_witness :
    [exampleStageBlock] ≠ [] ∧
    (∀ b ∈ [exampleStageBlock], b.ctx.from_ = .CTO_FLUSH) ∧
    exampleBusyUploader.CanUpload [exampleBackgroundBlock] = false ∧
    exampleBusyUploader.CanUpload [exampleStageBlock] = true :=
  ⟨by decide, by decide, by decide,
    (CtoFlush_batch_admitted exampleBusyUploader [exampleStageBlock] (by decide)
      (by decide)).1⟩

/-! ## Retry, completion and lookup -/

/-- C11: the completion callback built by `UploadBlock` answers "retry" for
every code other than 0, leaving the whole state as it was (no file removed,
in-flight counter untouched), and answers "done" for code 0; after any number
of consecutive failed attempts the only change is the record of the callbacks,
so the next failure is answered "retry" again: there is no retry limit. -/
theorem retry_cb_retries_forever (u : BlockCacheUploader) (sb : StageBlock) :
    (∀ code : Int, code ≠ 0 → BlockCacheUploader.retry_cb sb u code = (true, u)) ∧
    (BlockCacheUploader.retry_cb sb u 0).1 = false ∧
    (∀ codes : List Int, (∀ c ∈ codes, c ≠ (0 : Int)) →
      BlockCacheUploader.runAsyncPut sb.key (BlockCacheUploader.retry_cb sb) codes u =
        { u with trace := u.trace ++ codes.map (UploaderEvent.PutCallback sb.key) } ∧
      ∀ code : Int, code ≠ 0 →
        (BlockCacheUploader.retry_cb sb
          (BlockCacheUploader.runAsyncPut sb.key (BlockCacheUploader.retry_cb sb) codes u)
          code).1 = true) := by
  have h1 : ∀ (v : BlockCacheUploader) (code : Int), code ≠ 0 →
      BlockCacheUploader.retry_cb sb v code = (true, v) := by
    intro v code hc
    simp [BlockCacheUploader.retry_cb, hc]
  refine ⟨h1 u, ?_, ?_⟩
  · simp [BlockCacheUploader.retry_cb]
  · intro codes hcodes
    have h0 : (0 : Int) ∉ codes := fun h => hcodes 0 h rfl
    refine ⟨?_, ?_⟩
    · rw [runAsyncPut_no_success sb codes h0, callbacksUntilSuccess_failures sb.key codes hcodes]
    · intro code hc
      rw [h1 _ code hc]

/-- C11, instance: three failed attempts on the example uploader change neither
the counter of inode 7 nor the stage file, and the callback still asks for a
retry. -/
theorem retry_cb_retries_forever_witness :
    (∀ c ∈ [(5 : Int), 7, 5], c ≠ (0 : Int)) ∧
    (BlockCacheUploader.retry_cb exampleStageBlock
      (BlockCacheUploader.runAsyncPut exampleStageBlock.key
        (BlockCacheUploader.retry_cb exampleStageBlock) [5, 7, 5]
        (exampleUploader exampleDiskStaged)) 9).1 = true :=
  ⟨by decide,
    ((retry_cb_retries_forever (exampleUploader exampleDiskStaged) exampleStageBlock).2.2
      [5, 7, 5] (by decide)).2 9 (by decide)⟩

/-- C12 (as stated, refuted): the read of the stage file fails with an I/O
error, which is neither NOT_FOUND nor a PUT success; no PUT is made and the
block is completed all the same: the in-flight counter of its inode is
decremented, with the failure flag. -/
theorem completed_on_read_error :
    ((exampleUploader exampleDiskReadFails).store.fs.ReadFile
      exampleStageBlock.stage_path).1 = .IO_ERROR ∧
    (exampleUploader exampleDiskReadFails).newEvents
      ((exampleUploader exampleDiskReadFails).UploadStageBlock exampleStageBlock [5]) =
        [.ReadFile exampleStageBlock.stage_path .IO_ERROR, .CountAdd 7 (-1) true] ∧
    ((exampleUploader exampleDiskReadFails).UploadStageBlock
      exampleStageBlock [5]).stage_count.count 7 =
        (exampleUploader exampleDiskReadFails).stage_count.count 7 - 1 := by
  decide

/-- C12 (amended): the work for a CtoFlush stage block is completed (its
inode's in-flight counter is decremented by `Uploaded`) exactly in these
cases: the stage file was read and the PUT callback was invoked with code 0,
or the read of the stage file returned any code other than OK (NOT_FOUND or
another read error); when the file was read and no PUT attempt has returned
code 0, the block is not completed and the counter is unchanged. -/
theorem completion_cases (u : BlockCacheUploader) (sb : StageBlock) (codes : List Int)
    (hf : sb.ctx.from_ = .CTO_FLUSH) :
    ((∃ e ∈ u.newEvents (u.UploadStageBlock sb codes), e.isCountAdd = true) ↔
      (((u.store.fs.ReadFile sb.stage_path).1 = .OK ∧ (0 : Int) ∈ codes) ∨
        (u.store.fs.ReadFile sb.stage_path).1 ≠ .OK)) ∧
    ((u.store.fs.ReadFile sb.stage_path).1 = .OK → (0 : Int) ∉ codes →
      (u.UploadStageBlock sb codes).stage_count = u.stage_count) := by
  constructor
  · rw [UploadStageBlock_events]
    by_cases hr : (u.store.fs.ReadFile sb.stage_path).1 = .OK
    · by_cases h0 : (0 : Int) ∈ codes
      · simp only [hr, h0, hf, if_true, and_self, ne_eq, not_true_eq_false, or_false, iff_true]
        exact ⟨.CountAdd sb.key.ino (-1) false, by simp, rfl⟩
      · simp only [hr, h0, if_true, if_false, List.append_nil, and_false, ne_eq,
          not_true_eq_false, or_self, iff_false, not_exists, not_and]
        intro e he
        simp only [List.mem_append, List.mem_cons, List.mem_singleton, List.not_mem_nil,
          or_false] at he
        rcases he with (rfl | rfl) | he
        · simp [UploaderEvent.isCountAdd]
        · simp [UploaderEvent.isCountAdd]
        · simp [callbacksUntilSuccess_no_CountAdd sb.key codes e he]
    · simp [hr, hf, UploaderEvent.isCountAdd]
  · intro hr h0
    rw [UploadStageBlock_pending u sb codes hr h0]

/-- C12 (amended), instance: on the staged example disk the stage file is read
and the PUT succeeds at the second attempt; the block is completed. -/
theorem completion_cases_witness :
    exampleStageBlock.ctx.from_ = .CTO_FLUSH ∧
    ((exampleUploader exampleDiskStaged).store.fs.ReadFile
      exampleStageBlock.stage_path).1 = .OK ∧
    (∃ e ∈ (exampleUploader exampleDiskStaged).newEvents
      ((exampleUploader exampleDiskStaged).UploadStageBlock exampleStageBlock [5, 0]),
        e.isCountAdd = true) :=
  ⟨by decide, by decide,
    (completion_cases (exampleUploader exampleDiskStaged) exampleStageBlock [5, 0]
      (by decide)).1.mpr (Or.inl ⟨by decide, by decide⟩)⟩

/-- C13: on a running, healthy disk on which `IsCached(key)` is true, if the
open of the cache file fails with NOT_FOUND then `Load` returns NOT_FOUND and
deletes the key's LRU entry, so that a later `IsCached(key)` is false once the
loader is done or the file is absent; for every other result of the open,
`Load` returns that result, makes no `Delete` and the key is in the LRU after
the call exactly if it was before. -/
theorem Load_lazy_cleanup (s : DiskCache) (key : BlockKey)
    (hrun : s.running = true) (hnorm : s.disk_state = .kDiskStateNormal)
    (hc : (s.IsCached key).1 = true) :
    ((s.fs.Open (s.GetCachePath key)).1 = .NOT_FOUND →
      (s.Load key).1 = .NOT_FOUND ∧
      Event.Delete key ∈ s.newEvents (s.Load key).2.2 ∧
      (s.Load key).2.2.manager.find key = none ∧
      (((s.Load key).2.2.loading = false ∨
          (s.Load key).2.2.fs.files (s.GetCachePath key) = none) →
        ((s.Load key).2.2.IsCached key).1 = false)) ∧
    ((s.fs.Open (s.GetCachePath key)).1 ≠ .NOT_FOUND →
      (s.Load key).1 = (s.fs.Open (s.GetCachePath key)).1 ∧
      Event.Delete key ∉ s.newEvents (s.Load key).2.2 ∧
      ((s.Load key).2.2.manager.find key).isSome = (s.manager.find key).isSome) := by
  rw [Load_of_IsCached s key hrun hnorm hc]
  constructor
  · intro ho
    have hfind : ((((s.IsCached key).2.fsOpen (s.GetCachePath key)).2.2.managerDelete
        key).loadMetricGuard .NOT_FOUND).manager.find key = none := by
      simp only [DiskCache.loadMetricGuard, DiskCache.managerDelete]
      simp [find_Delete]
    have hroot : ((((s.IsCached key).2.fsOpen (s.GetCachePath key)).2.2.managerDelete
        key).loadMetricGuard .NOT_FOUND).GetCachePath key = s.GetCachePath key := by
      rw [IsCached_state]
      simp [DiskCache.loadMetricGuard, DiskCache.managerDelete, DiskCache.fsOpen,
        DiskCache.GetCachePath]
    simp only [ho, if_true]
    refine ⟨trivial, ?_, hfind, ?_⟩
    · have ht : ((((s.IsCached key).2.fsOpen (s.GetCachePath key)).2.2.managerDelete
          key).loadMetricGuard .NOT_FOUND).trace = s.trace ++
            ((Event.Get key (s.manager.Get key s.now).1 ::
              (if (s.manager.find key).isSome = false ∧ s.loading = true then
                [Event.FileExists (s.GetCachePath key) (s.fs.FileExists (s.GetCachePath key))]
               else [])) ++
              [Event.Open (s.GetCachePath key) .NOT_FOUND, Event.Delete key]) := by
        rw [IsCached_state]
        simp [DiskCache.loadMetricGuard, DiskCache.managerDelete, DiskCache.fsOpen, ho]
      rw [newEvents_append s _ _ ht]
      simp
    · intro hlater
      rw [IsCached_fst, hfind, hroot]
      rcases hlater with hl | hl
      · simp [hl]
      · simp [LocalFileSystem.FileExists, hl]
  · intro ho
    simp only [ho, if_false]
    refine ⟨trivial, ?_, ?_⟩
    · have ht : ((((s.IsCached key).2.fsOpen (s.GetCachePath key)).2.2).loadMetricGuard
          (s.fs.Open (s.GetCachePath key)).1).trace = s.trace ++
            ((Event.Get key (s.manager.Get key s.now).1 ::
              (if (s.manager.find key).isSome = false ∧ s.loading = true then
                [Event.FileExists (s.GetCachePath key) (s.fs.FileExists (s.GetCachePath key))]
               else [])) ++
              [Event.Open (s.GetCachePath key) (s.fs.Open (s.GetCachePath key)).1]) := by
        rw [IsCached_state]
        simp only [DiskCache.loadMetricGuard, DiskCache.fsOpen]
        split <;> simp
      rw [newEvents_append s _ _ ht]
      split <;> simp
    · have hm : ((((s.IsCached key).2.fsOpen (s.GetCachePath key)).2.2).loadMetricGuard
          (s.fs.Open (s.GetCachePath key)).1).manager = (s.manager.Get key s.now).2.2 := by
        rw [IsCached_state]
        simp only [DiskCache.loadMetricGuard, DiskCache.fsOpen]
        split <;> rfl
      rw [hm, Get_find]

/-- C13, instance: the cache file of a cached block was deleted behind the
cache; `Load` returns NOT_FOUND and the key is no longer cached. -/
theorem Load_lazy_cleanup_witness :
    exampleDiskDeleted.running = true ∧
    exampleDiskDeleted.disk_state = .kDiskStateNormal ∧
    (exampleDiskDeleted.IsCached exampleKey).1 = true ∧
    (exampleDiskDeleted.fs.Open (exampleDiskDeleted.GetCachePath exampleKey)).1 = .NOT_FOUND ∧
    (exampleDiskDeleted.Load exampleKey).1 = .NOT_FOUND ∧
    ((exampleDiskDeleted.Load exampleKey).2.2.IsCached exampleKey).1 = false :=
  ⟨by decide, by decide, by decide, by decide,
    ((Load_lazy_cleanup exampleDiskDeleted exampleKey (by decide) (by decide) (by decide)).1
      (by decide)).1,
    ((Load_lazy_cleanup exampleDiskDeleted exampleKey (by decide) (by decide) (by decide)).1
      (by decide)).2.2.2 (Or.inl (by decide))⟩

/-- C14: `IsCached(key)` is true if and only if the LRU manager holds the key,
or the loader is still loading and the key's cache file exists; once the loader
is no longer loading it equals LRU membership; and it opens no file: it makes
no `Open` call and leaves the filesystem, descriptors included, as it was. -/
theorem IsCached_iff (s : DiskCache) (key : BlockKey) :
    ((s.IsCached key).1 = true ↔
      ((s.manager.find key).isSome = true ∨
        (s.loading = true ∧ s.fs.FileExists (s.GetCachePath key) = true))) ∧
    (s.loading = false → (s.IsCached key).1 = (s.manager.find key).isSome) ∧
    (∀ e ∈ s.newEvents (s.IsCached key).2, e.isOpen = false) ∧
    (s.IsCached key).2.fs = s.fs := by
  refine ⟨?_, ?_, ?_, ?_⟩
  · rw [IsCached_fst]
    simp
  · intro hl
    rw [IsCached_fst]
    simp [hl]
  · have ht : (s.IsCached key).2.trace = s.trace ++
        (Event.Get key (s.manager.Get key s.now).1 ::
          (if (s.manager.find key).isSome = false ∧ s.loading = true then
            [Event.FileExists (s.GetCachePath key) (s.fs.FileExists (s.GetCachePath key))]
           else [])) := by
      rw [IsCached_state]
    rw [newEvents_append s _ _ ht]
    intro e he
    split at he
    · simp only [List.mem_cons, List.mem_singleton, List.not_mem_nil, or_false] at he
      rcases he with rfl | rfl <;> rfl
    · simp only [List.mem_cons, List.not_mem_nil, or_false] at he
      subst he
      rfl
  · rw [IsCached_state]

/-- C14, instance: on the example disk after `Cache`, whose loader is not
loading, the key is cached because the LRU holds it. -/
theorem IsCached_iff_witness :
    exampleDiskCached.loading = false ∧
    (exampleDiskCached.IsCached exampleKey).1 =
      (exampleDiskCached.manager.find exampleKey).isSome ∧
    (exampleDiskCached.IsCached exampleKey).1 = true :=
  ⟨by decide,
    (IsCached_iff exampleDiskCached exampleKey).2.1 (by decide), by decide⟩

/-! ## Cache, initialisation, sequence numbers -/

/-- C15: `Cache` returns the admission code of `Check(WANT_EXEC | WANT_CACHE)`
when that is not OK, changing nothing; otherwise the error of the write of
`cache/{filename}` when that write fails; otherwise OK.  Its collaborator
calls are that one write (never of a stage path, never an upload) and, exactly
when it returns OK, one LRU `Add` of the key with `CacheValue.size` equal to the
block's size. -/
theorem Cache_result (s : DiskCache) (key : BlockKey) (block : Block) :
    (s.Cache key block).1 =
      (if s.Check (WANT_EXEC ||| WANT_CACHE) ≠ .OK then s.Check (WANT_EXEC ||| WANT_CACHE)
       else if (s.fs.WriteFile (s.GetCachePath key) block.data).1 ≠ .OK
         then (s.fs.WriteFile (s.GetCachePath key) block.data).1
       else .OK) ∧
    (s.Check (WANT_EXEC ||| WANT_CACHE) ≠ .OK → (s.Cache key block).2 = s) ∧
    s.newEvents (s.Cache key block).2 =
      (if s.Check (WANT_EXEC ||| WANT_CACHE) ≠ .OK then []
       else if (s.fs.WriteFile (s.GetCachePath key) block.data).1 ≠ .OK
         then [.WriteFile (s.GetCachePath key) block.data false
                (s.fs.WriteFile (s.GetCachePath key) block.data).1]
       else [.WriteFile (s.GetCachePath key) block.data false .OK,
             .Add key ⟨block.size, s.now⟩]) ∧
    ((s.Cache key block).1 = .OK →
      (s.Cache key block).2.manager = s.manager.Add key ⟨block.size, s.now⟩) ∧
    ((s.Cache key block).1 ≠ .OK → (s.Cache key block).2.manager = s.manager) ∧
    (∀ key2 : BlockKey, s.GetCachePath key ≠ s.GetStagePath key2) := by
  refine ⟨?_, ?_, ?_, ?_, ?_, cache_path_ne_stage_path s key⟩
  · by_cases hc : s.Check (WANT_EXEC ||| WANT_CACHE) = .OK
    · by_cases hw : (s.fs.WriteFile (s.GetCachePath key) block.data).1 = .OK
      · rw [Cache_of_write_ok s key block hc hw]; simp [hc, hw]
      · rw [Cache_of_write_failure s key block hc hw]; simp [hc, hw]
    · rw [Cache_of_admission_failure s key block hc]; simp [hc]
  · intro hc
    rw [Cache_of_admission_failure s key block hc]
  · by_cases hc : s.Check (WANT_EXEC ||| WANT_CACHE) = .OK
    · by_cases hw : (s.fs.WriteFile (s.GetCachePath key) block.data).1 = .OK
      · rw [Cache_of_write_ok s key block hc hw]
        simp [hc, hw, DiskCache.newEvents, DiskCache.fsWriteFile, DiskCache.managerAdd]
      · rw [Cache_of_write_failure s key block hc hw]
        simp [hc, hw, DiskCache.newEvents, DiskCache.fsWriteFile]
    · rw [Cache_of_admission_failure s key block hc]
      simp [hc, DiskCache.newEvents]
  · by_cases hc : s.Check (WANT_EXEC ||| WANT_CACHE) = .OK
    · by_cases hw : (s.fs.WriteFile (s.GetCachePath key) block.data).1 = .OK
      · rw [Cache_of_write_ok s key block hc hw]
        intro _
        rfl
      · rw [Cache_of_write_failure s key block hc hw]
        intro h
        exact absurd h hw
    · rw [Cache_of_admission_failure s key block hc]
      intro h
      exact absurd h hc
  · by_cases hc : s.Check (WANT_EXEC ||| WANT_CACHE) = .OK
    · by_cases hw : (s.fs.WriteFile (s.GetCachePath key) block.data).1 = .OK
      · rw [Cache_of_write_ok s key block hc hw]
        intro h
        exact absurd rfl h
      · rw [Cache_of_write_failure s key block hc hw]
        intro _
        rfl
    · rw [Cache_of_admission_failure s key block hc]
      intro _
      rfl

/-- C15, instance: on the stopped example disk `Cache` returns CACHE_DOWN and
changes nothing; on the running one it returns OK and the LRU holds the key. -/
theorem Cache_result_witness :
    exampleDiskDown.Check (WANT_EXEC ||| WANT_CACHE) ≠ .OK ∧
    (exampleDiskDown.Cache exampleKey exampleBlock).2 = exampleDiskDown ∧
    (exampleDiskDown.Cache exampleKey exampleBlock).1 = .CACHE_DOWN ∧
    (exampleDisk.Cache exampleKey exampleBlock).1 = .OK :=
  ⟨by decide, (Cache_result exampleDiskDown exampleKey exampleBlock).2.1 (by decide),
    by decide, by decide⟩

/-- C16 (as stated, refuted): on the example disk whose opens fail with an I/O
error, `Cache` of the example block returns OK; the disk is running and healthy
before and after the load, the key stays in the LRU and the cache file stays on
disk with the bytes of the block, and yet `Load` returns IO_ERROR and gives no
reader. -/
theorem Cache_Load_fails_on_open_error :
    (exampleDiskOpenFails.Cache exampleKey exampleBlock).1 = .OK ∧
    (exampleDiskOpenFails.Cache exampleKey exampleBlock).2.Check WANT_EXEC = .OK ∧
    ((exampleDiskOpenFails.Cache exampleKey exampleBlock).2.Load exampleKey).1 = .IO_ERROR ∧
    ((exampleDiskOpenFails.Cache exampleKey exampleBlock).2.Load exampleKey).2.1 = none ∧
    ((exampleDiskOpenFails.Cache exampleKey exampleBlock).2.Load exampleKey).2.2.Check
      WANT_EXEC = .OK ∧
    ((exampleDiskOpenFails.Cache exampleKey exampleBlock).2.Load exampleKey).2.2.manager.find
      exampleKey = some ⟨3, 100⟩ ∧
    ((exampleDiskOpenFails.Cache exampleKey exampleBlock).2.Load exampleKey).2.2.fs.files
      (exampleDiskOpenFails.GetCachePath exampleKey) = some exampleBlock.data := by
  decide

/-- C16 (amended): if `Cache(k, b)` returns OK, then on the resulting state
(nothing evicted or deleted, the disk still running and healthy) and with the
open, seek and read calls of the load not failing, `Load(k)` returns OK with a
reader whose `ReadAt(0, b.size)` returns OK and yields exactly the bytes of
`b`. -/
theorem Cache_Load_round_trip (s : DiskCache) (key : BlockKey) (block : Block)
    (hs : (s.Cache key block).1 = .OK)
    (ho : s.fs.fault (.Open (s.GetCachePath key)) = .OK)
    (hk : ∀ fd, s.fs.fault (.LSeek fd) = .OK)
    (hr : ∀ fd, s.fs.fault (.Read fd) = .OK) :
    ((s.Cache key block).2.Load key).1 = .OK ∧
    ∃ reader, ((s.Cache key block).2.Load key).2.1 = some reader ∧
      (reader.ReadAt ((s.Cache key block).2.Load key).2.2 0 block.size).1 = .OK ∧
      (reader.ReadAt ((s.Cache key block).2.Load key).2.2 0 block.size).2.1 = block.data := by
  by_cases hc : s.Check (WANT_EXEC ||| WANT_CACHE) = .OK
  swap
  · rw [Cache_of_admission_failure s key block hc] at hs
    exact absurd hs hc
  by_cases hw : (s.fs.WriteFile (s.GetCachePath key) block.data).1 = .OK
  swap
  · rw [Cache_of_write_failure s key block hc hw] at hs
    exact absurd hs hw
  have hrun := Check_ok_running s _ hc
  have hnorm := Check_ok_healthy s _ hc (by decide)
  have hfs1 := WriteFile_ok s.fs _ _ hw
  rw [Cache_of_write_ok s key block hc hw]
  simp only
  have hfs : ((s.fsWriteFile (s.GetCachePath key) block.data false).2.managerAdd key
      ⟨block.size, s.now⟩).fs = (s.fs.WriteFile (s.GetCachePath key) block.data).2 := rfl
  have hL := Load_of_cached
    ((s.fsWriteFile (s.GetCachePath key) block.data false).2.managerAdd key ⟨block.size, s.now⟩)
    key block.data hrun hnorm
    (by
      have : ((s.fsWriteFile (s.GetCachePath key) block.data false).2.managerAdd key
          ⟨block.size, s.now⟩).manager = s.manager.Add key ⟨block.size, s.now⟩ := rfl
      rw [this, find_Add]; rfl)
    (by
      have hp : ((s.fsWriteFile (s.GetCachePath key) block.data false).2.managerAdd key
          ⟨block.size, s.now⟩).GetCachePath key = s.GetCachePath key := rfl
      rw [hp, hfs, hfs1]; simp)
    (by
      have hp : ((s.fsWriteFile (s.GetCachePath key) block.data false).2.managerAdd key
          ⟨block.size, s.now⟩).GetCachePath key = s.GetCachePath key := rfl
      rw [hp, hfs, hfs1]; exact ho)
  refine ⟨hL.1, ⟨_⟩, hL.2.1, ?_⟩
  have hR := ReadAt_of_open
    ⟨((s.fsWriteFile (s.GetCachePath key) block.data false).2.managerAdd key
      ⟨block.size, s.now⟩).fs.next_fd⟩
    (((s.fsWriteFile (s.GetCachePath key) block.data false).2.managerAdd key
      ⟨block.size, s.now⟩).Load key).2.2 block.data 0 0 block.size
    (by rw [hL.2.2]; simp)
    (by rw [hL.2.2]; simp only; rw [hfs, hfs1]; exact hk _)
    (by rw [hL.2.2]; simp only; rw [hfs, hfs1]; exact hr _)
  simpa [Block.size] using hR

/-- C16 (amended), instance: the example block is written with `Cache` on the
example disk and read back. -/
theorem Cache_Load_round_trip_witness :
    (exampleDisk.Cache exampleKey exampleBlock).1 = .OK ∧
    ((exampleDisk.Cache exampleKey exampleBlock).2.Load exampleKey).1 = .OK :=
  ⟨by decide,
    (Cache_Load_round_trip exampleDisk exampleKey exampleBlock (by decide) (by decide)
      (fun _ => rfl) (fun _ => rfl)).1⟩

/-- C17: on a disk on which `Init` has succeeded, a further `Init`, with any
upload function, returns OK and leaves the state exactly as the first one left
it: it makes no collaborator call (no directory created, lock file neither read
nor written, no component started) and keeps the uuid and the stored upload
function. -/
theorem Init_idempotent (s : DiskCache) (uploader uploader2 : Nat) (gen_uuid gen_uuid2 : List Nat)
    (h : (s.Init uploader gen_uuid).1 = .OK) :
    ((s.Init uploader gen_uuid).2.Init uploader2 gen_uuid2).1 = .OK ∧
    ((s.Init uploader gen_uuid).2.Init uploader2 gen_uuid2).2 = (s.Init uploader gen_uuid).2 ∧
    (s.Init uploader gen_uuid).2.newEvents
      ((s.Init uploader gen_uuid).2.Init uploader2 gen_uuid2).2 = [] ∧
    ((s.Init uploader gen_uuid).2.Init uploader2 gen_uuid2).2.uuid =
      (s.Init uploader gen_uuid).2.uuid ∧
    ((s.Init uploader gen_uuid).2.Init uploader2 gen_uuid2).2.uploader_ =
      (s.Init uploader gen_uuid).2.uploader_ ∧
    (s.running = false → (s.Init uploader gen_uuid).2.uploader_ = some uploader) := by
  have h2 := Init_of_running (s.Init uploader gen_uuid).2 uploader2 gen_uuid2
    (Init_running s uploader gen_uuid)
  rw [h2]
  refine ⟨rfl, rfl, by simp [DiskCache.newEvents], rfl, rfl, ?_⟩
  intro hr
  have hr2 : ¬ s.running = true := by simp [hr]
  rw [Init_eq, if_neg hr2] at h ⊢
  split
  · rename_i hl
    rw [if_pos hl] at h
    exact absurd h hl
  · exact (initStart_frame _ uploader).2.1

/-- C17, instance: the fresh example disk is initialised with upload function 1
and then again with upload function 2; the second call changes nothing. -/
theorem Init_idempotent_witness :
    (exampleDiskFresh.Init 1 [97, 98, 99]).1 = .OK ∧
    ((exampleDiskFresh.Init 1 [97, 98, 99]).2.Init 2 [100]).1 = .OK ∧
    ((exampleDiskFresh.Init 1 [97, 98, 99]).2.Init 2 [100]).2.uploader_ = some 1 ∧
    ((exampleDiskFresh.Init 1 [97, 98, 99]).2.Init 2 [100]).2.uuid = [97, 98, 99] :=
  ⟨by decide,
    (Init_idempotent exampleDiskFresh 1 2 [97, 98, 99] [100] (by decide)).1,
    by decide, by decide⟩

/-- C18: starting from the sequence counter at 0, the n-th call of
`AddStageBlock` (counting from 0) pushes to the pending queue one stage block
whose `seq_num` is n modulo `2 ^ 64`, whatever the keys, paths and contexts; so
over at most `2 ^ 64` calls a later call always has the strictly greater
`seq_num`. -/
theorem seq_num_strictly_increasing (u : BlockCacheUploader)
    (reqs : List (BlockKey × String × BlockContext)) (h0 : u.g_seq_num = 0) :
    (((u.AddStageBlocks reqs).pending_queue.drop u.pending_queue.length).map
      (fun b => b.seq_num)) = (List.range reqs.length).map (fun n => n % 2 ^ 64) ∧
    (reqs.length ≤ 2 ^ 64 →
      (((u.AddStageBlocks reqs).pending_queue.drop u.pending_queue.length).map
        (fun b => b.seq_num)).Pairwise (fun a b => a < b)) := by
  have h := AddStageBlocks_seq reqs u (by rw [h0]; positivity)
  simp only [h0, Nat.zero_add] at h
  refine ⟨h, ?_⟩
  intro hlen
  rw [h]
  have hid : (List.range reqs.length).map (fun n => n % 2 ^ 64) = List.range reqs.length := by
    conv_rhs => rw [← List.map_id (List.range reqs.length)]
    apply List.map_congr_left
    intro n hn
    have : n < reqs.length := List.mem_range.mp hn
    exact Nat.mod_eq_of_lt (by omega)
  rw [hid]
  exact List.pairwise_lt_range _

/-- C18, instance: three calls on the example uploader push blocks numbered
0, 1 and 2. -/
theorem seq_num_strictly_increasing_witness :
    (exampleUploader exampleDisk).g_seq_num = 0 ∧
    ((((exampleUploader exampleDisk).AddStageBlocks
        [(exampleKey, "a", ⟨.CTO_FLUSH⟩), (exampleKey, "b", ⟨.RELOAD⟩),
          (exampleKey, "c", ⟨.NOCTO_FLUSH⟩)]).pending_queue.drop
      (exampleUploader exampleDisk).pending_queue.length).map (fun b => b.seq_num)) =
        (List.range 3).map (fun n => n % 2 ^ 64) :=
  ⟨rfl,
    (seq_num_strictly_increasing (exampleUploader exampleDisk)
      [(exampleKey, "a", ⟨.CTO_FLUSH⟩), (exampleKey, "b", ⟨.RELOAD⟩),
        (exampleKey, "c", ⟨.NOCTO_FLUSH⟩)] rfl).1⟩

/-- C19: the memory-only cache supports no block operation: `Stage`,
`RemoveStage`, `Cache` and `Load` return NOT_SUPPORTED (`Load` stores no
reader), `IsCached` returns false, `Init` and `Shutdown` return OK, and none of
them calls the upload function or changes anything. -/
theorem MemCache_not_supported (m : MemCache) (uploader : Nat) (key : BlockKey)
    (block : Block) (ctx : BlockContext) :
    m.Stage key block ctx = (.NOT_SUPPORTED, m) ∧
    m.RemoveStage key ctx = (.NOT_SUPPORTED, m) ∧
    m.Cache key block = (.NOT_SUPPORTED, m) ∧
    m.Load key = (.NOT_SUPPORTED, none, m) ∧
    m.IsCached key = (false, m) ∧
    m.Init uploader = (.OK, m) ∧
    m.Shutdown = (.OK, m) ∧
    (m.Init uploader).2.uploads = m.uploads ∧
    (m.Shutdown).2.uploads = m.uploads :=
  ⟨rfl, rfl, rfl, rfl, rfl, rfl, rfl, rfl, rfl⟩

/-- C20: `LeaseExecutor::Start` returns false for every option set with
`leaseTimeUs <= 0` or `refreshTimesPerLease <= 0`, leaving the executor as it
was (no task created, none scheduled); the division
`leaseTimeUs / refreshTimesPerLease` is never undefined, and a task is created
only with both options positive, with the interval they give. -/
theorem Start_rejects_invalid_options (e : LeaseExecutor) (allocated : Bool) :
    ((e.opt_.leaseTimeUs ≤ 0 ∨ e.opt_.refreshTimesPerLease ≤ 0) →
      e.Start allocated = some (false, e)) ∧
    e.Start allocated ≠ none ∧
    (∀ r, e.Start allocated = some r → r.1 = true →
      0 < e.opt_.leaseTimeUs ∧ 0 < e.opt_.refreshTimesPerLease ∧
      r.2.task_ = some ((Int.tdiv e.opt_.leaseTimeUs e.opt_.refreshTimesPerLease) % 2 ^ 32).toNat) := by
  by_cases hinv : e.opt_.leaseTimeUs ≤ 0 ∨ e.opt_.refreshTimesPerLease ≤ 0
  · have hs : e.Start allocated = some (false, e) := by
      simp [LeaseExecutor.Start, hinv]
    refine ⟨fun _ => hs, by rw [hs]; simp, ?_⟩
    intro r hr ht
    rw [hs] at hr
    cases hr
    simp at ht
  · have hpos : 0 < e.opt_.leaseTimeUs ∧ 0 < e.opt_.refreshTimesPerLease := by
      constructor <;> [by_contra h; by_contra h] <;> exact hinv (by omega)
    have hne : e.opt_.refreshTimesPerLease ≠ 0 := by omega
    refine ⟨fun h => absurd h hinv, ?_, ?_⟩
    · cases allocated <;> simp [LeaseExecutor.Start, hinv, divide, hne]
    · intro r hr ht
      refine ⟨hpos.1, hpos.2, ?_⟩
      cases allocated
      · simp [LeaseExecutor.Start, hinv, divide, hne] at hr
        subst hr
        simp at ht
      · simp [LeaseExecutor.Start, hinv, divide, hne] at hr
        subst hr
        rfl

/-- C20, instance: the two rejected option sets of the unit test, and the
accepted one, whose interval is 20000. -/
theorem Start_rejects_invalid_options_witness :
    exampleLeaseNoTime.opt_.leaseTimeUs ≤ 0 ∧
    exampleLeaseNoTime.Start true = some (false, exampleLeaseNoTime) ∧
    exampleLeaseNoRefresh.opt_.refreshTimesPerLease ≤ 0 ∧
    exampleLeaseNoRefresh.Start true = some (false, exampleLeaseNoRefresh) ∧
    (exampleLease.Start true).map (fun r => (r.1, r.2.task_)) = some (true, some 20000) :=
  ⟨by decide,
    (Start_rejects_invalid_options exampleLeaseNoTime true).1 (Or.inl (by decide)),
    by decide,
    (Start_rejects_invalid_options exampleLeaseNoRefresh true).1 (Or.inr (by decide)),
    by decide⟩

/-- C21: in `Stage`, after a successful admission check and a successful write
of the stage file, the LRU manager is called with exactly one `Add`, for the
key and with a `CacheValue` whose size is the size of the block, when the hard
link to the cache path succeeded, and with no `Add` at all when the hard link
failed; accordingly the manager holds the new entry or is unchanged. -/
theorem Stage_admits_iff_linked (s : DiskCache) (key : BlockKey) (block : Block)
    (ctx : BlockContext) (hc : s.Check (WANT_EXEC ||| WANT_STAGE) = .OK)
    (hw : (s.fs.WriteFile (s.GetStagePath key) block.data).1 = .OK) :
    (s.newEvents (s.Stage key block ctx).2).filter Event.isAdd =
      (if ((s.fs.WriteFile (s.GetStagePath key) block.data).2.HardLink
            (s.GetStagePath key) (s.GetCachePath key)).1 = .OK
        then [.Add key ⟨block.size, s.now⟩] else []) ∧
    (s.Stage key block ctx).2.manager =
      (if ((s.fs.WriteFile (s.GetStagePath key) block.data).2.HardLink
            (s.GetStagePath key) (s.GetCachePath key)).1 = .OK
        then s.manager.Add key ⟨block.size, s.now⟩ else s.manager) := by
  rw [Stage_of_write_ok s key block ctx hc hw]
  refine ⟨?_, stageDone_manager s key block ctx⟩
  rw [newEvents_append s _ _ (stageDone_trace s key block ctx)]
  by_cases hl : ((s.fs.WriteFile (s.GetStagePath key) block.data).2.HardLink
      (s.GetStagePath key) (s.GetCachePath key)).1 = .OK
  · simp [hl, Event.isAdd]
  · simp [hl, Event.isAdd]

/-- C21, instance: staging the example block on the example disk admits the
key once with size 3; on the disk whose hard links fail nothing is admitted. -/
theorem Stage_admits_iff_linked_witness :
    (exampleDisk.newEvents (exampleDisk.Stage exampleKey exampleBlock ⟨.CTO_FLUSH⟩).2).filter
        Event.isAdd = [.Add exampleKey ⟨3, 100⟩] ∧
    (exampleDiskLinkFails.newEvents
        (exampleDiskLinkFails.Stage exampleKey exampleBlock ⟨.CTO_FLUSH⟩).2).filter
        Event.isAdd = [] :=
  ⟨(Stage_admits_iff_linked exampleDisk exampleKey exampleBlock ⟨.CTO_FLUSH⟩
      (by decide) (by decide)).1.trans (by decide),
    (Stage_admits_iff_linked exampleDiskLinkFails exampleKey exampleBlock ⟨.CTO_FLUSH⟩
      (by decide) (by decide)).1.trans (by decide)⟩

/-- C22: when the read of the stage file returns NOT_FOUND, `UploadStageBlock`
makes exactly these calls, whatever the object store would have answered: the
read, and, for a CtoFlush block only, one update of the in-flight counter of the
block's inode by -1 with the failure flag set.  So there is no `AsyncPut`, no
callback (no retry) and no `RemoveStage`; the cache store is unchanged and the
counter of every inode goes down by what the block counts for. -/
theorem UploadStageBlock_missing_stage_file (u : BlockCacheUploader) (sb : StageBlock)
    (codes : List Int) (h : (u.store.fs.ReadFile sb.stage_path).1 = .NOT_FOUND) :
    u.newEvents (u.UploadStageBlock sb codes) =
      [.ReadFile sb.stage_path .NOT_FOUND] ++
        (if sb.ctx.from_ = .CTO_FLUSH then [.CountAdd sb.key.ino (-1) true] else []) ∧
    (u.UploadStageBlock sb codes).store = u.store ∧
    (∀ ino, (u.UploadStageBlock sb codes).stage_count.count ino =
      u.stage_count.count ino - counted ino sb) := by
  have hne : (u.store.fs.ReadFile sb.stage_path).1 ≠ .OK := by rw [h]; decide
  refine ⟨?_, ?_, ?_⟩
  · rw [UploadStageBlock_events, if_neg hne, h]
  · rw [UploadStageBlock_read_failure u sb codes hne, Uploaded_store]
  · intro ino
    rw [UploadStageBlock_read_failure u sb codes hne, Uploaded_count]

/-- C22, instance: the example stage block is uploaded from a disk that holds
no stage file; the read fails and the counter of inode 7 is decremented with
the failure flag. -/
theorem UploadStageBlock_missing_stage_file_witness :
    (exampleUploader exampleDisk).newEvents
        ((exampleUploader exampleDisk).UploadStageBlock exampleStageBlock [0]) =
      [.ReadFile exampleStageBlock.stage_path .NOT_FOUND, .CountAdd 7 (-1) true] :=
  (UploadStageBlock_missing_stage_file (exampleUploader exampleDisk) exampleStageBlock [0]
    (by decide)).1.trans (by decide)

/-- C23: the PUT callback of a stage block, invoked with code 0, returns false
and makes exactly these calls, in this order: `RemoveStage` for the key of the
block, once, and then, for a CtoFlush block only, one update of the in-flight
counter of the block's inode by -1 with the failure flag false.  The calls and
the flag are the same for every result `RemoveStage` returns. -/
theorem retry_cb_success (u : BlockCacheUploader) (sb : StageBlock) :
    (BlockCacheUploader.retry_cb sb u 0).1 = false ∧
    u.newEvents (BlockCacheUploader.retry_cb sb u 0).2 =
      [.RemoveStage sb.key sb.ctx (u.store.RemoveStage sb.key sb.ctx).1] ++
        (if sb.ctx.from_ = .CTO_FLUSH then [.CountAdd sb.key.ino (-1) false] else []) ∧
    (BlockCacheUploader.retry_cb sb u 0).2.store = (u.store.RemoveStage sb.key sb.ctx).2 ∧
    (∀ ino, (BlockCacheUploader.retry_cb sb u 0).2.stage_count.count ino =
      u.stage_count.count ino - counted ino sb) := by
  have hcb : BlockCacheUploader.retry_cb sb u 0 = (false, (u.RemoveBlock sb).Uploaded sb true) := by
    simp [BlockCacheUploader.retry_cb]
  rw [hcb]
  refine ⟨rfl, ?_, ?_, ?_⟩
  · apply unewEvents_append
    rw [Uploaded_trace, RemoveBlock_trace]
    simp
  · show ((u.RemoveBlock sb).Uploaded sb true).store = _
    rw [Uploaded_store]
    rfl
  · intro ino
    show ((u.RemoveBlock sb).Uploaded sb true).stage_count.count ino = _
    rw [Uploaded_count, RemoveBlock_stage_count]

/-- C24, evaluation: on the example disk that is not running and whose
directories cannot be created, `Init` returns IO_ERROR and leaves the disk
marked running: `Check` does not answer CACHE_DOWN, and a second `Init` returns
OK at once, with no call made and no upload function stored. -/
theorem Init_failure_leaves_running :
    exampleDiskMkDirsFails.running = false ∧
    (exampleDiskMkDirsFails.Init 1 [97]).1 = .IO_ERROR ∧
    (exampleDiskMkDirsFails.Init 1 [97]).2.running = true ∧
    (exampleDiskMkDirsFails.Init 1 [97]).2.Check WANT_EXEC = .OK ∧
    ((exampleDiskMkDirsFails.Init 1 [97]).2.Init 2 [98]).1 = .OK ∧
    (exampleDiskMkDirsFails.Init 1 [97]).2.newEvents
      ((exampleDiskMkDirsFails.Init 1 [97]).2.Init 2 [98]).2 = [] ∧
    ((exampleDiskMkDirsFails.Init 1 [97]).2.Init 2 [98]).2.uploader_ = none := by
  decide

/-- C25, evaluation: `Load` of a key that is not cached, on the running and
healthy example disk, returns NOT_FOUND and records a cache hit and no cache
miss. -/
theorem Load_not_cached_records_hit :
    (exampleDisk.Load exampleKey).1 = .NOT_FOUND ∧
    (exampleDisk.Load exampleKey).2.2.metric.cache_hits = exampleDisk.metric.cache_hits + 1 ∧
    (exampleDisk.Load exampleKey).2.2.metric.cache_misses = exampleDisk.metric.cache_misses := by
  decide

/-- C26: `RefreshLease` returns true for every status `RefreshSession` returns
and every list it stores.  After `GetAllTxIds` and `RefreshSession` it calls
`SetTxId(partitionid, txid)` once for each entry of the latest-txid list, in
list order, when the status is OK, and makes no further call for any other
status. -/
theorem RefreshLease_always_true (e : LeaseExecutor) (txIds : List PartitionTxId)
    (status : FSStatusCode) (latestTxIdList : List PartitionTxId) :
    (e.RefreshLease txIds (status, latestTxIdList)).1 = true ∧
    (e.RefreshLease txIds (status, latestTxIdList)).2.trace =
      e.trace ++ [LeaseEvent.GetAllTxIds, LeaseEvent.RefreshSession txIds] ++
        (if status = .OK then
          latestTxIdList.map (fun item => LeaseEvent.SetTxId item.partitionid item.txid)
         else []) := by
  by_cases hs : status = .OK
  · subst hs
    simp only [LeaseExecutor.RefreshLease, ne_eq, not_true_eq_false, if_false, if_true]
    refine ⟨trivial, ?_⟩
    rw [foldl_SetTxId_trace]
    simp
  · refine ⟨?_, ?_⟩
    · simp [LeaseExecutor.RefreshLease, hs]
    · simp [LeaseExecutor.RefreshLease, hs]

/-- C27: when the copyset converts to schedule form, an operator exists on the
copyset, `ApplyOperator` reports a new order and the epoch the copyset reports
differs from the `startEpoch` of the operator, `CopySetHeartbeat` returns
`UNINITIALIZE_ID`, leaves the output `CopySetConf` as it was, and removes the
operator from the controller, which then holds no operator for the copyset. -/
theorem CopySetHeartbeat_stale_operator (env : CoordinatorEnv) (opController : OperatorController)
    (origin_info config_ch_info : Nat) (out : HeartbeatCopySetConf) (info : CopySetInfo)
    (op : Operator)
    (hconv : env.CopySetFromTopoToSchedule origin_info = some info)
    (hop : opController.GetOperatorById info.id = some op)
    (horder : (env.ApplyOperator opController
      { info with configChangeInfo := config_ch_info }).1 = true)
    (hepoch : info.epoch ≠ op.startEpoch) :
    (CopySetHeartbeat env opController origin_info config_ch_info out).1 = UNINITIALIZE_ID ∧
    (CopySetHeartbeat env opController origin_info config_ch_info out).2.1 = out ∧
    (CopySetHeartbeat env opController origin_info config_ch_info out).2.2 =
      (env.ApplyOperator opController
        { info with configChangeInfo := config_ch_info }).2.2.RemoveOperator info.id ∧
    (CopySetHeartbeat env opController origin_info config_ch_info out).2.2.GetOperatorById
      info.id = none := by
  have h : CopySetHeartbeat env opController origin_info config_ch_info out =
      (UNINITIALIZE_ID, out, (env.ApplyOperator opController
        { info with configChangeInfo := config_ch_info }).2.2.RemoveOperator info.id) := by
    simp only [CopySetHeartbeat, hconv, hop, horder, if_true]
    simp [hepoch]
  rw [h]
  exact ⟨rfl, rfl, rfl, GetOperatorById_RemoveOperator _ _⟩

/-- C27, instance: copyset 7 reports epoch 5 while its operator was created at
epoch 4; nothing is dispatched and the operator is removed.  With an operator
created at epoch 5 the order to metaserver 2 is dispatched. -/
theorem CopySetHeartbeat_stale_operator_witness :
    (CopySetHeartbeat exampleCoordinatorEnv (exampleController 4) 7 0 exampleConf).1 =
      UNINITIALIZE_ID ∧
    (CopySetHeartbeat exampleCoordinatorEnv (exampleController 4) 7 0 exampleConf).2.1 =
      exampleConf ∧
    (CopySetHeartbeat exampleCoordinatorEnv (exampleController 4) 7 0 exampleConf).2.2.operators =
      [] ∧
    (CopySetHeartbeat exampleCoordinatorEnv (exampleController 5) 7 0 exampleConf).1 = 2 :=
  ⟨(CopySetHeartbeat_stale_operator exampleCoordinatorEnv (exampleController 4) 7 0 exampleConf
      ⟨(1, 7), 5, 1, 0⟩ ⟨4, (1, 7)⟩ rfl (by decide) rfl (by decide)).1,
    (CopySetHeartbeat_stale_operator exampleCoordinatorEnv (exampleController 4) 7 0 exampleConf
      ⟨(1, 7), 5, 1, 0⟩ ⟨4, (1, 7)⟩ rfl (by decide) rfl (by decide)).2.1,
    by decide, by decide⟩

/-- C28, evaluation: with a block size of 12288 (three times 4096) and a block
group size and slice size of 128 MiB, `SetVolumeRequest` returns 0 and sets the
volume, although 128 MiB is not a multiple of 12288.  With a block size of 4096
and a block group size and slice size of 384 MiB it returns -1 and sets no
volume, although each size is a multiple of what it is compared with. -/
theorem SetVolumeRequest_bitmask_precheck :
    SetVolumeRequest exampleBitmapLocationParse ⟨12288, 134217728, 134217728, "AtStart"⟩ =
      (0, some ⟨12288, 134217728, 1, 134217728⟩) ∧
    ¬ (12288 ∣ 134217728) ∧
    SetVolumeRequest exampleBitmapLocationParse ⟨4096, 402653184, 402653184, "AtStart"⟩ =
      (-1, none) ∧
    4096 ∣ 4096 ∧ 4096 ∣ 402653184 ∧ 128 * 1024 * 1024 ∣ 402653184 ∧ 402653184 ∣ 402653184 := by
  decide

/-- C29 (as stated, refuted): a new generator starting at 0 with a bundle size
of `2 ^ 32`, over a store without the key, makes three calls of `GenID` without
any fault.  The bundle size passes through the `int` parameter of
`AllocateBundleIds` and arrives as 0: every call swaps the stored number 0 for
0 and returns the id 1.  The ids are not strictly increasing and none lies in a
range reserved by the swap; no number is anywhere near `2 ^ 64`. -/
theorem GenID_repeats_ids_for_wide_bundle :
    1 ≤ 2 ^ 32 ∧
    GenIDs (EtcdIdGenerator.new 0 (2 ^ 32)) ⟨none, []⟩ exampleThreeCalls =
      [(1, some (none, .number 0)), (1, some (some (.number 0), .number 0)),
        (1, some (some (.number 0), .number 0))] ∧
    ¬ ((GenIDs (EtcdIdGenerator.new 0 (2 ^ 32)) ⟨none, []⟩ exampleThreeCalls).map
      Prod.fst).Pairwise (fun a b => a < b) ∧
    (GenIDs (EtcdIdGenerator.new 0 (2 ^ 32)) ⟨none, []⟩ exampleThreeCalls).map
      (fun p => inReserved 0 (2 ^ 32) p.1 p.2) = [false, false, false] := by
  decide

/-- C29 (amended): a new generator with a bundle size of at least 1 that fits
the `int` parameter of `AllocateBundleIds` (it is below `2 ^ 31`) runs over a
store on which it makes any sequence of `GenID` calls, with any faults
injected, while other clients may raise the stored number; no number involved
comes near `2 ^ 64`.  Then every id returned lies in the range
`(alloc, alloc + bundle]` reserved by the latest successful `CompareAndSwap` of
the generator at that time, and the ids returned are strictly increasing.
Moreover a `GenID` whose bundle allocation fails returns false, stores no id
and leaves the generator, so `nextId_` and `bundleEnd_`, unchanged. -/
theorem GenID_ids_reserved_and_increasing (initial bundle M : Nat) (value : Option StoredText)
    (steps : List IdStep) (hb1 : 1 ≤ bundle) (hb2 : bundle < 2 ^ 31) (hinit : initial ≤ M)
    (hval : ∀ n, value = some (.number n) → n ≤ M)
    (hsteps : ∀ n, IdStep.OtherClient n ∈ steps → n ≤ M)
    (hM : M + steps.length * bundle + 1 < 2 ^ 64) :
    (∀ p ∈ GenIDs (EtcdIdGenerator.new initial bundle) ⟨value, []⟩ steps,
      inReserved initial bundle p.1 p.2 = true) ∧
    ((GenIDs (EtcdIdGenerator.new initial bundle) ⟨value, []⟩ steps).map Prod.fst).Pairwise
      (fun a b => a < b) ∧
    (∀ (g : EtcdIdGenerator) (kv : KVStorage) (get_fault cas_fault : Option Nat),
      (g.nextId_ > g.bundleEnd_ ∨ g.nextId_ = g.initialize_) →
      (g.AllocateBundleIds kv (toInt g.bundle_) get_fault cas_fault).1 = false →
      (g.GenID kv get_fault cas_fault).1 = false ∧
      (g.GenID kv get_fault cas_fault).2.1 = none ∧
      (g.GenID kv get_fault cas_fault).2.2.1 = g) := by
  have h := GenIDs_inv initial bundle M hb1 hb2 steps (EtcdIdGenerator.new initial bundle)
    ⟨value, []⟩ M 0 rfl rfl hinit (le_refl _) hval hsteps hM (Or.inl ⟨⟨rfl, rfl⟩, rfl⟩)
  refine ⟨fun p hp => (h.1 p hp).1, h.2, ?_⟩
  intro g kv gf cf hcond hfail
  have hg := AllocateBundleIds_failure g kv (toInt g.bundle_) gf cf hfail
  simp only [EtcdIdGenerator.GenID, if_pos hcond, hfail, Bool.not_false, if_true]
  exact ⟨trivial, trivial, hg⟩

/-- C29 (amended), instance: a generator starting at 0 with bundles of 3, over a store
without the key, hands out 1, 2 and 3 and, after a failed call and another
client storing 100, the ids 101 and 102. -/
theorem GenID_ids_reserved_and_increasing_witness :
    (GenIDs (EtcdIdGenerator.new 0 3) ⟨none, []⟩ exampleIdSteps).map Prod.fst =
      [1, 2, 3, 101, 102] ∧
    ((GenIDs (EtcdIdGenerator.new 0 3) ⟨none, []⟩ exampleIdSteps).map Prod.fst).Pairwise
      (fun a b => a < b) :=
  ⟨by decide,
    (GenID_ids_reserved_and_increasing 0 3 100 none exampleIdSteps (by decide) (by decide)
      (by decide) (fun n hn => nomatch hn)
      (fun n hn => by simp [exampleIdSteps] at hn; omega) (by decide)).2.1⟩

/-- C30, evaluation: the task of inode 7 is registered with storage type 1.
`QueryWarmupProgress` into a default-constructed progress returns true and
copies the counts, but the progress handed back still reports the type
`kWarmupStorageTypeUnknown`, where a copy-constructed progress reports type 1.
For an inode that is not registered it returns false and leaves the output as
it was. -/
theorem QueryWarmupProgress_keeps_storage_type :
    exampleWarmupManager.inode2Progress_ = [(7, WarmupProgress.new (.other 1))] ∧
    (exampleWarmupManager.QueryWarmupProgress 7
      (WarmupProgress.new .kWarmupStorageTypeUnknown)).1 = true ∧
    (exampleWarmupManager.QueryWarmupProgress 7
      (WarmupProgress.new .kWarmupStorageTypeUnknown)).2.GetStorageType =
        .kWarmupStorageTypeUnknown ∧
    (WarmupProgress.copy (WarmupProgress.new (.other 1))).GetStorageType = .other 1 ∧
    (WarmupProgress.assign ⟨5, 5, 5, .kWarmupStorageTypeUnknown⟩ ⟨9, 4, 1, .other 1⟩) =
      ⟨9, 4, 1, .kWarmupStorageTypeUnknown⟩ ∧
    WarmupProgress.copy ⟨9, 4, 1, .other 1⟩ = ⟨9, 4, 1, .other 1⟩ ∧
    exampleWarmupManager.QueryWarmupProgress 8 ⟨5, 5, 5, .kWarmupStorageTypeUnknown⟩ =
      (false, ⟨5, 5, 5, .kWarmupStorageTypeUnknown⟩) := by
  decide

end DingoFS
